import Mathlib

/-!
# Hyundai community safety profile

Shallow embedding of `panda/board/safety/safety_hyundai_community.h`:
the checksum/counter extraction, the receive hook (topology detection and
control gate), the transmit hook (allow-list and steering limiter) and the
forwarding router, followed by theorems about them.

C `int` globals are `Int`, `bool` globals are `Bool`, `uint8_t` arithmetic is
`Nat` with an explicit `% 256`, and every hook takes the state of the globals
and returns the new state next to its C return value.  Code that the header
calls but that is declared elsewhere (the generic safety layer) enters either
as a field of `Externals` or as a definition flagged `Modelled from the spec`.
-/

namespace HyundaiCommunity

/-! ## Data model -/

/-- CAN frame as seen by the hooks: address, bus, declared length, payload. -/
structure CANPacket_t where
  addr : Nat
  bus : Nat
  len : Nat
  data : List Nat
deriving DecidableEq, Repr

/-- Entry of an allow-list table: `{addr, bus, len}`. -/
structure CanMsg where
  addr : Nat
  bus : Nat
  len : Nat
deriving DecidableEq, Repr

/-- Entry of a receive check (`CanMsgCheck`): the fields the profile table
initialises; an all-zero entry is the `{ 0 }` filler. -/
structure CanMsgCheck where
  addr : Nat
  bus : Nat
  len : Nat
  check_checksum : Bool
  max_counter : Nat
  expected_timestep : Nat
deriving DecidableEq, Repr

/-- Tag of the `type` field of `SteeringLimits`. -/
inductive SteeringControlType where
  | TorqueMotorLimited
  | TorqueDriverLimited
deriving DecidableEq, Repr

/-- Fields of `SteeringLimits` that the profile initialises (lines 1-10). -/
structure SteeringLimits where
  max_steer : Int
  max_rt_delta : Int
  max_rt_interval : Nat
  max_rate_up : Int
  max_rate_down : Int
  driver_torque_allowance : Int
  driver_torque_factor : Int
  type : SteeringControlType
deriving DecidableEq, Repr

/-- Driver torque sample window (`struct sample_t`). -/
structure sample_t where
  values : List Int
  min : Int
  max : Int
deriving DecidableEq, Repr

/-- Globals read or written by the hooks: the profile's own globals
(lines 17-35) followed by the globals of the generic safety layer that the
header touches. -/
structure State where
  Lcan_bus1 : Bool
  Fwd_bus1 : Bool
  Fwd_obd : Bool
  Fwd_bus2 : Bool
  OBD_cnt : Int
  LKAS11_bus0_cnt : Int
  Lcan_bus1_cnt : Int
  MDPS12_checksum : Int
  MDPS12_cnt : Int
  Last_StrColTq : Int
  LKAS11_op : Int
  MDPS12_op : Int
  CLU11_op : Int
  SCC12_op : Int
  SCC12_car : Int
  EMS11_op : Int
  MDPS_bus : Int
  SCC_bus : Int
  controls_allowed : Bool
  cruise_engaged_prev : Bool
  vehicle_moving : Bool
  relay_malfunction : Bool
  torque_driver : sample_t
  desired_torque_last : Int
  rt_torque_last : Int
  ts_last : Nat
deriving DecidableEq

/-- Functions of the generic safety layer that the header calls and that are
declared outside this file.  They are left arbitrary. -/
structure Externals where
  driver_limit_check : Int → Int → sample_t → Int → Int → Int → Int → Int → Bool
  rt_rate_limit_check : Int → Int → Int → Bool
  get_ts_elapsed : Nat → Nat → Nat
  update_sample : sample_t → Int → sample_t
  /-- The expression `(x * 0.79) - 808` converted to `int` (line 225). -/
  torque_driver_scale : Nat → Int
  generic_rx_checks : State → Bool → State

/-- The profile's steering limits (lines 1-10). -/
def HYUNDAI_COMMUNITY_STEERING_LIMITS : SteeringLimits :=
  { max_steer := 409
    max_rt_delta := 112
    max_rt_interval := 250000
    max_rate_up := 6
    max_rate_down := 8
    driver_torque_allowance := 50
    driver_torque_factor := 2
    type := SteeringControlType.TorqueDriverLimited }

def HYUNDAI_COMMUNITY_STANDSTILL_THRSLD : Nat := 30

/-- The transmit allow-list (lines 37-54). -/
def HYUNDAI_COMMUNITY_TX_MSGS : List CanMsg :=
  [ ⟨593, 2, 8⟩,
    ⟨790, 1, 8⟩,
    ⟨832, 0, 8⟩, ⟨832, 1, 8⟩,
    ⟨1056, 0, 8⟩,
    ⟨1057, 0, 8⟩,
    ⟨1290, 0, 8⟩,
    ⟨905, 0, 8⟩,
    ⟨909, 0, 8⟩,
    ⟨1155, 0, 8⟩,
    ⟨1157, 0, 4⟩,
    ⟨1186, 0, 8⟩,
    ⟨1265, 0, 4⟩, ⟨1265, 1, 4⟩, ⟨1265, 2, 4⟩ ]

/-- The receive check table (lines 57-63); each row is the `msg` array of one
`AddrCheckStruct`. -/
def hyundai_community_addr_checks : List (List CanMsgCheck) :=
  [ [⟨608, 0, 8, true, 3, 10000⟩, ⟨881, 0, 8, false, 0, 10000⟩, ⟨0, 0, 0, false, 0, 0⟩],
    [⟨902, 0, 8, false, 0, 20000⟩, ⟨0, 0, 0, false, 0, 0⟩, ⟨0, 0, 0, false, 0, 0⟩] ]

/-- State at module load (initialisers of lines 17-35; the generic layer's
globals start cleared). -/
def initial_state : State :=
  { Lcan_bus1 := false
    Fwd_bus1 := false
    Fwd_obd := false
    Fwd_bus2 := true
    OBD_cnt := 20
    LKAS11_bus0_cnt := 0
    Lcan_bus1_cnt := 0
    MDPS12_checksum := -1
    MDPS12_cnt := 0
    Last_StrColTq := 0
    LKAS11_op := 0
    MDPS12_op := 0
    CLU11_op := 0
    SCC12_op := 0
    SCC12_car := 0
    EMS11_op := 0
    MDPS_bus := -1
    SCC_bus := -1
    controls_allowed := false
    cruise_engaged_prev := false
    vehicle_moving := false
    relay_malfunction := false
    torque_driver := ⟨[], 0, 0⟩
    desired_torque_last := 0
    rt_torque_last := 0
    ts_last := 0 }

/-! ## Frame accessors -/

/-- Modelled from the spec: the accessor macro `GET_ADDR` is declared outside
this file; the frame's "address (integer identifier)". -/
def GET_ADDR (p : CANPacket_t) : Nat := p.addr

/-- Modelled from the spec: the accessor macro `GET_BUS` is declared outside
this file; the frame's "source bus (small integer)". -/
def GET_BUS (p : CANPacket_t) : Nat := p.bus

/-- Modelled from the spec: the accessor macro `GET_LEN` is declared outside
this file; the frame's "payload length". -/
def GET_LEN (p : CANPacket_t) : Nat := p.len

/-- Modelled from the spec: the accessor macro `GET_BYTE` is declared outside
this file; payload byte `i` of the frame's fixed buffer, an 8-bit value
(bytes beyond the stored list read as zero). -/
def GET_BYTE (p : CANPacket_t) (i : Nat) : Nat := p.data.getD i 0 % 256

/-- Modelled from the spec: the accessor macro `GET_BYTES_04` is declared
outside this file; payload bytes 0-3 as one 32-bit word, byte 0 lowest. -/
def GET_BYTES_04 (p : CANPacket_t) : Nat :=
  GET_BYTE p 0 ||| (GET_BYTE p 1 <<< 8) ||| (GET_BYTE p 2 <<< 16) ||| (GET_BYTE p 3 <<< 24)

/-- Modelled from the spec: the accessor macro `GET_BYTES_48` is declared
outside this file; payload bytes 4-7 as one 32-bit word, byte 4 lowest. -/
def GET_BYTES_48 (p : CANPacket_t) : Nat :=
  GET_BYTE p 4 ||| (GET_BYTE p 5 <<< 8) ||| (GET_BYTE p 6 <<< 16) ||| (GET_BYTE p 7 <<< 24)

/-! ## Checksum and counter extraction (lines 69-141) -/

def hyundai_community_get_checksum (to_push : CANPacket_t) : Nat :=
  let addr := GET_ADDR to_push
  if addr = 608 then
    (GET_BYTE to_push 7 &&& 0xF) % 256
  else if addr = 902 then
    (((GET_BYTE to_push 7 >>> 6) <<< 2) ||| (GET_BYTE to_push 5 >>> 6)) % 256
  else if addr = 916 then
    (GET_BYTE to_push 6 &&& 0xF) % 256
  else if addr = 1057 then
    (GET_BYTE to_push 7 >>> 4) % 256
  else
    0

/-- Guard of line 98: bit `j` of byte `i` takes part in the bit count. -/
def bit_counted (i j : Nat) : Bool :=
  ((i != 1) || decide (j < 6)) && ((i != 3) || decide (j < 6)) &&
  ((i != 5) || decide (j < 6)) && ((i != 7) || decide (j < 6))

/-- Lines 96-100: the value added to the accumulator for bit `j` of byte `i`. -/
def counted_bit (to_push : CANPacket_t) (i j : Nat) : Nat :=
  let b := GET_BYTE to_push i
  if bit_counted i j then (b >>> j) &&& 1 else 0

/-- Inner loop of lines 95-102 for byte `i`, stopped after `n` rounds;
`chksum` is the `uint8_t` accumulator. -/
def count_bits_inner (to_push : CANPacket_t) (i : Nat) (chksum : Nat) (n : Nat) : Nat :=
  (List.range n).foldl (fun c j => (c + counted_bit to_push i j) % 256) chksum

/-- Outer loop of lines 93-103, stopped after `n` bytes. -/
def count_bits_loop (to_push : CANPacket_t) (n : Nat) : Nat :=
  (List.range n).foldl (fun c i => count_bits_inner to_push i c 8) 0

/-- Lines 111-115: the value added to the accumulator for byte `i`, after the
checksum nibble has been masked out. -/
def nibble_term (addr : Nat) (to_push : CANPacket_t) (i : Nat) : Nat :=
  let b := GET_BYTE to_push i
  let b :=
    if (addr = 608 ∧ i = 7) ∨ (addr = 916 ∧ i = 6) ∨ (addr = 1057 ∧ i = 7) then
      b &&& (if addr = 1057 then 0x0F else 0xF0)
    else b
  (b % 16) + (b / 16)

/-- Loop of lines 107-116, stopped after `n` bytes; the accumulator is a
`uint8_t`. -/
def sum_nibbles_loop (addr : Nat) (to_push : CANPacket_t) (n : Nat) : Nat :=
  (List.range n).foldl
    (fun c i => if addr = 916 ∧ i = 7 then c else (c + nibble_term addr to_push i) % 256)
    0

def hyundai_community_compute_checksum (to_push : CANPacket_t) : Nat :=
  let addr := GET_ADDR to_push
  if addr = 902 then
    let chksum := count_bits_loop to_push 8
    ((chksum ^^^ 9) &&& 15) % 256
  else
    let chksum := sum_nibbles_loop addr to_push 8
    ((16 - (chksum % 16)) % 16) % 256

def hyundai_community_get_counter (to_push : CANPacket_t) : Nat :=
  let addr := GET_ADDR to_push
  if addr = 608 then
    ((GET_BYTE to_push 7 >>> 4) &&& 0x3) % 256
  else if addr = 902 then
    (((GET_BYTE to_push 3 >>> 6) <<< 2) ||| (GET_BYTE to_push 1 >>> 6)) % 256
  else if addr = 916 then
    ((GET_BYTE to_push 1 >>> 5) &&& 0x7) % 256
  else if addr = 1057 then
    (GET_BYTE to_push 7 &&& 0xF) % 256
  else if addr = 1265 then
    ((GET_BYTE to_push 3 >>> 4) &&& 0xF) % 256
  else
    0

/-! ## Generic-layer helpers with a specified meaning -/

/-- Modelled from the spec: `msg_allowed` is declared outside this file; the
allow-list is "a fixed table of (address, bus, length) triples; any outbound
frame not exactly matching an entry is refused". -/
def msg_allowed (to_send : CANPacket_t) (msg_list : List CanMsg) : Bool :=
  msg_list.any fun m =>
    decide (GET_ADDR to_send = m.addr) && decide (GET_BUS to_send = m.bus) &&
      decide (GET_LEN to_send = m.len)

/-- Modelled from the spec: `max_limit_check` is declared outside this file;
the absolute bound is "commanded torque magnitude ≤ fixed max", so the check
reports a violation when the value leaves `[MIN_VAL, MAX_VAL]`. -/
def max_limit_check (val MAX_VAL MIN_VAL : Int) : Bool :=
  decide (val > MAX_VAL) || decide (val < MIN_VAL)

/-! ## Receive hook (lines 143-271) -/

/-- Lines 156-164: gateway (LCAN) detection on bus 1. -/
def rx_lcan_bus1 (s : State) (addr bus : Nat) : State :=
  if bus = 1 ∧ (addr = 1296 ∨ addr = 524) then
    let s := { s with Lcan_bus1_cnt := 500 }
    if s.Fwd_bus1 || !s.Lcan_bus1 then
      { s with Lcan_bus1 := true, Fwd_bus1 := false }
    else s
  else s

/-- Lines 166-187: LKAS11 seen on bus 0 or bus 2. -/
def rx_lkas11 (s : State) (addr bus : Nat) : State :=
  if addr = 832 then
    let s :=
      if bus = 0 ∧ s.Fwd_bus2 = true then
        { s with Fwd_bus2 := false, LKAS11_bus0_cnt := 20 }
      else s
    if bus = 2 then
      let s :=
        if s.LKAS11_bus0_cnt > 0 then
          { s with LKAS11_bus0_cnt := s.LKAS11_bus0_cnt - 1 }
        else if !s.Fwd_bus2 then
          { s with Fwd_bus2 := true }
        else s
      if s.Lcan_bus1_cnt > 0 then
        { s with Lcan_bus1_cnt := s.Lcan_bus1_cnt - 1 }
      else if s.Lcan_bus1 then
        { s with Lcan_bus1 := false }
      else s
    else s
  else s

/-- Lines 189-203: power-steering bus discovery. -/
def rx_mdps_bus (s : State) (addr bus : Nat) : State :=
  if (addr = 593 ∨ addr = 897) ∧ s.MDPS_bus ≠ (bus : Int) then
    if bus ≠ 1 ∨ (s.Lcan_bus1 = false ∨ s.Fwd_obd = true) then
      let s := { s with MDPS_bus := (bus : Int) }
      if bus = 1 ∧ s.Fwd_obd = false then
        if s.Fwd_bus1 = false ∧ s.Lcan_bus1 = false then
          { s with Fwd_bus1 := true }
        else s
      else s
    else s
  else s

/-- Lines 205-220: cruise ECU bus discovery. -/
def rx_scc_bus (s : State) (addr bus : Nat) : State :=
  if (addr = 1056 ∨ addr = 1057) ∧ s.SCC_bus ≠ (bus : Int) then
    if bus ≠ 1 ∨ s.Lcan_bus1 = false then
      let s := { s with SCC_bus := (bus : Int) }
      if bus = 1 then
        if s.Fwd_bus1 = false then { s with Fwd_bus1 := true } else s
      else s
    else s
  else s

/-- Lines 230-244: control gate from SCC11. -/
def rx_scc11_gate (s : State) (to_push : CANPacket_t) (addr : Nat) : State :=
  if addr = 1056 ∧ s.SCC12_op = 0 then
    let cruise_engaged : Nat := GET_BYTES_04 to_push &&& 0x1
    let s :=
      if cruise_engaged ≠ 0 ∧ s.cruise_engaged_prev = false then
        { s with controls_allowed := true }
      else s
    let s := if cruise_engaged = 0 then { s with controls_allowed := false } else s
    { s with cruise_engaged_prev := decide (cruise_engaged ≠ 0) }
  else s

/-- Lines 246-260: control gate from EMS16 for cars without SCC. -/
def rx_ems16_gate (s : State) (to_push : CANPacket_t) (addr bus : Nat) : State :=
  if addr = 608 ∧ bus = 0 ∧ s.SCC_bus = -1 ∧ s.SCC12_op = 0 then
    let cruise_engaged : Nat := (GET_BYTES_04 to_push >>> 25) &&& 0x1
    let s :=
      if cruise_engaged ≠ 0 ∧ s.cruise_engaged_prev = false then
        { s with controls_allowed := true }
      else s
    let s := if cruise_engaged = 0 then { s with controls_allowed := false } else s
    { s with cruise_engaged_prev := decide (cruise_engaged ≠ 0) }
  else s

/-- Lines 224-228: driver torque sample from MDPS12. -/
def rx_torque_driver (E : Externals) (s : State) (to_push : CANPacket_t) (addr bus : Nat) :
    State :=
  if addr = 593 ∧ (bus : Int) = s.MDPS_bus then
    let torque_driver_new := E.torque_driver_scale (GET_BYTES_04 to_push &&& 0x7ff)
    { s with torque_driver := E.update_sample s.torque_driver torque_driver_new }
  else s

/-- Lines 262-267: wheel speed sample, averaging opposite corners. -/
def rx_wheel_speed (s : State) (to_push : CANPacket_t) (addr : Nat) : State :=
  if addr = 902 then
    let hyundai_speed :=
      (GET_BYTES_04 to_push &&& 0x3FFF) + ((GET_BYTES_48 to_push >>> 16) &&& 0x3FFF)
    let hyundai_speed := hyundai_speed / 2
    { s with vehicle_moving := decide (hyundai_speed > HYUNDAI_COMMUNITY_STANDSTILL_THRSLD) }
  else s

/-- Lines 222-269: the state updates guarded by `valid`. -/
def rx_state_update (E : Externals) (s : State) (to_push : CANPacket_t) (addr bus : Nat) : State :=
  let s := rx_torque_driver E s to_push addr bus
  let s := rx_scc11_gate s to_push addr
  let s := rx_ems16_gate s to_push addr bus
  let s := rx_wheel_speed s to_push addr
  E.generic_rx_checks s (decide (addr = 832 ∧ bus = 0))

/-- The receive hook.  Modelled from the spec: `addr_safety_check` is declared
outside this file; the Frame Authenticator "returns pass/fail" and keeps "no
state beyond a small per-address history table", so its verdict enters as the
Boolean `valid`.  Returns the hook's return value and the new globals. -/
def hyundai_community_rx_hook (E : Externals) (s : State) (to_push : CANPacket_t)
    (valid : Bool) : Bool × State :=
  let addr := GET_ADDR to_push
  let bus := GET_BUS to_push
  let valid := if bus = 1 ∧ s.Lcan_bus1 = true then false else valid
  let s := rx_lcan_bus1 s addr bus
  let s := rx_lkas11 s addr bus
  let s := rx_mdps_bus s addr bus
  let s := rx_scc_bus s addr bus
  let s := if valid then rx_state_update E s to_push addr bus else s
  (valid, s)

/-! ## Transmit hook (lines 273-364) -/

/-- Decoded steering torque of an LKAS11 frame (line 293). -/
def desired_torque_of (to_send : CANPacket_t) : Int :=
  (((GET_BYTES_04 to_send >>> 16) &&& 0x7ff : Nat) : Int) - 1024

/-- Lines 297-327: the three limiter checks, run while controls are allowed.
Returns the accumulated `violation` and the new globals. -/
def tx_steer_checks (E : Externals) (HYUNDAI_STEERING_LIMITS : SteeringLimits) (s : State)
    (desired_torque : Int) (ts : Nat) (violation : Bool) : Bool × State :=
  let torque_check :=
    max_limit_check desired_torque HYUNDAI_STEERING_LIMITS.max_steer
      (-HYUNDAI_STEERING_LIMITS.max_steer)
  let violation := violation || torque_check
  let torque_rate_check :=
    E.driver_limit_check desired_torque s.desired_torque_last s.torque_driver
      HYUNDAI_STEERING_LIMITS.max_steer HYUNDAI_STEERING_LIMITS.max_rate_up
      HYUNDAI_STEERING_LIMITS.max_rate_down HYUNDAI_STEERING_LIMITS.driver_torque_allowance
      HYUNDAI_STEERING_LIMITS.driver_torque_factor
  let violation := violation || torque_rate_check
  let s := { s with desired_torque_last := desired_torque }
  let torque_rt_check :=
    E.rt_rate_limit_check desired_torque s.rt_torque_last HYUNDAI_STEERING_LIMITS.max_rt_delta
  let violation := violation || torque_rt_check
  let ts_elapsed := E.get_ts_elapsed ts s.ts_last
  let s :=
    if ts_elapsed > HYUNDAI_STEERING_LIMITS.max_rt_interval then
      { s with rt_torque_last := desired_torque, ts_last := ts }
    else s
  (violation, s)

/-- Lines 290-345: the LKAS11 branch.  Returns the new `tx` and globals. -/
def tx_lkas11 (E : Externals) (HYUNDAI_STEERING_LIMITS : SteeringLimits) (s : State)
    (to_send : CANPacket_t) (ts : Nat) (tx : Int) : Int × State :=
  let s := { s with LKAS11_op := 20 }
  let desired_torque := desired_torque_of to_send
  let violation := false
  let r :=
    if s.controls_allowed then
      tx_steer_checks E HYUNDAI_STEERING_LIMITS s desired_torque ts violation
    else (violation, s)
  let violation := r.1
  let s := r.2
  let violation := if !s.controls_allowed && decide (desired_torque ≠ 0) then true else violation
  let s :=
    if !s.controls_allowed then
      { s with desired_torque_last := 0, rt_torque_last := 0, ts_last := ts }
    else s
  let tx := if violation then 0 else tx
  (tx, s)

/-- Lines 357-360: arming of the ownership counters. -/
def tx_ownership (s : State) (addr bus : Nat) : State :=
  let s := if addr = 593 then { s with MDPS12_op := 20 } else s
  let s := if addr = 1265 ∧ bus = 1 then { s with CLU11_op := 20 } else s
  let s :=
    if addr = 1057 then
      let s := { s with SCC12_op := 20 }
      if s.SCC12_car > 0 then { s with SCC12_car := s.SCC12_car - 1 } else s
    else s
  if addr = 790 then { s with EMS11_op := 20 } else s

/-- The transmit hook.  `HYUNDAI_STEERING_LIMITS` is the limits record the
hook reads (declared outside this file) and `ts` the value returned by
`microsecond_timer_get()`.  Returns `tx` and the new globals. -/
def hyundai_community_tx_hook (E : Externals) (HYUNDAI_STEERING_LIMITS : SteeringLimits)
    (s : State) (to_send : CANPacket_t) (longitudinal_allowed : Bool) (ts : Nat) : Int × State :=
  let _unused := longitudinal_allowed
  let tx : Int := 1
  let addr := GET_ADDR to_send
  let bus := GET_BUS to_send
  let tx := if !msg_allowed to_send HYUNDAI_COMMUNITY_TX_MSGS then 0 else tx
  let tx := if s.relay_malfunction then 0 else tx
  let r := if addr = 832 then tx_lkas11 E HYUNDAI_STEERING_LIMITS s to_send ts tx else (tx, s)
  let tx := r.1
  let s := r.2
  let tx :=
    if addr = 1265 ∧ s.controls_allowed = false ∧ ((bus : Int) ≠ s.MDPS_bus ∧ s.MDPS_bus = 1) then
      if (GET_BYTES_04 to_send &&& 0x7) ≠ 4 then 0 else tx
    else tx
  (tx, tx_ownership s addr bus)

/-! ## Forwarding hook (lines 366-429) -/

/-- Lines 374-391: frames from bus 0 while `Fwd_bus2` is set. -/
def fwd_from_bus0 (s : State) (addr : Nat) (fwd_to_bus1 : Int) : Int × State :=
  if s.CLU11_op = 0 ∨ addr ≠ 1265 ∨ s.MDPS_bus = 0 then
    if s.MDPS12_op = 0 ∨ addr ≠ 593 then
      if s.EMS11_op = 0 ∨ addr ≠ 790 then
        (if fwd_to_bus1 = 1 then 12 else 2, s)
      else
        (2, { s with EMS11_op := s.EMS11_op - 1 })
    else
      (fwd_to_bus1, { s with MDPS12_op := s.MDPS12_op - 1 })
  else
    (2, { s with CLU11_op := s.CLU11_op - 1 })

/-- Lines 392-404: frames from bus 1 while `Fwd_bus2` is set. -/
def fwd_from_bus1 (s : State) (addr : Nat) : Int × State :=
  if s.MDPS12_op = 0 ∨ addr ≠ 593 then
    if s.SCC12_op = 0 ∨ (addr ≠ 1056 ∧ addr ≠ 1057 ∧ addr ≠ 1290 ∧ addr ≠ 905) then
      (20, s)
    else
      (2, { s with SCC12_op := s.SCC12_op - 1 })
  else
    (0, { s with MDPS12_op := s.MDPS12_op - 1 })

/-- Lines 405-419: frames from bus 2 while `Fwd_bus2` is set; `bus_fwd` is
the value held so far. -/
def fwd_from_bus2 (s : State) (addr : Nat) (fwd_to_bus1 bus_fwd : Int) : Int × State :=
  if s.LKAS11_op = 0 ∨ (addr ≠ 832 ∧ addr ≠ 1157) then
    if s.SCC12_op = 0 ∨ (addr ≠ 1056 ∧ addr ≠ 1057 ∧ addr ≠ 1290 ∧ addr ≠ 905) then
      (if fwd_to_bus1 = 1 then 10 else 0, s)
    else
      (fwd_to_bus1, { s with SCC12_op := s.SCC12_op - 1 })
  else if s.MDPS_bus = 0 then
    (fwd_to_bus1, { s with LKAS11_op := s.LKAS11_op - 1 })
  else
    (bus_fwd, { s with LKAS11_op := s.LKAS11_op - 1 })

/-- The forwarding hook.  Returns `bus_fwd` and the new globals. -/
def hyundai_community_fwd_hook (s : State) (bus_num : Int) (to_fwd : CANPacket_t) : Int × State :=
  let bus_fwd : Int := -1
  let addr := GET_ADDR to_fwd
  let fwd_to_bus1 : Int := if s.Fwd_bus1 || s.Fwd_obd then 1 else -1
  if s.Fwd_bus2 then
    let r := if bus_num = 0 then fwd_from_bus0 s addr fwd_to_bus1 else (bus_fwd, s)
    let r := if bus_num = 1 ∧ (r.2.Fwd_bus1 || r.2.Fwd_obd) = true then fwd_from_bus1 r.2 addr else r
    let r := if bus_num = 2 then fwd_from_bus2 r.2 addr fwd_to_bus1 r.1 else r
    r
  else
    let bus_fwd := if bus_num = 0 then fwd_to_bus1 else bus_fwd
    let bus_fwd := if bus_num = 1 ∧ (s.Fwd_bus1 || s.Fwd_obd) = true then 0 else bus_fwd
    (bus_fwd, s)

/-! ## Checksum formulas as the specification words them -/

/-- Sum, as an unbounded integer, of the high nibbles of bytes 0..7 and the
low nibbles of bytes 0..6: every nibble of the payload except the low nibble
of byte 7. -/
def nibble_sum_608 (p : CANPacket_t) : Nat :=
  ((List.range 8).map fun i => GET_BYTE p i / 16).sum +
    ((List.range 7).map fun i => GET_BYTE p i % 16).sum

/-- Nibble-sum checksum: `(16 - sum mod 16) mod 16`. -/
def nibble_checksum_608 (p : CANPacket_t) : Nat :=
  (16 - nibble_sum_608 p % 16) % 16

/-- Number of set bits of a byte. -/
def popcount8 (b : Nat) : Nat :=
  ((List.range 8).filter fun j => b.testBit j).length

/-- Byte `i` of the payload with the top two bits of bytes 1, 3, 5 and 7
cleared. -/
def masked_byte_902 (p : CANPacket_t) (i : Nat) : Nat :=
  if i = 1 ∨ i = 3 ∨ i = 5 ∨ i = 7 then GET_BYTE p i &&& 0x3F else GET_BYTE p i

/-- Number of set bits of the payload after that clearing. -/
def bit_count_902 (p : CANPacket_t) : Nat :=
  ((List.range 8).map fun i => popcount8 (masked_byte_902 p i)).sum

/-- Set-bit-count checksum: the count XOR 9, masked to 4 bits. -/
def bit_checksum_902 (p : CANPacket_t) : Nat :=
  (bit_count_902 p ^^^ 9) &&& 15

/-- Bits of byte `i` that belong to the checksum field of address `addr`
(the bits `hyundai_community_get_checksum` reads). -/
def checksum_field_mask (addr i : Nat) : Nat :=
  if addr = 608 ∧ i = 7 then 0x0F
  else if addr = 902 ∧ (i = 5 ∨ i = 7) then 0xC0
  else if addr = 916 ∧ i = 6 then 0x0F
  else if addr = 1057 ∧ i = 7 then 0xF0
  else 0

/-- Frame `g` agrees with frame `f` on the address and on every payload bit
outside the checksum field. -/
def same_outside_checksum (f g : CANPacket_t) : Prop :=
  GET_ADDR g = GET_ADDR f ∧
    ∀ i, i < 8 →
      GET_BYTE g i &&& (255 - checksum_field_mask (GET_ADDR f) i) =
        GET_BYTE f i &&& (255 - checksum_field_mask (GET_ADDR f) i)

/-- Frame `g` differs from frame `f` in at least one bit of the checksum
field. -/
def differs_in_checksum (f g : CANPacket_t) : Prop :=
  ∃ i, i < 8 ∧
    GET_BYTE g i &&& checksum_field_mask (GET_ADDR f) i ≠
      GET_BYTE f i &&& checksum_field_mask (GET_ADDR f) i

/-! ## Sample inputs -/

/-- Sample frame: LKAS11 on bus 0 carrying raw torque field 1124, i.e. torque 100. -/
def lkas11_torque_100 : CANPacket_t := ⟨832, 0, 8, [0, 0, 100, 4, 0, 0, 0, 0]⟩

/-- Sample frame: LKAS11 on bus 0 carrying raw torque field 1524, i.e. torque 500. -/
def lkas11_torque_500 : CANPacket_t := ⟨832, 0, 8, [0, 0, 244, 5, 0, 0, 0, 0]⟩

/-- Sample externals: limiter checks that never object, a clock difference,
a sample window that shifts in the new value, a driver-torque scaling that
truncates `0.79 * x - 808` toward zero in exact arithmetic, and a generic
receive check that leaves the globals alone. -/
def sample_externals : Externals :=
  { driver_limit_check := fun _ _ _ _ _ _ _ _ => false
    rt_rate_limit_check := fun _ _ _ => false
    get_ts_elapsed := fun ts ts_last => ts - ts_last
    update_sample := fun smp v => ⟨v :: smp.values, smp.min, smp.max⟩
    torque_driver_scale := fun x => Int.tdiv ((x : Int) * 79 - 80800) 100
    generic_rx_checks := fun s _ => s }

/-- Sample frame: SCC11 on bus 0 with the engage bit (bit 0) low. -/
def scc11_low : CANPacket_t := ⟨1056, 0, 8, [0, 0, 0, 0, 0, 0, 0, 0]⟩

/-- Sample frame: SCC11 on bus 0 with the engage bit (bit 0) high. -/
def scc11_high : CANPacket_t := ⟨1056, 0, 8, [1, 0, 0, 0, 0, 0, 0, 0]⟩

/-- Sample frame: WHL_SPD11 on bus 0 reporting a high wheel speed. -/
def whl_spd11_fast : CANPacket_t := ⟨902, 0, 8, [255, 63, 0, 0, 0, 0, 255, 63]⟩

/-- Sample frame: EMS16 with nibble sum 3 + 15 = 18 outside the checksum
nibble and checksum nibble 14. -/
def ems16_valid : CANPacket_t := ⟨608, 0, 8, [3, 0, 0, 0, 0, 0, 0, 0xFE]⟩

/-- Sample frame: WHL_SPD11 with five counted bits set, counter bits set in
bytes 1 and 3, and checksum field 12 = (5 xor 9) and 15. -/
def whl_spd11_valid : CANPacket_t := ⟨902, 0, 8, [7, 0xC1, 0, 0x80, 0, 0x01, 0, 0xC0]⟩

/-- Sample frame: `ems16_valid` with its checksum nibble changed from 14 to 13. -/
def ems16_flipped : CANPacket_t := ⟨608, 0, 8, [3, 0, 0, 0, 0, 0, 0, 0xFD]⟩

/-! ## Hook sequences -/

/-- The profile's own globals (lines 17-35), in declaration order. -/
def profile_globals (s : State) :
    Bool × Bool × Bool × Bool × Int × Int × Int × Int × Int × Int × Int × Int × Int × Int ×
      Int × Int × Int × Int :=
  (s.Lcan_bus1, s.Fwd_bus1, s.Fwd_obd, s.Fwd_bus2, s.OBD_cnt, s.LKAS11_bus0_cnt,
    s.Lcan_bus1_cnt, s.MDPS12_checksum, s.MDPS12_cnt, s.Last_StrColTq, s.LKAS11_op,
    s.MDPS12_op, s.CLU11_op, s.SCC12_op, s.SCC12_car, s.EMS11_op, s.MDPS_bus, s.SCC_bus)

/-- The generic receive check, declared outside this file, does not write the
profile's own globals. -/
def keeps_profile_globals (E : Externals) : Prop :=
  ∀ (s : State) (b : Bool), profile_globals (E.generic_rx_checks s b) = profile_globals s

/-- The generic receive check, declared outside this file, does not write the
limiter baseline. -/
def keeps_torque_baseline (E : Externals) : Prop :=
  ∀ (s : State) (b : Bool),
    (E.generic_rx_checks s b).desired_torque_last = s.desired_torque_last ∧
    (E.generic_rx_checks s b).rt_torque_last = s.rt_torque_last ∧
    (E.generic_rx_checks s b).ts_last = s.ts_last

/-- The limiter baseline: last commanded torque, real-time snapshot and
window timestamp. -/
def torque_baseline (s : State) : Int × Int × Nat :=
  (s.desired_torque_last, s.rt_torque_last, s.ts_last)

/-- One hook call made by the dispatch layer, with the inputs the hook does
not take from the globals: the frame, the authentication verdict, the clock
reading, the source bus. -/
inductive HookCall where
  | rx (f : CANPacket_t) (valid : Bool)
  | tx (f : CANPacket_t) (longitudinal_allowed : Bool) (ts : Nat)
  | fwd (bus_num : Int) (f : CANPacket_t)

/-- State after one hook call. -/
def run_call (E : Externals) (L : SteeringLimits) (s : State) : HookCall → State
  | HookCall.rx f valid => (hyundai_community_rx_hook E s f valid).2
  | HookCall.tx f la ts => (hyundai_community_tx_hook E L s f la ts).2
  | HookCall.fwd bus_num f => (hyundai_community_fwd_hook s bus_num f).2

/-- State after a sequence of hook calls, first call first. -/
def run_calls (E : Externals) (L : SteeringLimits) (s : State) (cs : List HookCall) : State :=
  cs.foldl (run_call E L) s

/-- States reachable from the module-load state by a sequence of hook calls. -/
def Reachable (E : Externals) (L : SteeringLimits) (s : State) : Prop :=
  ∃ cs : List HookCall, run_calls E L initial_state cs = s

/-- A call other than a transmit of LKAS11 (address 832). -/
def not_tx_lkas11 : HookCall → Prop
  | HookCall.tx f _ _ => GET_ADDR f ≠ 832
  | _ => True

/-- Sample frame: CLU11 from bus 0. -/
def clu11_bus0 : CANPacket_t := ⟨1265, 0, 4, [0, 0, 0, 0]⟩

/-- Sample state: bus-2 relay off, bus-1 relay on, CLU11 owned. -/
def st_passthrough : State :=
  { initial_state with Fwd_bus2 := false, Fwd_bus1 := true, CLU11_op := 20 }

/-- Sample state: CLU11 owned, power steering on bus 0, bus-1 relay on. -/
def st_clu11_mdps0 : State :=
  { initial_state with CLU11_op := 20, MDPS_bus := 0, Fwd_bus1 := true }

/-- Sample state: CLU11 owned, power steering on bus 1, bus-1 relay on. -/
def st_clu11_mdps1 : State :=
  { initial_state with CLU11_op := 20, MDPS_bus := 1, Fwd_bus1 := true }

/-- Sample frame: LKAS11 with torque 100 addressed to bus 2, which is not on
the allow-list. -/
def lkas11_torque_100_bus2 : CANPacket_t := ⟨832, 2, 8, [0, 0, 100, 4, 0, 0, 0, 0]⟩

/-- Sample state: module load with controls allowed. -/
def st_controls_on : State := { initial_state with controls_allowed := true }

/-- Sample sequence: engage, command torque 100, disengage. -/
def calls_engage_steer_disengage : List HookCall :=
  [HookCall.rx scc11_high true, HookCall.tx lkas11_torque_100 false 300000,
    HookCall.rx scc11_low true]


/-- The four topology detectors of the receive hook (lines 156-220), run in
source order. -/
def rx_topology (s : State) (addr bus : Nat) : State :=
  rx_scc_bus (rx_mdps_bus (rx_lkas11 (rx_lcan_bus1 s addr bus) addr bus) addr bus) addr bus

/-- The topology part of the profile's globals: detection flags, relay flags,
grace counters and discovered buses. -/
def topology_globals (s : State) : Bool × Bool × Bool × Bool × Int × Int × Int × Int :=
  (s.Lcan_bus1, s.Fwd_bus1, s.Fwd_obd, s.Fwd_bus2, s.LKAS11_bus0_cnt, s.Lcan_bus1_cnt,
    s.MDPS_bus, s.SCC_bus)

/-- While the gateway grace counter is armed the gateway flag is set and the
bus-1 relay is off; the two flags are never both set. -/
def gateway_inv (s : State) : Prop :=
  (0 < s.Lcan_bus1_cnt → s.Lcan_bus1 = true ∧ s.Fwd_bus1 = false) ∧
    ¬ (s.Lcan_bus1 = true ∧ s.Fwd_bus1 = true)

/-- Every counter lies between zero and its arming value. -/
def counters_in_range (s : State) : Prop :=
  (0 ≤ s.Lcan_bus1_cnt ∧ s.Lcan_bus1_cnt ≤ 500) ∧
  (0 ≤ s.LKAS11_bus0_cnt ∧ s.LKAS11_bus0_cnt ≤ 20) ∧
  (0 ≤ s.LKAS11_op ∧ s.LKAS11_op ≤ 20) ∧
  (0 ≤ s.MDPS12_op ∧ s.MDPS12_op ≤ 20) ∧
  (0 ≤ s.CLU11_op ∧ s.CLU11_op ≤ 20) ∧
  (0 ≤ s.SCC12_op ∧ s.SCC12_op ≤ 20) ∧
  (0 ≤ s.EMS11_op ∧ s.EMS11_op ≤ 20) ∧
  s.SCC12_car = 0

/-- A counter with arming value `A` is re-armed, lowered by one, or left as
it is. -/
def counter_step (A c c' : Int) : Prop :=
  c' = A ∨ c' = c - 1 ∨ c' = c

/-- Every counter of the profile makes a `counter_step` from `s` to `t`. -/
def counters_step (s t : State) : Prop :=
  counter_step 500 s.Lcan_bus1_cnt t.Lcan_bus1_cnt ∧
  counter_step 20 s.LKAS11_bus0_cnt t.LKAS11_bus0_cnt ∧
  counter_step 20 s.LKAS11_op t.LKAS11_op ∧
  counter_step 20 s.MDPS12_op t.MDPS12_op ∧
  counter_step 20 s.CLU11_op t.CLU11_op ∧
  counter_step 20 s.SCC12_op t.SCC12_op ∧
  counter_step 20 s.EMS11_op t.EMS11_op ∧
  (t.SCC12_car = s.SCC12_car - 1 ∨ t.SCC12_car = s.SCC12_car)

/-- Sample frame: gateway diagnostic address 1296 on bus 1. -/
def lcan_bus1_frame : CANPacket_t := ⟨1296, 1, 8, [0, 0, 0, 0, 0, 0, 0, 0]⟩

/-- Sample frame: MDPS12 on bus 1. -/
def mdps12_bus1 : CANPacket_t := ⟨593, 1, 8, [0, 0, 0, 0, 0, 0, 0, 0]⟩

/-- Sample frame: LKAS11 seen on bus 2, one grace cycle. -/
def lkas11_bus2 : CANPacket_t := ⟨832, 2, 8, [0, 0, 0, 4, 0, 0, 0, 0]⟩

/-- The counters of the profile: the two grace counters, the five ownership
counters and `SCC12_car`. -/
def counter_globals (s : State) : Int × Int × Int × Int × Int × Int × Int × Int :=
  (s.Lcan_bus1_cnt, s.LKAS11_bus0_cnt, s.LKAS11_op, s.MDPS12_op, s.CLU11_op, s.SCC12_op,
    s.EMS11_op, s.SCC12_car)


/-- The five synthesized message families with an ownership counter. -/
inductive Family where
  | CLU11
  | MDPS12
  | EMS11
  | SCC12
  | LKAS11
deriving DecidableEq, Repr

/-- The ownership counter of a family. -/
def Family.counter : Family → State → Int
  | Family.CLU11, s => s.CLU11_op
  | Family.MDPS12, s => s.MDPS12_op
  | Family.EMS11, s => s.EMS11_op
  | Family.SCC12, s => s.SCC12_op
  | Family.LKAS11, s => s.LKAS11_op

/-- The state with the ownership counter of a family replaced, all else kept. -/
def Family.set_counter : Family → State → Int → State
  | Family.CLU11, s, v => { s with CLU11_op := v }
  | Family.MDPS12, s, v => { s with MDPS12_op := v }
  | Family.EMS11, s, v => { s with EMS11_op := v }
  | Family.SCC12, s, v => { s with SCC12_op := v }
  | Family.LKAS11, s, v => { s with LKAS11_op := v }

/-- The addresses of a family, as the router tests them. -/
def Family.has_addr : Family → Nat → Prop
  | Family.CLU11, addr => addr = 1265
  | Family.MDPS12, addr => addr = 593
  | Family.EMS11, addr => addr = 790
  | Family.SCC12, addr => addr = 1056 ∨ addr = 1057 ∨ addr = 1290 ∨ addr = 905
  | Family.LKAS11, addr => addr = 832 ∨ addr = 1157

/-- A frame of the family arriving where the router tests the family's
ownership counter: the exclusion branch is active, the source bus is one the
family is excluded on, and for CLU11 the power steering is off bus 0. -/
def Family.matching : Family → State → Int → Nat → Prop
  | Family.CLU11, s, bus_num, addr =>
      s.Fwd_bus2 = true ∧ bus_num = 0 ∧ addr = 1265 ∧ s.MDPS_bus ≠ 0
  | Family.MDPS12, s, bus_num, addr =>
      s.Fwd_bus2 = true ∧ addr = 593 ∧
        (bus_num = 0 ∨ (bus_num = 1 ∧ (s.Fwd_bus1 || s.Fwd_obd) = true))
  | Family.EMS11, s, bus_num, addr => s.Fwd_bus2 = true ∧ bus_num = 0 ∧ addr = 790
  | Family.SCC12, s, bus_num, addr =>
      s.Fwd_bus2 = true ∧ (addr = 1056 ∨ addr = 1057 ∨ addr = 1290 ∨ addr = 905) ∧
        ((bus_num = 1 ∧ (s.Fwd_bus1 || s.Fwd_obd) = true) ∨ bus_num = 2)
  | Family.LKAS11, s, bus_num, addr =>
      s.Fwd_bus2 = true ∧ bus_num = 2 ∧ (addr = 832 ∨ addr = 1157)

instance Family.decidable_has_addr (fam : Family) (addr : Nat) :
    Decidable (fam.has_addr addr) := by
  cases fam <;> unfold Family.has_addr <;> infer_instance

instance Family.decidable_matching (fam : Family) (s : State) (bus_num : Int) (addr : Nat) :
    Decidable (fam.matching s bus_num addr) := by
  cases fam <;> unfold Family.matching <;> infer_instance

/-- Destination of the normal relay while the exclusion branch is active:
the value the router returns when no ownership counter withholds the frame. -/
def normal_relay (s : State) (bus_num : Int) : Int :=
  if bus_num = 0 then (if (s.Fwd_bus1 || s.Fwd_obd) = true then 12 else 2)
  else if bus_num = 1 ∧ (s.Fwd_bus1 || s.Fwd_obd) = true then 20
  else if bus_num = 2 then (if (s.Fwd_bus1 || s.Fwd_obd) = true then 10 else 0)
  else -1

/-- State after a sequence of forwarding calls, first call first. -/
def fwd_run (s : State) (frames : List (Int × CANPacket_t)) : State :=
  frames.foldl (fun st p => (hyundai_community_fwd_hook st p.1 p.2).2) s

/-- Sample state: module load with SCC12 owned for three more frames. -/
def st_scc12_owned : State := { initial_state with SCC12_op := 3 }

/-- Sample frame: SCC12. -/
def scc12_frame : CANPacket_t := ⟨1057, 2, 8, [0, 0, 0, 0, 0, 0, 0, 0]⟩


/-- A grace cycle: LKAS11 (address 832) seen on bus 2. -/
def is_grace_cycle (f : CANPacket_t) : Bool :=
  decide (GET_ADDR f = 832 ∧ GET_BUS f = 2)

/-- A received frame that fires neither the gateway detector nor a bus
discovery: not address 1296 or 524 on bus 1, and not address 593, 897, 1056
or 1057. -/
def is_quiet_frame (f : CANPacket_t) : Bool :=
  !(decide (GET_BUS f = 1) && (decide (GET_ADDR f = 1296) || decide (GET_ADDR f = 524))) &&
    !(decide (GET_ADDR f = 593) || decide (GET_ADDR f = 897) || decide (GET_ADDR f = 1056) ||
      decide (GET_ADDR f = 1057))

/-- Number of grace cycles in a sequence of received frames. -/
def grace_cycles (frames : List (CANPacket_t × Bool)) : Nat :=
  (frames.filter fun p => is_grace_cycle p.1).length

/-- State after a sequence of receive calls, first frame first; each frame
comes with its authentication verdict. -/
def rx_run (E : Externals) (s : State) (frames : List (CANPacket_t × Bool)) : State :=
  frames.foldl (fun st p => (hyundai_community_rx_hook E st p.1 p.2).2) s

/-- Sample state: module load, then MDPS12 discovered on bus 1, which enables
the bus-1 relay. -/
def st_mdps_bus1 : State :=
  (hyundai_community_rx_hook sample_externals initial_state mdps12_bus1 true).2

/-- Frame `g` is frame `f` with bit `j` of payload byte `i` flipped and
everything else kept. -/
def flips_bit (f g : CANPacket_t) (i j : Nat) : Prop :=
  GET_ADDR g = GET_ADDR f ∧ GET_BYTE g i = GET_BYTE f i ^^^ 2 ^ j ∧
    ∀ k, k < 8 → k ≠ i → GET_BYTE g k = GET_BYTE f k

/-- Sample frame: `ems16_valid` with bit 1 of byte 0 flipped. -/
def ems16_bit_flipped : CANPacket_t := ⟨608, 0, 8, [1, 0, 0, 0, 0, 0, 0, 0xFE]⟩

/-- A gateway diagnostic frame: address 1296 or 524 on bus 1. -/
def is_gateway_frame (f : CANPacket_t) : Bool :=
  decide (GET_BUS f = 1) && (decide (GET_ADDR f = 1296) || decide (GET_ADDR f = 524))

/-- The frame triggers a bus discovery in state `s`: the detectors of lines
189-220 move `MDPS_bus` or `SCC_bus`. -/
def triggers_discovery (s : State) (f : CANPacket_t) : Bool :=
  decide ((rx_topology s (GET_ADDR f) (GET_BUS f)).MDPS_bus ≠ s.MDPS_bus) ||
    decide ((rx_topology s (GET_ADDR f) (GET_BUS f)).SCC_bus ≠ s.SCC_bus)

/-- No frame of the sequence, received in turn from state `s`, is a gateway
frame or triggers a bus discovery in the state it meets. -/
def quiet_run (E : Externals) : State → List (CANPacket_t × Bool) → Bool
  | _, [] => true
  | s, p :: ps =>
      !is_gateway_frame p.1 && !triggers_discovery s p.1 &&
        quiet_run E (hyundai_community_rx_hook E s p.1 p.2).2 ps

/-- Destination the router gives a frame it withholds for a family: the value
assigned in the exclusion branches at lines 380, 384, 388, 397, 401, 410, 414
and 417. -/
def withheld_relay (fam : Family) (s : State) (bus_num : Int) : Int :=
  match fam with
  | Family.CLU11 => 2
  | Family.MDPS12 =>
      if bus_num = 0 then (if (s.Fwd_bus1 || s.Fwd_obd) = true then 1 else -1) else 0
  | Family.EMS11 => 2
  | Family.SCC12 =>
      if bus_num = 1 then 2 else (if (s.Fwd_bus1 || s.Fwd_obd) = true then 1 else -1)
  | Family.LKAS11 =>
      if s.MDPS_bus = 0 then (if (s.Fwd_bus1 || s.Fwd_obd) = true then 1 else -1) else -1

/-- A transmitted frame that arms the family's ownership counter (lines 292
and 357-360). -/
def Family.armed_by : Family → CANPacket_t → Bool
  | Family.CLU11, f => decide (GET_ADDR f = 1265 ∧ GET_BUS f = 1)
  | Family.MDPS12, f => decide (GET_ADDR f = 593)
  | Family.EMS11, f => decide (GET_ADDR f = 790)
  | Family.SCC12, f => decide (GET_ADDR f = 1057)
  | Family.LKAS11, f => decide (GET_ADDR f = 832)

/-- A hook call that arms the family's ownership counter: a transmit of the
family. -/
def arms_family (fam : Family) : HookCall → Bool
  | HookCall.tx f _ _ => fam.armed_by f
  | _ => false

/-- A forwarding call of a frame that matches the family in state `s`. -/
def is_matching_call (fam : Family) (s : State) : HookCall → Bool
  | HookCall.fwd bus_num f => decide (fam.matching s bus_num (GET_ADDR f))
  | _ => false

/-- Number of matching forwarding calls in a sequence of hook calls run from
state `s`, each call judged in the state it meets. -/
def matching_calls (E : Externals) (L : SteeringLimits) (fam : Family) :
    State → List HookCall → Nat
  | _, [] => 0
  | s, c :: cs =>
      (if is_matching_call fam s c = true then 1 else 0) +
        matching_calls E L fam (run_call E L s c) cs

/-- Sample frame: CLU11 addressed to bus 1. -/
def clu11_bus1 : CANPacket_t := ⟨1265, 1, 4, [0, 0, 0, 0]⟩

/-- Sample sequence: an owned SCC12 frame from bus 2, a wheel-speed frame
received, an SCC12 frame from bus 0 (where the router does not test the
counter), a CLU11 transmit and another owned SCC12 frame from bus 2. -/
def calls_scc12_interleaved : List HookCall :=
  [HookCall.fwd 2 scc12_frame, HookCall.rx whl_spd11_fast true, HookCall.fwd 0 scc12_frame,
    HookCall.tx clu11_bus1 false 0, HookCall.fwd 2 scc12_frame]

/-! # Theorems -/

/-! ## Transmit hook: auxiliary facts -/

/-- The LKAS11 branch either refuses or keeps the verdict it was given. -/
theorem tx_lkas11_fst (E : Externals) (L : SteeringLimits) (s : State) (f : CANPacket_t)
    (ts : Nat) (tx : Int) :
    (tx_lkas11 E L s f ts tx).1 = 0 ∨ (tx_lkas11 E L s f ts tx).1 = tx := by
  simp only [tx_lkas11]
  split_ifs <;> simp

/-- The limiter checks do not write `controls_allowed`. -/
theorem tx_steer_checks_controls (E : Externals) (L : SteeringLimits) (s : State) (d : Int)
    (ts : Nat) (v : Bool) :
    (tx_steer_checks E L s d ts v).2.controls_allowed = s.controls_allowed := by
  simp only [tx_steer_checks]
  split_ifs <;> rfl

/-- On an LKAS11 frame the hook's answer is the answer of the LKAS11 branch
started from the allow-list and relay verdict. -/
theorem tx_hook_fst_lkas11 (E : Externals) (L : SteeringLimits) (s : State) (f : CANPacket_t)
    (la : Bool) (ts : Nat) (ha : GET_ADDR f = 832) :
    (hyundai_community_tx_hook E L s f la ts).1 =
      (tx_lkas11 E L s f ts
        (if s.relay_malfunction = true then 0
          else if (!msg_allowed f HYUNDAI_COMMUNITY_TX_MSGS) = true then 0 else 1)).1 := by
  simp only [hyundai_community_tx_hook, ha]
  simp

/-- On any other frame the hook's answer is 0 or the allow-list and relay
verdict. -/
theorem tx_hook_fst_other (E : Externals) (L : SteeringLimits) (s : State) (f : CANPacket_t)
    (la : Bool) (ts : Nat) (ha : GET_ADDR f ≠ 832) :
    (hyundai_community_tx_hook E L s f la ts).1 = 0 ∨
    (hyundai_community_tx_hook E L s f la ts).1 =
        (if s.relay_malfunction = true then 0
          else if (!msg_allowed f HYUNDAI_COMMUNITY_TX_MSGS) = true then 0 else 1) := by
  simp only [hyundai_community_tx_hook, ha, if_false]
  split_ifs <;> simp

/-- The hook answers 0, or it answers 1 and then the frame is on the
allow-list and the relay is healthy. -/
theorem tx_hook_fst_cases (E : Externals) (L : SteeringLimits) (s : State) (f : CANPacket_t)
    (la : Bool) (ts : Nat) :
    (hyundai_community_tx_hook E L s f la ts).1 = 0 ∨
    ((hyundai_community_tx_hook E L s f la ts).1 = 1 ∧
      msg_allowed f HYUNDAI_COMMUNITY_TX_MSGS = true ∧ s.relay_malfunction = false) := by
  have hv : ∀ x : Int, (x = 0 ∨ x =
      (if s.relay_malfunction = true then 0
        else if (!msg_allowed f HYUNDAI_COMMUNITY_TX_MSGS) = true then 0 else 1)) →
      x = 0 ∨ (x = 1 ∧ msg_allowed f HYUNDAI_COMMUNITY_TX_MSGS = true ∧
        s.relay_malfunction = false) := by
    intro x hx
    rcases hx with hx | hx
    · exact Or.inl hx
    · split_ifs at hx with h1 h2
      · exact Or.inl hx
      · exact Or.inl hx
      · right
        refine ⟨hx, ?_, ?_⟩
        · simpa using h2
        · simpa using h1
  by_cases ha : GET_ADDR f = 832
  · rw [tx_hook_fst_lkas11 E L s f la ts ha]
    exact hv _ (tx_lkas11_fst E L s f ts _)
  · exact hv _ (tx_hook_fst_other E L s f la ts ha)

/-! ## Transmit hook: the steering limiter and the allow-list -/

/-- C1: while `controls_allowed` is false, an LKAS11 frame (address 832)
whose decoded torque is nonzero is refused by the transmit hook, whatever the
bus, the allow-list verdict and the rest of the state are. -/
theorem tx_refuses_nonzero_torque_controls_off (E : Externals) (L : SteeringLimits) (s : State)
    (f : CANPacket_t) (la : Bool) (ts : Nat)
    (hc : s.controls_allowed = false) (ha : GET_ADDR f = 832)
    (ht : desired_torque_of f ≠ 0) :
    (hyundai_community_tx_hook E L s f la ts).1 = 0 := by
  simp [hyundai_community_tx_hook, tx_lkas11, ha, hc, ht]

theorem tx_refuses_nonzero_torque_controls_off_witness :
    initial_state.controls_allowed = false ∧ GET_ADDR lkas11_torque_100 = 832 ∧
      desired_torque_of lkas11_torque_100 = 100 ∧
      (hyundai_community_tx_hook sample_externals HYUNDAI_COMMUNITY_STEERING_LIMITS
        initial_state lkas11_torque_100 false 7).1 = 0 :=
  ⟨rfl, rfl, by decide,
    tx_refuses_nonzero_torque_controls_off sample_externals HYUNDAI_COMMUNITY_STEERING_LIMITS
      initial_state lkas11_torque_100 false 7 rfl rfl (by decide)⟩

/-- The verdict accumulated by the three limiter checks is the disjunction of
the incoming flag and of the three individual checks. -/
theorem tx_steer_checks_violation (E : Externals) (L : SteeringLimits) (s : State) (d : Int)
    (ts : Nat) (v : Bool) :
    (tx_steer_checks E L s d ts v).1 =
      (v || max_limit_check d L.max_steer (-L.max_steer) ||
        E.driver_limit_check d s.desired_torque_last s.torque_driver L.max_steer L.max_rate_up
          L.max_rate_down L.driver_torque_allowance L.driver_torque_factor ||
        E.rt_rate_limit_check d s.rt_torque_last L.max_rt_delta) := by
  simp [tx_steer_checks]

/-- With controls allowed, the LKAS11 branch refuses exactly when one of the
three limiter checks objects. -/
theorem tx_lkas11_fst_controls_on (E : Externals) (L : SteeringLimits) (s : State)
    (f : CANPacket_t) (ts : Nat) (tx : Int) (hc : s.controls_allowed = true) :
    (tx_lkas11 E L s f ts tx).1 =
      if (max_limit_check (desired_torque_of f) L.max_steer (-L.max_steer) ||
          E.driver_limit_check (desired_torque_of f) s.desired_torque_last s.torque_driver
            L.max_steer L.max_rate_up L.max_rate_down L.driver_torque_allowance
            L.driver_torque_factor ||
          E.rt_rate_limit_check (desired_torque_of f) s.rt_torque_last L.max_rt_delta) = true
      then 0 else tx := by
  simp [tx_lkas11, hc, tx_steer_checks_controls, tx_steer_checks_violation]

/-- C2: with `controls_allowed` true and an LKAS11 frame, the absolute-bound
check flags a violation exactly when the decoded torque lies outside
`[-409, 409]`, 409 being `max_steer` of the limits the hook reads; every
torque outside that range makes the hook return 0, and a torque inside it is
accepted when the other two checks, the allow-list and the relay flag do not
object. -/
theorem tx_absolute_bound (E : Externals) (L : SteeringLimits) (s : State) (f : CANPacket_t)
    (la : Bool) (ts : Nat)
    (hL : L.max_steer = HYUNDAI_COMMUNITY_STEERING_LIMITS.max_steer)
    (hc : s.controls_allowed = true) (ha : GET_ADDR f = 832) :
    HYUNDAI_COMMUNITY_STEERING_LIMITS.max_steer = 409 ∧
    (max_limit_check (desired_torque_of f) L.max_steer (-L.max_steer) = true ↔
      (desired_torque_of f < -409 ∨ 409 < desired_torque_of f)) ∧
    ((desired_torque_of f < -409 ∨ 409 < desired_torque_of f) →
      (hyundai_community_tx_hook E L s f la ts).1 = 0) ∧
    ((-409 ≤ desired_torque_of f ∧ desired_torque_of f ≤ 409) →
      E.driver_limit_check (desired_torque_of f) s.desired_torque_last s.torque_driver
          L.max_steer L.max_rate_up L.max_rate_down L.driver_torque_allowance
          L.driver_torque_factor = false →
      E.rt_rate_limit_check (desired_torque_of f) s.rt_torque_last L.max_rt_delta = false →
      msg_allowed f HYUNDAI_COMMUNITY_TX_MSGS = true → s.relay_malfunction = false →
      (hyundai_community_tx_hook E L s f la ts).1 = 1) := by
  have h409 : L.max_steer = 409 := by rw [hL]; rfl
  have hchk : max_limit_check (desired_torque_of f) L.max_steer (-L.max_steer) = true ↔
      (desired_torque_of f < -409 ∨ 409 < desired_torque_of f) := by
    simp only [max_limit_check, h409, Bool.or_eq_true, decide_eq_true_eq]
    omega
  refine ⟨rfl, hchk, ?_, ?_⟩
  · intro hout
    rw [tx_hook_fst_lkas11 E L s f la ts ha, tx_lkas11_fst_controls_on E L s f ts _ hc]
    simp [hchk.mpr hout]
  · intro hin hdrv hrt hmsg hrelay
    have hv : max_limit_check (desired_torque_of f) L.max_steer (-L.max_steer) = false := by
      rcases h : max_limit_check (desired_torque_of f) L.max_steer (-L.max_steer) with _ | _
      · rfl
      · have := hchk.mp h
        omega
    rw [tx_hook_fst_lkas11 E L s f la ts ha, tx_lkas11_fst_controls_on E L s f ts _ hc]
    simp [hv, hdrv, hrt, hmsg, hrelay]

theorem tx_absolute_bound_witness :
    (hyundai_community_tx_hook sample_externals HYUNDAI_COMMUNITY_STEERING_LIMITS
        { initial_state with controls_allowed := true } lkas11_torque_500 false 7).1 = 0 ∧
    (hyundai_community_tx_hook sample_externals HYUNDAI_COMMUNITY_STEERING_LIMITS
        { initial_state with controls_allowed := true } lkas11_torque_100 false 7).1 = 1 :=
  ⟨(tx_absolute_bound sample_externals HYUNDAI_COMMUNITY_STEERING_LIMITS
      { initial_state with controls_allowed := true } lkas11_torque_500 false 7 rfl rfl
      rfl).2.2.1 (by decide),
   (tx_absolute_bound sample_externals HYUNDAI_COMMUNITY_STEERING_LIMITS
      { initial_state with controls_allowed := true } lkas11_torque_100 false 7 rfl rfl
      rfl).2.2.2 (by decide) rfl rfl (by decide) rfl⟩

/-- C3: while `controls_allowed` is false, every LKAS11 frame handed to the
transmit hook (zero or nonzero torque, accepted or refused) leaves
`desired_torque_last = 0`, `rt_torque_last = 0` and `ts_last` equal to the
timestamp of that call; controls stay disallowed, so the same holds for the
call that follows. -/
theorem tx_resets_baseline_controls_off (E : Externals) (L : SteeringLimits) (s : State)
    (f : CANPacket_t) (la : Bool) (ts : Nat)
    (hc : s.controls_allowed = false) (ha : GET_ADDR f = 832) :
    (hyundai_community_tx_hook E L s f la ts).2.desired_torque_last = 0 ∧
    (hyundai_community_tx_hook E L s f la ts).2.rt_torque_last = 0 ∧
    (hyundai_community_tx_hook E L s f la ts).2.ts_last = ts ∧
    (hyundai_community_tx_hook E L s f la ts).2.controls_allowed = false ∧
    ∀ (f2 : CANPacket_t) (la2 : Bool) (ts2 : Nat), GET_ADDR f2 = 832 →
      (hyundai_community_tx_hook E L (hyundai_community_tx_hook E L s f la ts).2 f2 la2
          ts2).2.desired_torque_last = 0 ∧
      (hyundai_community_tx_hook E L (hyundai_community_tx_hook E L s f la ts).2 f2 la2
          ts2).2.rt_torque_last = 0 ∧
      (hyundai_community_tx_hook E L (hyundai_community_tx_hook E L s f la ts).2 f2 la2
          ts2).2.ts_last = ts2 := by
  have one : ∀ (t : State) (g : CANPacket_t) (lb : Bool) (tt : Nat),
      t.controls_allowed = false → GET_ADDR g = 832 →
      (hyundai_community_tx_hook E L t g lb tt).2.desired_torque_last = 0 ∧
      (hyundai_community_tx_hook E L t g lb tt).2.rt_torque_last = 0 ∧
      (hyundai_community_tx_hook E L t g lb tt).2.ts_last = tt ∧
      (hyundai_community_tx_hook E L t g lb tt).2.controls_allowed = false := by
    intro t g lb tt htc hga
    simp [hyundai_community_tx_hook, tx_lkas11, tx_ownership, hga, htc]
  obtain ⟨h1, h2, h3, h4⟩ := one s f la ts hc ha
  refine ⟨h1, h2, h3, h4, ?_⟩
  intro f2 la2 ts2 ha2
  obtain ⟨k1, k2, k3, _⟩ := one _ f2 la2 ts2 h4 ha2
  exact ⟨k1, k2, k3⟩

theorem tx_resets_baseline_controls_off_witness :
    (hyundai_community_tx_hook sample_externals HYUNDAI_COMMUNITY_STEERING_LIMITS
        { initial_state with desired_torque_last := 300, rt_torque_last := 250, ts_last := 3 }
        lkas11_torque_100 false 7).2.ts_last = 7 :=
  (tx_resets_baseline_controls_off sample_externals HYUNDAI_COMMUNITY_STEERING_LIMITS
      { initial_state with desired_torque_last := 300, rt_torque_last := 250, ts_last := 3 }
      lkas11_torque_100 false 7 rfl rfl).2.2.1

/-- Membership in the allow-list is what `msg_allowed` tests. -/
theorem msg_allowed_iff (f : CANPacket_t) (l : List CanMsg) :
    msg_allowed f l = true ↔ (⟨GET_ADDR f, GET_BUS f, GET_LEN f⟩ : CanMsg) ∈ l := by
  simp only [msg_allowed, List.any_eq_true, Bool.and_eq_true, decide_eq_true_eq]
  constructor
  · rintro ⟨m, hm, ⟨h1, h2⟩, h3⟩
    have : (⟨GET_ADDR f, GET_BUS f, GET_LEN f⟩ : CanMsg) = m := by
      cases m; simp_all
    exact this ▸ hm
  · intro h
    exact ⟨_, h, ⟨rfl, rfl⟩, rfl⟩

/-- C7: the transmit hook returns 1 only if the frame's (address, bus, length)
triple is one of the 15 entries of `HYUNDAI_COMMUNITY_TX_MSGS` and
`relay_malfunction` is false; a frame matching no entry is refused whatever
its address-specific checks and `controls_allowed` are. -/
theorem tx_allow_list (E : Externals) (L : SteeringLimits) (s : State) (f : CANPacket_t)
    (la : Bool) (ts : Nat) :
    HYUNDAI_COMMUNITY_TX_MSGS.length = 15 ∧
    ((hyundai_community_tx_hook E L s f la ts).1 = 1 →
      (⟨GET_ADDR f, GET_BUS f, GET_LEN f⟩ : CanMsg) ∈ HYUNDAI_COMMUNITY_TX_MSGS ∧
        s.relay_malfunction = false) ∧
    ((⟨GET_ADDR f, GET_BUS f, GET_LEN f⟩ : CanMsg) ∉ HYUNDAI_COMMUNITY_TX_MSGS →
      (hyundai_community_tx_hook E L s f la ts).1 = 0) := by
  refine ⟨rfl, ?_, ?_⟩
  · intro h
    rcases tx_hook_fst_cases E L s f la ts with h0 | ⟨_, hm, hr⟩
    · rw [h0] at h
      exact absurd h (by decide)
    · exact ⟨(msg_allowed_iff f _).mp hm, hr⟩
  · intro hn
    rcases tx_hook_fst_cases E L s f la ts with h0 | ⟨_, hm, _⟩
    · exact h0
    · exact absurd ((msg_allowed_iff f _).mp hm) hn

/-! ## Receive hook: auxiliary facts -/

/-- Globals of the control gate, the driver sample and the ownership counter
the gate reads; the topology detectors leave all of them alone. -/
theorem rx_lcan_bus1_frame (s : State) (addr bus : Nat) :
    (rx_lcan_bus1 s addr bus).controls_allowed = s.controls_allowed ∧
    (rx_lcan_bus1 s addr bus).cruise_engaged_prev = s.cruise_engaged_prev ∧
    (rx_lcan_bus1 s addr bus).vehicle_moving = s.vehicle_moving ∧
    (rx_lcan_bus1 s addr bus).torque_driver = s.torque_driver ∧
    (rx_lcan_bus1 s addr bus).SCC12_op = s.SCC12_op ∧
    (rx_lcan_bus1 s addr bus).SCC_bus = s.SCC_bus := by
  simp only [rx_lcan_bus1]
  split_ifs <;> simp

theorem rx_lkas11_frame (s : State) (addr bus : Nat) :
    (rx_lkas11 s addr bus).controls_allowed = s.controls_allowed ∧
    (rx_lkas11 s addr bus).cruise_engaged_prev = s.cruise_engaged_prev ∧
    (rx_lkas11 s addr bus).vehicle_moving = s.vehicle_moving ∧
    (rx_lkas11 s addr bus).torque_driver = s.torque_driver ∧
    (rx_lkas11 s addr bus).SCC12_op = s.SCC12_op ∧
    (rx_lkas11 s addr bus).SCC_bus = s.SCC_bus := by
  simp only [rx_lkas11]
  split_ifs <;> simp

theorem rx_mdps_bus_frame (s : State) (addr bus : Nat) :
    (rx_mdps_bus s addr bus).controls_allowed = s.controls_allowed ∧
    (rx_mdps_bus s addr bus).cruise_engaged_prev = s.cruise_engaged_prev ∧
    (rx_mdps_bus s addr bus).vehicle_moving = s.vehicle_moving ∧
    (rx_mdps_bus s addr bus).torque_driver = s.torque_driver ∧
    (rx_mdps_bus s addr bus).SCC12_op = s.SCC12_op ∧
    (rx_mdps_bus s addr bus).SCC_bus = s.SCC_bus := by
  simp only [rx_mdps_bus]
  split_ifs <;> simp

theorem rx_scc_bus_frame (s : State) (addr bus : Nat) :
    (rx_scc_bus s addr bus).controls_allowed = s.controls_allowed ∧
    (rx_scc_bus s addr bus).cruise_engaged_prev = s.cruise_engaged_prev ∧
    (rx_scc_bus s addr bus).vehicle_moving = s.vehicle_moving ∧
    (rx_scc_bus s addr bus).torque_driver = s.torque_driver ∧
    (rx_scc_bus s addr bus).SCC12_op = s.SCC12_op ∧
    (addr ≠ 1056 → addr ≠ 1057 → (rx_scc_bus s addr bus).SCC_bus = s.SCC_bus) := by
  simp only [rx_scc_bus]
  split_ifs with h1 <;> simp <;> intro k1 k2 <;> rcases h1.1 with h | h <;> contradiction

/-- State reached after the four topology detectors of a receive call. -/
theorem rx_topology_frame (s : State) (addr bus : Nat) :
    (rx_scc_bus (rx_mdps_bus (rx_lkas11 (rx_lcan_bus1 s addr bus) addr bus) addr bus) addr
        bus).controls_allowed = s.controls_allowed ∧
    (rx_scc_bus (rx_mdps_bus (rx_lkas11 (rx_lcan_bus1 s addr bus) addr bus) addr bus) addr
        bus).cruise_engaged_prev = s.cruise_engaged_prev ∧
    (rx_scc_bus (rx_mdps_bus (rx_lkas11 (rx_lcan_bus1 s addr bus) addr bus) addr bus) addr
        bus).vehicle_moving = s.vehicle_moving ∧
    (rx_scc_bus (rx_mdps_bus (rx_lkas11 (rx_lcan_bus1 s addr bus) addr bus) addr bus) addr
        bus).torque_driver = s.torque_driver ∧
    (rx_scc_bus (rx_mdps_bus (rx_lkas11 (rx_lcan_bus1 s addr bus) addr bus) addr bus) addr
        bus).SCC12_op = s.SCC12_op ∧
    (addr ≠ 1056 → addr ≠ 1057 →
      (rx_scc_bus (rx_mdps_bus (rx_lkas11 (rx_lcan_bus1 s addr bus) addr bus) addr bus) addr
        bus).SCC_bus = s.SCC_bus) := by
  obtain ⟨a1, a2, a3, a4, a5, a6⟩ := rx_lcan_bus1_frame s addr bus
  obtain ⟨b1, b2, b3, b4, b5, b6⟩ := rx_lkas11_frame (rx_lcan_bus1 s addr bus) addr bus
  obtain ⟨c1, c2, c3, c4, c5, c6⟩ :=
    rx_mdps_bus_frame (rx_lkas11 (rx_lcan_bus1 s addr bus) addr bus) addr bus
  obtain ⟨d1, d2, d3, d4, d5, d6⟩ :=
    rx_scc_bus_frame (rx_mdps_bus (rx_lkas11 (rx_lcan_bus1 s addr bus) addr bus) addr bus)
      addr bus
  refine ⟨?_, ?_, ?_, ?_, ?_, ?_⟩
  · rw [d1, c1, b1, a1]
  · rw [d2, c2, b2, a2]
  · rw [d3, c3, b3, a3]
  · rw [d4, c4, b4, a4]
  · rw [d5, c5, b5, a5]
  · intro h1 h2
    rw [d6 h1 h2, c6, b6, a6]

/-- The receive hook as the pair of the effective verdict and the guarded
state update applied to the state left by the topology detectors. -/
theorem rx_hook_eq (E : Externals) (s : State) (f : CANPacket_t) (valid : Bool) :
    hyundai_community_rx_hook E s f valid =
      ((if GET_BUS f = 1 ∧ s.Lcan_bus1 = true then false else valid),
       if (if GET_BUS f = 1 ∧ s.Lcan_bus1 = true then false else valid) = true then
         rx_state_update E
           (rx_scc_bus (rx_mdps_bus (rx_lkas11 (rx_lcan_bus1 s (GET_ADDR f) (GET_BUS f))
             (GET_ADDR f) (GET_BUS f)) (GET_ADDR f) (GET_BUS f)) (GET_ADDR f) (GET_BUS f))
           f (GET_ADDR f) (GET_BUS f)
       else
         rx_scc_bus (rx_mdps_bus (rx_lkas11 (rx_lcan_bus1 s (GET_ADDR f) (GET_BUS f))
           (GET_ADDR f) (GET_BUS f)) (GET_ADDR f) (GET_BUS f)) (GET_ADDR f) (GET_BUS f)) := by
  rfl

/-- What the two gate blocks and the wheel-speed block leave in
`controls_allowed` and `cruise_engaged_prev`, before `generic_rx_checks`. -/
theorem rx_gate_low (t : State) (f : CANPacket_t)
    (hop : t.SCC12_op = 0)
    (hlow : (GET_ADDR f = 1056 ∧ GET_BYTES_04 f &&& 1 = 0) ∨
      (GET_ADDR f = 608 ∧ GET_BUS f = 0 ∧ t.SCC_bus = -1 ∧
        (GET_BYTES_04 f >>> 25) &&& 1 = 0)) :
    (rx_ems16_gate (rx_scc11_gate t f (GET_ADDR f)) f (GET_ADDR f)
        (GET_BUS f)).controls_allowed = false ∧
    (rx_ems16_gate (rx_scc11_gate t f (GET_ADDR f)) f (GET_ADDR f)
        (GET_BUS f)).cruise_engaged_prev = false := by
  rcases hlow with ⟨ha, hb⟩ | ⟨ha, hbus, hscc, hb⟩
  · simp [rx_ems16_gate, rx_scc11_gate, ha, hop, hb]
  · simp [rx_ems16_gate, rx_scc11_gate, ha, hop, hb, hbus, hscc]

/-- The gate blocks raise `controls_allowed` only on a rising engage bit. -/
theorem rx_gate_rise (t : State) (f : CANPacket_t)
    (h0 : t.controls_allowed = false)
    (h1 : (rx_ems16_gate (rx_scc11_gate t f (GET_ADDR f)) f (GET_ADDR f)
        (GET_BUS f)).controls_allowed = true) :
    t.SCC12_op = 0 ∧ t.cruise_engaged_prev = false ∧
    ((GET_ADDR f = 1056 ∧ GET_BYTES_04 f &&& 1 = 1) ∨
      (GET_ADDR f = 608 ∧ GET_BUS f = 0 ∧ t.SCC_bus = -1 ∧
        (GET_BYTES_04 f >>> 25) &&& 1 = 1)) := by
  have hbit : ∀ x : Nat, x &&& 1 ≠ 0 → x &&& 1 = 1 := by
    intro x hx
    rw [Nat.and_one_is_mod] at hx ⊢
    omega
  by_cases ha : GET_ADDR f = 1056 ∧ t.SCC12_op = 0
  · obtain ⟨ha1, ha2⟩ := ha
    simp only [rx_ems16_gate, rx_scc11_gate, ha1, ha2] at h1
    simp at h1
    split_ifs at h1 with k1 k2 <;> simp_all
  · by_cases hb : GET_ADDR f = 608 ∧ GET_BUS f = 0 ∧ t.SCC_bus = -1 ∧ t.SCC12_op = 0
    · obtain ⟨hb1, hb2, hb3, hb4⟩ := hb
      simp only [rx_ems16_gate, rx_scc11_gate, hb1, hb2, hb3, hb4] at h1
      simp at h1
      split_ifs at h1 with k1 k2 <;> simp_all
    · exfalso
      have e1 : rx_scc11_gate t f (GET_ADDR f) = t := by
        simp only [rx_scc11_gate, if_neg ha]
      rw [e1] at h1
      have e2 : rx_ems16_gate t f (GET_ADDR f) (GET_BUS f) = t := by
        simp only [rx_ems16_gate, if_neg hb]
      rw [e2, h0] at h1
      exact absurd h1 (by decide)

/-- The driver-torque block leaves the gate's inputs alone. -/
theorem rx_torque_driver_frame (E : Externals) (t : State) (f : CANPacket_t) (addr bus : Nat) :
    (rx_torque_driver E t f addr bus).controls_allowed = t.controls_allowed ∧
    (rx_torque_driver E t f addr bus).cruise_engaged_prev = t.cruise_engaged_prev ∧
    (rx_torque_driver E t f addr bus).SCC12_op = t.SCC12_op ∧
    (rx_torque_driver E t f addr bus).SCC_bus = t.SCC_bus := by
  simp only [rx_torque_driver]
  split_ifs <;> simp

/-- The wheel-speed block leaves the gate's outputs alone. -/
theorem rx_wheel_speed_frame (t : State) (f : CANPacket_t) (addr : Nat) :
    (rx_wheel_speed t f addr).controls_allowed = t.controls_allowed ∧
    (rx_wheel_speed t f addr).cruise_engaged_prev = t.cruise_engaged_prev := by
  simp only [rx_wheel_speed]
  split_ifs <;> simp

/-- After the guarded update block a validated low engage bit has cleared
`controls_allowed` and `cruise_engaged_prev`, provided `generic_rx_checks`
does not raise the first and does not write the second. -/
theorem rx_state_update_low (E : Externals) (t : State) (f : CANPacket_t)
    (hg_ca : ∀ (u : State) (b : Bool), u.controls_allowed = false →
      (E.generic_rx_checks u b).controls_allowed = false)
    (hg_prev : ∀ (u : State) (b : Bool),
      (E.generic_rx_checks u b).cruise_engaged_prev = u.cruise_engaged_prev)
    (hop : t.SCC12_op = 0)
    (hlow : (GET_ADDR f = 1056 ∧ GET_BYTES_04 f &&& 1 = 0) ∨
      (GET_ADDR f = 608 ∧ GET_BUS f = 0 ∧ t.SCC_bus = -1 ∧
        (GET_BYTES_04 f >>> 25) &&& 1 = 0)) :
    (rx_state_update E t f (GET_ADDR f) (GET_BUS f)).controls_allowed = false ∧
    (rx_state_update E t f (GET_ADDR f) (GET_BUS f)).cruise_engaged_prev = false := by
  obtain ⟨_, _, p3, p4⟩ := rx_torque_driver_frame E t f (GET_ADDR f) (GET_BUS f)
  have hlow2 := rx_gate_low _ f (p3.trans hop) (by rw [p4]; exact hlow)
  obtain ⟨w1, w2⟩ := rx_wheel_speed_frame
    (rx_ems16_gate (rx_scc11_gate (rx_torque_driver E t f (GET_ADDR f) (GET_BUS f)) f
      (GET_ADDR f)) f (GET_ADDR f) (GET_BUS f)) f (GET_ADDR f)
  simp only [rx_state_update]
  rw [hg_prev]
  exact ⟨hg_ca _ _ (w1.trans hlow2.1), w2.trans hlow2.2⟩

/-- The guarded update block raises `controls_allowed` only on a rising
engage bit, provided `generic_rx_checks` does not raise it. -/
theorem rx_state_update_rise (E : Externals) (t : State) (f : CANPacket_t)
    (hg : ∀ (u : State) (b : Bool), (E.generic_rx_checks u b).controls_allowed = true →
      u.controls_allowed = true)
    (h0 : t.controls_allowed = false)
    (h1 : (rx_state_update E t f (GET_ADDR f) (GET_BUS f)).controls_allowed = true) :
    t.SCC12_op = 0 ∧ t.cruise_engaged_prev = false ∧
    ((GET_ADDR f = 1056 ∧ GET_BYTES_04 f &&& 1 = 1) ∨
      (GET_ADDR f = 608 ∧ GET_BUS f = 0 ∧ t.SCC_bus = -1 ∧
        (GET_BYTES_04 f >>> 25) &&& 1 = 1)) := by
  obtain ⟨p1, p2, p3, p4⟩ := rx_torque_driver_frame E t f (GET_ADDR f) (GET_BUS f)
  obtain ⟨w1, _⟩ := rx_wheel_speed_frame
    (rx_ems16_gate (rx_scc11_gate (rx_torque_driver E t f (GET_ADDR f) (GET_BUS f)) f
      (GET_ADDR f)) f (GET_ADDR f) (GET_BUS f)) f (GET_ADDR f)
  simp only [rx_state_update] at h1
  have h2 := hg _ _ h1
  rw [w1] at h2
  have h4 := rx_gate_rise _ f (p1.trans h0) h2
  rw [p2, p3, p4] at h4
  exact h4

/-- The transmit hook's LKAS11 branch does not write `controls_allowed`. -/
theorem tx_lkas11_controls (E : Externals) (L : SteeringLimits) (s : State) (f : CANPacket_t)
    (ts : Nat) (tx : Int) :
    (tx_lkas11 E L s f ts tx).2.controls_allowed = s.controls_allowed := by
  simp only [tx_lkas11]
  split_ifs <;> simp_all [tx_steer_checks_controls]

/-- Arming the ownership counters does not write `controls_allowed`. -/
theorem tx_ownership_controls (s : State) (addr bus : Nat) :
    (tx_ownership s addr bus).controls_allowed = s.controls_allowed := by
  simp only [tx_ownership]
  split_ifs <;> rfl

/-- The transmit hook does not write `controls_allowed`. -/
theorem tx_hook_controls (E : Externals) (L : SteeringLimits) (s : State) (f : CANPacket_t)
    (la : Bool) (ts : Nat) :
    (hyundai_community_tx_hook E L s f la ts).2.controls_allowed = s.controls_allowed := by
  simp only [hyundai_community_tx_hook, tx_ownership_controls]
  by_cases ha : GET_ADDR f = 832
  · simp only [ha, if_true, tx_lkas11_controls]
  · simp only [ha, if_false]

/-- The three branches of the router do not write `controls_allowed`. -/
theorem fwd_from_bus0_controls (s : State) (addr : Nat) (fwd_to_bus1 : Int) :
    (fwd_from_bus0 s addr fwd_to_bus1).2.controls_allowed = s.controls_allowed := by
  simp only [fwd_from_bus0]
  split_ifs <;> rfl

theorem fwd_from_bus1_controls (s : State) (addr : Nat) :
    (fwd_from_bus1 s addr).2.controls_allowed = s.controls_allowed := by
  simp only [fwd_from_bus1]
  split_ifs <;> rfl

theorem fwd_from_bus2_controls (s : State) (addr : Nat) (fwd_to_bus1 bus_fwd : Int) :
    (fwd_from_bus2 s addr fwd_to_bus1 bus_fwd).2.controls_allowed = s.controls_allowed := by
  simp only [fwd_from_bus2]
  split_ifs <;> rfl

/-- The forwarding hook does not write `controls_allowed`. -/
theorem fwd_hook_controls (s : State) (bus_num : Int) (f : CANPacket_t) :
    (hyundai_community_fwd_hook s bus_num f).2.controls_allowed = s.controls_allowed := by
  simp only [hyundai_community_fwd_hook]
  split_ifs <;>
    simp only [fwd_from_bus0_controls, fwd_from_bus1_controls, fwd_from_bus2_controls]

/-! ## Receive hook: the control gate -/

/-- C4: with `SCC12_op = 0`, a received frame that passes authentication and
carries a low engage bit (address 1056 with bit 0 clear, or address 608 on
bus 0 with `SCC_bus = -1` and bit 25 clear) leaves `controls_allowed` and
`cruise_engaged_prev` false, whatever `controls_allowed` was before.  The
generic receive check, declared outside this file, is taken not to raise
`controls_allowed` and not to write `cruise_engaged_prev`. -/
theorem rx_engage_low_disallows (E : Externals) (s : State) (f : CANPacket_t) (valid : Bool)
    (hg_ca : ∀ (u : State) (b : Bool), u.controls_allowed = false →
      (E.generic_rx_checks u b).controls_allowed = false)
    (hg_prev : ∀ (u : State) (b : Bool),
      (E.generic_rx_checks u b).cruise_engaged_prev = u.cruise_engaged_prev)
    (hop : s.SCC12_op = 0)
    (hv : (hyundai_community_rx_hook E s f valid).1 = true)
    (hlow : (GET_ADDR f = 1056 ∧ GET_BYTES_04 f &&& 1 = 0) ∨
      (GET_ADDR f = 608 ∧ GET_BUS f = 0 ∧ s.SCC_bus = -1 ∧
        (GET_BYTES_04 f >>> 25) &&& 1 = 0)) :
    (hyundai_community_rx_hook E s f valid).2.controls_allowed = false ∧
    (hyundai_community_rx_hook E s f valid).2.cruise_engaged_prev = false := by
  obtain ⟨_, _, _, _, t5, t6⟩ := rx_topology_frame s (GET_ADDR f) (GET_BUS f)
  rw [rx_hook_eq] at hv ⊢
  simp only at hv
  simp only [hv, if_true]
  apply rx_state_update_low E _ f hg_ca hg_prev (t5.trans hop)
  rcases hlow with h | ⟨ha, hb, hc, hd⟩
  · exact Or.inl h
  · refine Or.inr ⟨ha, hb, ?_, hd⟩
    rw [t6 (by omega) (by omega)]
    exact hc

theorem rx_engage_low_disallows_witness :
    (hyundai_community_rx_hook sample_externals
        { initial_state with controls_allowed := true, cruise_engaged_prev := true }
        scc11_low true).2.controls_allowed = false ∧
    (hyundai_community_rx_hook sample_externals
        { initial_state with controls_allowed := true, cruise_engaged_prev := true }
        scc11_low true).2.cruise_engaged_prev = false :=
  rx_engage_low_disallows sample_externals
    { initial_state with controls_allowed := true, cruise_engaged_prev := true }
    scc11_low true (fun _ _ h => h) (fun _ _ => rfl) rfl rfl (Or.inl ⟨rfl, by decide⟩)

/-- C5: if `controls_allowed` is false before a receive call and true after
it, then the frame passed authentication (the hook returns true), `SCC12_op`
was 0, `cruise_engaged_prev` was false, and the frame is address 1056 with
bit 0 set or address 608 on bus 0 with `SCC_bus = -1` and bit 25 set; the
transmit and forwarding hooks never change `controls_allowed`.  The generic
receive check, declared outside this file, is taken not to raise
`controls_allowed`. -/
theorem rx_controls_rise_only_on_edge (E : Externals) (s : State) (f : CANPacket_t)
    (valid : Bool)
    (hg : ∀ (u : State) (b : Bool), (E.generic_rx_checks u b).controls_allowed = true →
      u.controls_allowed = true)
    (h0 : s.controls_allowed = false)
    (h1 : (hyundai_community_rx_hook E s f valid).2.controls_allowed = true) :
    (hyundai_community_rx_hook E s f valid).1 = true ∧
    s.SCC12_op = 0 ∧ s.cruise_engaged_prev = false ∧
    ((GET_ADDR f = 1056 ∧ GET_BYTES_04 f &&& 1 = 1) ∨
      (GET_ADDR f = 608 ∧ GET_BUS f = 0 ∧ s.SCC_bus = -1 ∧
        (GET_BYTES_04 f >>> 25) &&& 1 = 1)) ∧
    (∀ (L : SteeringLimits) (t : State) (g : CANPacket_t) (la : Bool) (ts : Nat),
      (hyundai_community_tx_hook E L t g la ts).2.controls_allowed = t.controls_allowed) ∧
    (∀ (t : State) (bus_num : Int) (g : CANPacket_t),
      (hyundai_community_fwd_hook t bus_num g).2.controls_allowed = t.controls_allowed) := by
  obtain ⟨t1, t2, _, _, t5, t6⟩ := rx_topology_frame s (GET_ADDR f) (GET_BUS f)
  rw [rx_hook_eq] at h1 ⊢
  simp only at h1 ⊢
  by_cases hv : (if GET_BUS f = 1 ∧ s.Lcan_bus1 = true then false else valid) = true
  · simp only [hv, if_true] at h1
    obtain ⟨r1, r2, r3⟩ := rx_state_update_rise E _ f hg (t1.trans h0) h1
    refine ⟨hv, t5 ▸ r1, t2 ▸ r2, ?_, fun L t g la ts => tx_hook_controls E L t g la ts,
      fun t b g => fwd_hook_controls t b g⟩
    rcases r3 with h | ⟨ha, hb, hc, hd⟩
    · exact Or.inl h
    · refine Or.inr ⟨ha, hb, ?_, hd⟩
      rw [← t6 (by omega) (by omega)]
      exact hc
  · rw [if_neg hv, t1, h0] at h1
    exact absurd h1 (by decide)

theorem rx_controls_rise_only_on_edge_witness :
    (hyundai_community_rx_hook sample_externals initial_state scc11_high true).1 = true ∧
    GET_BYTES_04 scc11_high &&& 1 = 1 :=
  ⟨(rx_controls_rise_only_on_edge sample_externals initial_state scc11_high true
      (fun _ _ h => h) rfl (by decide)).1, by decide⟩

/-- C6: when the receive hook returns false (the authentication verdict was
false, or the frame is on bus 1 while `Lcan_bus1` was set on entry), the call
leaves `controls_allowed`, `cruise_engaged_prev`, `vehicle_moving` and the
`torque_driver` sample unchanged. -/
theorem rx_invalid_frame_no_update (E : Externals) (s : State) (f : CANPacket_t) (valid : Bool)
    (hv : (hyundai_community_rx_hook E s f valid).1 = false) :
    (valid = false ∨ (GET_BUS f = 1 ∧ s.Lcan_bus1 = true)) ∧
    (hyundai_community_rx_hook E s f valid).2.controls_allowed = s.controls_allowed ∧
    (hyundai_community_rx_hook E s f valid).2.cruise_engaged_prev = s.cruise_engaged_prev ∧
    (hyundai_community_rx_hook E s f valid).2.vehicle_moving = s.vehicle_moving ∧
    (hyundai_community_rx_hook E s f valid).2.torque_driver = s.torque_driver := by
  obtain ⟨t1, t2, t3, t4, _, _⟩ := rx_topology_frame s (GET_ADDR f) (GET_BUS f)
  rw [rx_hook_eq] at hv ⊢
  simp only at hv ⊢
  have hx : ¬ ((if GET_BUS f = 1 ∧ s.Lcan_bus1 = true then false else valid) = true) := by
    rw [hv]
    decide
  rw [if_neg hx]
  refine ⟨?_, t1, t2, t3, t4⟩
  by_cases hb : GET_BUS f = 1 ∧ s.Lcan_bus1 = true
  · exact Or.inr hb
  · rw [if_neg hb] at hv
    exact Or.inl hv

theorem rx_invalid_frame_no_update_witness :
    (hyundai_community_rx_hook sample_externals initial_state whl_spd11_fast false).2.vehicle_moving
        = false ∧
    (hyundai_community_rx_hook sample_externals initial_state whl_spd11_fast true).2.vehicle_moving
        = true :=
  ⟨(rx_invalid_frame_no_update sample_externals initial_state whl_spd11_fast false rfl).2.2.2.1,
    by decide⟩

/-! ## Checksums: auxiliary facts -/

theorem GET_BYTE_lt (p : CANPacket_t) (i : Nat) : GET_BYTE p i < 256 :=
  Nat.mod_lt _ (by decide)

set_option maxRecDepth 100000 in
/-- Masks of a byte written with division and remainder. -/
theorem byte_masks : ∀ b, b < 256 →
    b &&& 0xF0 = b / 16 * 16 ∧ b &&& 0x0F = b % 16 ∧ b &&& 0x3F = b % 64 ∧
    b &&& 0xC0 = b / 64 * 64 ∧ b >>> 4 = b / 16 ∧ b >>> 6 = b / 64 ∧ b &&& 255 = b := by
  decide

/-- A left fold that adds `g i` to an accumulator, written with any step
function that agrees with plain addition below the bound `B`, returns the
plain sum as long as that sum stays below `B`. -/
theorem foldl_add_below (F : Nat → Nat → Nat) (g : Nat → Nat) (B : Nat)
    (hF : ∀ c i, c + g i < B → F c i = c + g i) :
    ∀ (l : List Nat) (c : Nat), c + (l.map g).sum < B → l.foldl F c = c + (l.map g).sum := by
  intro l
  induction l with
  | nil => intro c _; simp
  | cons x xs ih =>
    intro c h
    simp only [List.map_cons, List.sum_cons] at h
    simp only [List.foldl_cons, List.map_cons, List.sum_cons]
    rw [hF c x (by omega), ih (c + g x) (by omega)]
    omega

/-- Value added by the nibble loop for address 608. -/
theorem nibble_term_608 (p : CANPacket_t) (i : Nat) :
    nibble_term 608 p i =
      if i = 7 then GET_BYTE p 7 / 16 else GET_BYTE p i % 16 + GET_BYTE p i / 16 := by
  have hb := byte_masks (GET_BYTE p 7) (GET_BYTE_lt p 7)
  simp only [nibble_term]
  by_cases hi : i = 7
  · subst hi
    simp [hb.1]
  · simp [hi]

theorem nibble_term_608_le (p : CANPacket_t) (i : Nat) : nibble_term 608 p i ≤ 30 := by
  have h := GET_BYTE_lt p i
  have h7 := GET_BYTE_lt p 7
  rw [nibble_term_608]
  split_ifs <;> omega

/-- The nibble loop for address 608 without the 8-bit reduction. -/
theorem sum_nibbles_loop_608 (p : CANPacket_t) (n : Nat) (hn : n ≤ 8) :
    sum_nibbles_loop 608 p n = ((List.range n).map (nibble_term 608 p)).sum := by
  have hsum : ∀ m, ((List.range m).map (nibble_term 608 p)).sum ≤ 30 * m := by
    intro m
    induction m with
    | zero => simp
    | succ k ih =>
      rw [List.range_succ, List.map_append, List.sum_append]
      have := nibble_term_608_le p k
      simp
      omega
  have key := foldl_add_below
    (fun c i => if 608 = 916 ∧ i = 7 then c else (c + nibble_term 608 p i) % 256)
    (nibble_term 608 p) 256
    (by
      intro c i h
      simpa using h)
    (List.range n) 0 (by have := hsum n; omega)
  simpa [sum_nibbles_loop] using key

/-! ## Checksums -/

/-- C8: for address 608, the only entry of the receive check table with
`check_checksum` set, the computed checksum is `(16 - (S mod 16)) mod 16`,
`S` being the unbounded sum of all nibbles of bytes 0..7 except the low
nibble of byte 7 (the nibble `hyundai_community_get_checksum` reads); the
8-bit accumulator never wraps and the result lies in 0..15. -/
theorem compute_checksum_608 (f : CANPacket_t) (ha : GET_ADDR f = 608) :
    hyundai_community_compute_checksum f = (16 - nibble_sum_608 f % 16) % 16 ∧
    hyundai_community_get_checksum f = GET_BYTE f 7 % 16 ∧
    sum_nibbles_loop 608 f 8 = nibble_sum_608 f ∧
    (∀ n, n < 8 → sum_nibbles_loop 608 f n + nibble_term 608 f n < 256) ∧
    nibble_sum_608 f ≤ 225 ∧
    hyundai_community_compute_checksum f < 16 ∧
    (∀ m ∈ hyundai_community_addr_checks.flatten, m.check_checksum = true → m.addr = 608) := by
  have hS : sum_nibbles_loop 608 f 8 = nibble_sum_608 f := by
    rw [sum_nibbles_loop_608 f 8 (le_refl 8)]
    simp [nibble_sum_608, List.range_succ, nibble_term_608]
    omega
  have hb : ∀ i, GET_BYTE f i < 256 := GET_BYTE_lt f
  have hle : nibble_sum_608 f ≤ 225 := by
    have h0 := hb 0; have h1 := hb 1; have h2 := hb 2; have h3 := hb 3
    have h4 := hb 4; have h5 := hb 5; have h6 := hb 6; have h7 := hb 7
    simp [nibble_sum_608, List.range_succ]
    omega
  have hval : hyundai_community_compute_checksum f = (16 - nibble_sum_608 f % 16) % 16 := by
    simp only [hyundai_community_compute_checksum, ha, hS]
    simp
    omega
  refine ⟨hval, ?_, hS, ?_, hle, ?_, by decide⟩
  · have h7 := byte_masks (GET_BYTE f 7) (hb 7)
    simp only [hyundai_community_get_checksum, ha, if_true, h7.2.1]
    omega
  · intro n hn
    have hstep : sum_nibbles_loop 608 f (n + 1) =
        ((List.range (n + 1)).map (nibble_term 608 f)).sum :=
      sum_nibbles_loop_608 f (n + 1) (by omega)
    have hmono : ((List.range (n + 1)).map (nibble_term 608 f)).sum ≤ 30 * (n + 1) := by
      clear hstep
      induction n with
      | zero => simpa using nibble_term_608_le f 0
      | succ k ih =>
        rw [List.range_succ, List.map_append, List.sum_append]
        have := nibble_term_608_le f (k + 1)
        have := ih (by omega)
        simp
        omega
    rw [sum_nibbles_loop_608 f n (by omega)]
    rw [List.range_succ, List.map_append, List.sum_append] at hmono
    simp at hmono
    omega
  · rw [hval]
    omega

theorem compute_checksum_608_witness :
    hyundai_community_compute_checksum ems16_valid = 14 ∧
    hyundai_community_get_checksum ems16_valid = 14 ∧ nibble_sum_608 ems16_valid = 18 :=
  ⟨(compute_checksum_608 ems16_valid rfl).1.trans (by decide), by decide, by decide⟩

/-- A sum of `n` terms each at most `k` is at most `k * n`. -/
theorem sum_map_range_le (g : Nat → Nat) (k : Nat) (hg : ∀ x, g x ≤ k) (n : Nat) :
    ((List.range n).map g).sum ≤ k * n := by
  induction n with
  | zero => simp
  | succ m ih =>
    rw [List.range_succ, List.map_append, List.sum_append]
    have := hg m
    simp
    rw [Nat.mul_succ]
    omega

set_option maxRecDepth 100000 in
/-- Bit counts of a byte: the loop's sum of shifted-and-masked bits is the
number of set bits, with and without the top two bits. -/
theorem byte_popcount : ∀ b, b < 256 →
    ((List.range 8).map fun j => (b >>> j) &&& 1).sum = popcount8 b ∧
    ((List.range 8).map fun j => if j < 6 then (b >>> j) &&& 1 else 0).sum =
      popcount8 (b &&& 0x3F) ∧
    popcount8 (b &&& 0x3F) ≤ 6 := by
  decide

theorem popcount8_le (b : Nat) : popcount8 b ≤ 8 := by
  have h := List.length_filter_le (fun j => b.testBit j) (List.range 8)
  simpa [popcount8] using h

theorem counted_bit_le (p : CANPacket_t) (i j : Nat) : counted_bit p i j ≤ 1 := by
  simp only [counted_bit]
  split_ifs
  · rw [Nat.and_one_is_mod]
    omega
  · omega

/-- The bits counted for byte `i` are the set bits of that byte after the
top two bits of bytes 1, 3, 5 and 7 have been cleared. -/
theorem counted_row (p : CANPacket_t) (i : Nat) :
    ((List.range 8).map (counted_bit p i)).sum = popcount8 (masked_byte_902 p i) := by
  obtain ⟨h1, h2, _⟩ := byte_popcount (GET_BYTE p i) (GET_BYTE_lt p i)
  by_cases hi : i = 1 ∨ i = 3 ∨ i = 5 ∨ i = 7
  · have hfun : counted_bit p i = fun j => if j < 6 then (GET_BYTE p i >>> j) &&& 1 else 0 := by
      funext j
      rcases hi with h | h | h | h <;> subst h <;> simp [counted_bit, bit_counted]
    rw [hfun, h2]
    simp [masked_byte_902, hi]
  · have hfun : counted_bit p i = fun j => (GET_BYTE p i >>> j) &&& 1 := by
      funext j
      push_neg at hi
      simp [counted_bit, bit_counted, hi.1, hi.2.1, hi.2.2.1, hi.2.2.2]
    rw [hfun, h1]
    simp [masked_byte_902, hi]

theorem counted_row_le (p : CANPacket_t) (i : Nat) :
    ((List.range 8).map (counted_bit p i)).sum ≤ 8 := by
  rw [counted_row]
  exact popcount8_le _

/-- The inner bit loop without the 8-bit reduction. -/
theorem count_bits_inner_eq (p : CANPacket_t) (i c n : Nat) (hn : n ≤ 8) (hc : c + 8 < 256) :
    count_bits_inner p i c n = c + ((List.range n).map (counted_bit p i)).sum := by
  have hs := sum_map_range_le (counted_bit p i) 1 (counted_bit_le p i) n
  exact foldl_add_below (fun c j => (c + counted_bit p i j) % 256) (counted_bit p i) 256
    (fun c j h => Nat.mod_eq_of_lt h) (List.range n) c (by omega)

/-- The outer bit loop without the 8-bit reduction. -/
theorem count_bits_loop_eq (p : CANPacket_t) (n : Nat) (hn : n ≤ 8) :
    count_bits_loop p n =
      ((List.range n).map fun i => ((List.range 8).map (counted_bit p i)).sum).sum := by
  have hs := sum_map_range_le (fun i => ((List.range 8).map (counted_bit p i)).sum) 8
    (counted_row_le p) n
  have key := foldl_add_below (fun c i => count_bits_inner p i c 8)
    (fun i => ((List.range 8).map (counted_bit p i)).sum) 200
    (fun c i h => count_bits_inner_eq p i c 8 (le_refl 8) (by omega))
    (List.range n) 0 (by omega)
  simpa [count_bits_loop] using key

/-- The bit loop over the whole payload returns the specified bit count. -/
theorem count_bits_loop_8 (p : CANPacket_t) : count_bits_loop p 8 = bit_count_902 p := by
  rw [count_bits_loop_eq p 8 (le_refl 8)]
  simp only [counted_row, bit_count_902]

/-- Two 2-bit groups packed by shift and or. -/
theorem pack_two_bits : ∀ x, x < 4 → ∀ y, y < 4 → ((x <<< 2) ||| y) % 256 = 4 * x + y := by
  decide

/-- Checksum field of address 902: the top two bits of bytes 7 and 5. -/
theorem get_checksum_902 (f : CANPacket_t) (ha : GET_ADDR f = 902) :
    hyundai_community_get_checksum f = 4 * (GET_BYTE f 7 / 64) + GET_BYTE f 5 / 64 := by
  have h7 := GET_BYTE_lt f 7
  have h5 := GET_BYTE_lt f 5
  have m7 := (byte_masks _ h7).2.2.2.2.2.1
  have m5 := (byte_masks _ h5).2.2.2.2.2.1
  simp only [hyundai_community_get_checksum, ha]
  simp only [show ¬ (902 = 608) by decide, if_false, if_true, m7, m5]
  exact pack_two_bits _ (by omega) _ (by omega)

/-- Counter field of address 902: the top two bits of bytes 3 and 1. -/
theorem get_counter_902 (f : CANPacket_t) (ha : GET_ADDR f = 902) :
    hyundai_community_get_counter f = 4 * (GET_BYTE f 3 / 64) + GET_BYTE f 1 / 64 := by
  have h3 := GET_BYTE_lt f 3
  have h1 := GET_BYTE_lt f 1
  have m3 := (byte_masks _ h3).2.2.2.2.2.1
  have m1 := (byte_masks _ h1).2.2.2.2.2.1
  simp only [hyundai_community_get_counter, ha]
  simp only [show ¬ (902 = 608) by decide, if_false, if_true, m3, m1]
  exact pack_two_bits _ (by omega) _ (by omega)

/-- C9: for address 902 the computed checksum is `(N xor 9) and 15`, `N` being
the number of set bits of the payload after clearing the top two bits of
bytes 1, 3, 5 and 7; those bits are the ones read by
`hyundai_community_get_checksum` (bytes 5 and 7) and
`hyundai_community_get_counter` (bytes 1 and 3); the 8-bit accumulator never
wraps and `N ≤ 56`. -/
theorem compute_checksum_902 (f : CANPacket_t) (ha : GET_ADDR f = 902) :
    hyundai_community_compute_checksum f = (bit_count_902 f ^^^ 9) &&& 15 ∧
    count_bits_loop f 8 = bit_count_902 f ∧
    bit_count_902 f ≤ 56 ∧
    (∀ i j, i < 8 → j < 8 →
      count_bits_inner f i (count_bits_loop f i) j + counted_bit f i j < 256) ∧
    hyundai_community_get_checksum f = 4 * (GET_BYTE f 7 / 64) + GET_BYTE f 5 / 64 ∧
    hyundai_community_get_counter f = 4 * (GET_BYTE f 3 / 64) + GET_BYTE f 1 / 64 ∧
    (∀ i, i = 1 ∨ i = 3 ∨ i = 5 ∨ i = 7 →
      GET_BYTE f i = masked_byte_902 f i + 64 * (GET_BYTE f i / 64)) ∧
    (∀ i, ¬ (i = 1 ∨ i = 3 ∨ i = 5 ∨ i = 7) → GET_BYTE f i = masked_byte_902 f i) := by
  have hb : ∀ i, GET_BYTE f i < 256 := GET_BYTE_lt f
  have hN : count_bits_loop f 8 = bit_count_902 f := count_bits_loop_8 f
  have hle : bit_count_902 f ≤ 56 := by
    have e0 := popcount8_le (GET_BYTE f 0)
    have e2 := popcount8_le (GET_BYTE f 2)
    have e4 := popcount8_le (GET_BYTE f 4)
    have e6 := popcount8_le (GET_BYTE f 6)
    have o1 := (byte_popcount _ (hb 1)).2.2
    have o3 := (byte_popcount _ (hb 3)).2.2
    have o5 := (byte_popcount _ (hb 5)).2.2
    have o7 := (byte_popcount _ (hb 7)).2.2
    simp [bit_count_902, masked_byte_902, List.range_succ]
    omega
  have hxor : ∀ n, n ≤ 56 → ((n ^^^ 9) &&& 15) % 256 = (n ^^^ 9) &&& 15 := by
    decide
  refine ⟨?_, hN, hle, ?_, ?_, ?_, ?_, ?_⟩
  · simp only [hyundai_community_compute_checksum, ha, if_true, hN]
    exact hxor _ hle
  · intro i j hi hj
    have h1 := count_bits_loop_eq f i (by omega)
    have h2 := sum_map_range_le (fun i => ((List.range 8).map (counted_bit f i)).sum) 8
      (counted_row_le f) i
    have h3 := sum_map_range_le (counted_bit f i) 1 (counted_bit_le f i) j
    have h4 := counted_bit_le f i j
    rw [count_bits_inner_eq f i _ j (by omega) (by omega)]
    omega
  · exact get_checksum_902 f ha
  · exact get_counter_902 f ha
  · intro i hi
    have m := (byte_masks _ (hb i)).2.2.1
    simp only [masked_byte_902, hi, if_true, m]
    omega
  · intro i hi
    simp only [masked_byte_902, hi, if_false]

theorem compute_checksum_902_witness :
    hyundai_community_compute_checksum whl_spd11_valid = 12 ∧
    hyundai_community_get_checksum whl_spd11_valid = 12 ∧ bit_count_902 whl_spd11_valid = 5 :=
  ⟨(compute_checksum_902 whl_spd11_valid rfl).1.trans (by decide), by decide, by decide⟩

/-- The nibble term does not depend on the bits of the checksum field. -/
theorem nibble_term_congr (addr : Nat) (f g : CANPacket_t) (i : Nat) (h902 : addr ≠ 902)
    (h : GET_BYTE g i &&& (255 - checksum_field_mask addr i) =
      GET_BYTE f i &&& (255 - checksum_field_mask addr i)) :
    nibble_term addr g i = nibble_term addr f i := by
  have mg := (byte_masks _ (GET_BYTE_lt g i)).2.2.2.2.2.2
  have mf := (byte_masks _ (GET_BYTE_lt f i)).2.2.2.2.2.2
  simp only [nibble_term]
  simp only [checksum_field_mask, h902, false_and, if_false] at h
  by_cases c1 : addr = 608 ∧ i = 7
  · obtain ⟨a, b⟩ := c1
    subst a b
    simp at h
    simp [h]
  · by_cases c2 : addr = 916 ∧ i = 6
    · obtain ⟨a, b⟩ := c2
      subst a b
      simp at h
      simp [h]
    · by_cases c3 : addr = 1057 ∧ i = 7
      · obtain ⟨a, b⟩ := c3
        subst a b
        simp at h
        simp [h]
      · simp only [c1, c2, c3, if_false, Nat.sub_zero] at h
        rw [mg, mf] at h
        simp [c1, c2, c3, h]

/-- The computed checksum does not depend on the bits of the checksum
field. -/
theorem compute_checksum_congr (f g : CANPacket_t) (h : same_outside_checksum f g) :
    hyundai_community_compute_checksum g = hyundai_community_compute_checksum f := by
  obtain ⟨ha, hb⟩ := h
  by_cases h902 : GET_ADDR f = 902
  · have hmask : ∀ i, i < 8 → masked_byte_902 g i = masked_byte_902 f i := by
      intro i hi
      have hbi := hb i hi
      have mg := (byte_masks _ (GET_BYTE_lt g i)).2.2.2.2.2.2
      have mf := (byte_masks _ (GET_BYTE_lt f i)).2.2.2.2.2.2
      rw [h902] at hbi
      interval_cases i <;> simp [checksum_field_mask] at hbi <;>
        simp [masked_byte_902] <;>
        first
          | exact hbi
          | rw [hbi]
          | (rw [mg, mf] at hbi; first | exact hbi | rw [hbi])
    have hcount : bit_count_902 g = bit_count_902 f := by
      simp only [bit_count_902, List.range_succ, List.range_zero, List.nil_append,
        List.map_append, List.map_cons, List.map_nil, List.cons_append]
      rw [hmask 0 (by omega), hmask 1 (by omega), hmask 2 (by omega), hmask 3 (by omega),
        hmask 4 (by omega), hmask 5 (by omega), hmask 6 (by omega), hmask 7 (by omega)]
    simp only [hyundai_community_compute_checksum, ha, h902, if_true, count_bits_loop_8, hcount]
  · have hfold : sum_nibbles_loop (GET_ADDR f) g 8 = sum_nibbles_loop (GET_ADDR f) f 8 := by
      simp only [sum_nibbles_loop]
      apply List.foldl_ext
      intro c i hi
      rw [nibble_term_congr (GET_ADDR f) f g i h902 (hb i (List.mem_range.mp hi))]
    simp only [hyundai_community_compute_checksum, ha, h902, if_false, hfold]

/-- C10: for a frame of address 608, 902, 916 or 1057 whose extracted
checksum equals its computed checksum, every frame that differs from it only
in bits of that address's checksum field, and differs in at least one of
them, has an extracted checksum different from its computed checksum: the
computed checksum does not depend on the checksum field and the extracted
one changes. -/
theorem checksum_field_flip_detected (f g : CANPacket_t)
    (ha : GET_ADDR f = 608 ∨ GET_ADDR f = 902 ∨ GET_ADDR f = 916 ∨ GET_ADDR f = 1057)
    (hvalid : hyundai_community_get_checksum f = hyundai_community_compute_checksum f)
    (hsame : same_outside_checksum f g) (hdiff : differs_in_checksum f g) :
    hyundai_community_compute_checksum g = hyundai_community_compute_checksum f ∧
    hyundai_community_get_checksum g ≠ hyundai_community_get_checksum f ∧
    hyundai_community_get_checksum g ≠ hyundai_community_compute_checksum g := by
  have hc := compute_checksum_congr f g hsame
  have hget : hyundai_community_get_checksum g ≠ hyundai_community_get_checksum f := by
    obtain ⟨hga, _⟩ := hsame
    obtain ⟨i, hi, hne⟩ := hdiff
    have mg := fun k => byte_masks _ (GET_BYTE_lt g k)
    have mf := fun k => byte_masks _ (GET_BYTE_lt f k)
    have bg := GET_BYTE_lt g
    have bf := GET_BYTE_lt f
    rcases ha with a | a | a | a
    · rw [a] at hne hga
      simp only [hyundai_community_get_checksum, hga, a, if_true]
      interval_cases i <;> simp [checksum_field_mask] at hne
      rw [(mg 7).2.1, (mf 7).2.1] at hne ⊢
      have := bg 7
      have := bf 7
      omega
    · rw [a] at hne
      rw [get_checksum_902 g (hga.trans a), get_checksum_902 f a]
      have g5 := bg 5
      have g7 := bg 7
      have f5 := bf 5
      have f7 := bf 7
      interval_cases i <;> simp [checksum_field_mask] at hne
      · rw [(mg 5).2.2.2.1, (mf 5).2.2.2.1] at hne
        omega
      · rw [(mg 7).2.2.2.1, (mf 7).2.2.2.1] at hne
        omega
    · rw [a] at hne hga
      simp only [hyundai_community_get_checksum, hga, a]
      simp only [show ¬ (916 = 608) by decide, show ¬ (916 = 902) by decide, if_false, if_true]
      interval_cases i <;> simp [checksum_field_mask] at hne
      rw [(mg 6).2.1, (mf 6).2.1] at hne ⊢
      have := bg 6
      have := bf 6
      omega
    · rw [a] at hne hga
      simp only [hyundai_community_get_checksum, hga, a]
      simp only [show ¬ (1057 = 608) by decide, show ¬ (1057 = 902) by decide,
        show ¬ (1057 = 916) by decide, if_false, if_true]
      interval_cases i <;> simp [checksum_field_mask] at hne
      rw [(mg 7).1, (mf 7).1] at hne
      rw [(mg 7).2.2.2.2.1, (mf 7).2.2.2.2.1]
      have := bg 7
      have := bf 7
      omega
  refine ⟨hc, hget, ?_⟩
  rw [hc, ← hvalid]
  exact hget

theorem checksum_field_flip_detected_witness :
    hyundai_community_get_checksum ems16_valid = hyundai_community_compute_checksum ems16_valid ∧
    hyundai_community_get_checksum ems16_flipped ≠
      hyundai_community_compute_checksum ems16_flipped :=
  ⟨by decide,
    (checksum_field_flip_detected ems16_valid ems16_flipped (Or.inl rfl) (by decide)
      ⟨rfl, by decide⟩ ⟨7, by decide, by decide⟩).2.2⟩

/-! ## Forwarding hook -/

/-- Counterexample to C13: at module load `Fwd_bus2` is true (line 20), and
the forwarding hook relays bus 0 to bus 2 and bus 2 to bus 0. -/
theorem initial_state_relays_bus2 :
    initial_state.Fwd_bus2 = true ∧
    (hyundai_community_fwd_hook initial_state 0 clu11_bus0).1 = 2 ∧
    (hyundai_community_fwd_hook initial_state 2 clu11_bus0).1 = 0 := by
  decide

/-- C13 (amended): at module load `Fwd_bus1` and `Fwd_obd` are false,
`Fwd_bus2` is true and `MDPS_bus = SCC_bus = -1`; the forwarding hook returns
2 for source bus 0, 0 for source bus 2 and -1 for every other source bus,
whatever the frame, and leaves the state as it is. -/
theorem initial_state_forwarding (bus_num : Int) (f : CANPacket_t) :
    initial_state.Fwd_bus1 = false ∧ initial_state.Fwd_obd = false ∧
    initial_state.Fwd_bus2 = true ∧ initial_state.MDPS_bus = -1 ∧
    initial_state.SCC_bus = -1 ∧
    hyundai_community_fwd_hook initial_state bus_num f =
      (if bus_num = 0 then 2 else if bus_num = 2 then 0 else -1, initial_state) := by
  refine ⟨rfl, rfl, rfl, rfl, rfl, ?_⟩
  by_cases h0 : bus_num = 0
  · subst h0
    simp [hyundai_community_fwd_hook, fwd_from_bus0, initial_state]
  · by_cases h2 : bus_num = 2
    · subst h2
      simp [hyundai_community_fwd_hook, fwd_from_bus2, initial_state]
    · by_cases h1 : bus_num = 1
      · subst h1
        simp [hyundai_community_fwd_hook, initial_state]
      · simp [hyundai_community_fwd_hook, h0, h1, h2, initial_state]

/-- C16: with `Fwd_bus2` false the forwarding hook is a plain passthrough:
with `r = Fwd_bus1 || Fwd_obd` it returns 1 for source bus 0 if `r`, 0 for
source bus 1 if `r`, and -1 otherwise; the result does not depend on the
frame's address or on an ownership counter, and the state is unchanged. -/
theorem fwd_passthrough (s : State) (bus_num : Int) (f : CANPacket_t)
    (h2 : s.Fwd_bus2 = false) :
    hyundai_community_fwd_hook s bus_num f =
      (if bus_num = 0 then (if (s.Fwd_bus1 || s.Fwd_obd) = true then 1 else -1)
        else if bus_num = 1 ∧ (s.Fwd_bus1 || s.Fwd_obd) = true then 0 else -1, s) ∧
    (∀ (t : State) (g : CANPacket_t), t.Fwd_bus2 = false → t.Fwd_bus1 = s.Fwd_bus1 →
      t.Fwd_obd = s.Fwd_obd →
      (hyundai_community_fwd_hook t bus_num g).1 = (hyundai_community_fwd_hook s bus_num f).1) := by
  have key : ∀ (u : State) (g : CANPacket_t), u.Fwd_bus2 = false →
      hyundai_community_fwd_hook u bus_num g =
        (if bus_num = 0 then (if (u.Fwd_bus1 || u.Fwd_obd) = true then 1 else -1)
          else if bus_num = 1 ∧ (u.Fwd_bus1 || u.Fwd_obd) = true then 0 else -1, u) := by
    intro u g hu
    simp only [hyundai_community_fwd_hook, hu]
    by_cases h0 : bus_num = 0
    · subst h0
      simp
    · simp [h0]
  refine ⟨key s f h2, ?_⟩
  intro t g ht h1 ho
  rw [key t g ht, key s f h2, h1, ho]

theorem fwd_passthrough_witness :
    hyundai_community_fwd_hook st_passthrough 0 clu11_bus0 = (1, st_passthrough) :=
  (fwd_passthrough st_passthrough 0 clu11_bus0 rfl).1

/-- Counterexample to C17: with the driving computer owning CLU11
(`CLU11_op = 20`) and the power-steering ECU on bus 0, a CLU11 frame from
bus 0 takes the normal relay and `CLU11_op` is not lowered; with the ECU on
bus 1 instead, the frame is withheld and `CLU11_op` drops to 19. -/
theorem clu11_withheld_when_mdps_off_bus0 :
    st_clu11_mdps0.Fwd_bus2 = true ∧ GET_ADDR clu11_bus0 = 1265 ∧
    st_clu11_mdps0.CLU11_op = 20 ∧ st_clu11_mdps0.MDPS_bus = 0 ∧
    hyundai_community_fwd_hook st_clu11_mdps0 0 clu11_bus0 = (12, st_clu11_mdps0) ∧
    st_clu11_mdps1.CLU11_op = 20 ∧ st_clu11_mdps1.MDPS_bus = 1 ∧
    hyundai_community_fwd_hook st_clu11_mdps1 0 clu11_bus0 =
      (2, { st_clu11_mdps1 with CLU11_op := 19 }) := by
  decide

/-- C17 (amended): with `Fwd_bus2` true, a CLU11 frame (address 1265) from
source bus 0 is withheld from the normal relay (the hook returns 2 and lowers
`CLU11_op` by one) exactly when `CLU11_op ≠ 0` and `MDPS_bus ≠ 0`; in every
other case it takes the normal bus-0 relay (12 if `Fwd_bus1 || Fwd_obd`,
else 2) and the state is unchanged. -/
theorem fwd_clu11_from_bus0 (s : State) (f : CANPacket_t)
    (h2 : s.Fwd_bus2 = true) (ha : GET_ADDR f = 1265) :
    hyundai_community_fwd_hook s 0 f =
      if s.CLU11_op ≠ 0 ∧ s.MDPS_bus ≠ 0 then (2, { s with CLU11_op := s.CLU11_op - 1 })
      else (if (s.Fwd_bus1 || s.Fwd_obd) = true then 12 else 2, s) := by
  simp only [hyundai_community_fwd_hook, h2, ha, fwd_from_bus0]
  by_cases hc : s.CLU11_op = 0
  · cases h1 : s.Fwd_bus1 <;> cases ho : s.Fwd_obd <;> simp [hc]
  · by_cases hm : s.MDPS_bus = 0
    · cases h1 : s.Fwd_bus1 <;> cases ho : s.Fwd_obd <;> simp [hc, hm]
    · simp [hc, hm]

theorem fwd_clu11_from_bus0_witness :
    hyundai_community_fwd_hook st_clu11_mdps1 0 clu11_bus0 =
      (2, { st_clu11_mdps1 with CLU11_op := 19 }) :=
  (fwd_clu11_from_bus0 st_clu11_mdps1 clu11_bus0 rfl rfl).trans (by decide)


/-! ## Limiter baseline -/

/-- With controls allowed, the LKAS11 branch stores the commanded torque as
`desired_torque_last` and rotates the real-time window on elapsed time only;
the verdict of the checks plays no part. -/
theorem tx_lkas11_baseline_controls_on (E : Externals) (L : SteeringLimits) (s : State)
    (f : CANPacket_t) (ts : Nat) (tx : Int) (hc : s.controls_allowed = true) :
    torque_baseline (tx_lkas11 E L s f ts tx).2 =
      if E.get_ts_elapsed ts s.ts_last > L.max_rt_interval then
        (desired_torque_of f, desired_torque_of f, ts)
      else (desired_torque_of f, s.rt_torque_last, s.ts_last) := by
  have h1 : (tx_steer_checks E L { s with LKAS11_op := 20 } (desired_torque_of f) ts
      false).2.controls_allowed = true := by
    rw [tx_steer_checks_controls]
    exact hc
  simp only [tx_lkas11, hc, if_true, h1, torque_baseline]
  simp only [tx_steer_checks]
  split_ifs <;> simp_all

/-- Arming the ownership counters does not write the limiter baseline. -/
theorem tx_ownership_baseline (s : State) (addr bus : Nat) :
    torque_baseline (tx_ownership s addr bus) = torque_baseline s := by
  simp only [tx_ownership, torque_baseline]
  split_ifs <;> rfl

/-- Counterexample to C14: with controls allowed, an LKAS11 frame refused for
its torque of 500, and one refused for being off the allow-list, both become
the new `desired_torque_last`; the first also rotates the real-time window. -/
theorem refused_torque_becomes_baseline :
    st_controls_on.controls_allowed = true ∧ st_controls_on.desired_torque_last = 0 ∧
    (hyundai_community_tx_hook sample_externals HYUNDAI_COMMUNITY_STEERING_LIMITS
      st_controls_on lkas11_torque_500 false 300000).1 = 0 ∧
    (hyundai_community_tx_hook sample_externals HYUNDAI_COMMUNITY_STEERING_LIMITS
      st_controls_on lkas11_torque_500 false 300000).2.desired_torque_last = 500 ∧
    (hyundai_community_tx_hook sample_externals HYUNDAI_COMMUNITY_STEERING_LIMITS
      st_controls_on lkas11_torque_500 false 300000).2.rt_torque_last = 500 ∧
    (hyundai_community_tx_hook sample_externals HYUNDAI_COMMUNITY_STEERING_LIMITS
      st_controls_on lkas11_torque_500 false 300000).2.ts_last = 300000 ∧
    (hyundai_community_tx_hook sample_externals HYUNDAI_COMMUNITY_STEERING_LIMITS
      st_controls_on lkas11_torque_100_bus2 false 7).1 = 0 ∧
    (hyundai_community_tx_hook sample_externals HYUNDAI_COMMUNITY_STEERING_LIMITS
      st_controls_on lkas11_torque_100_bus2 false 7).2.desired_torque_last = 100 := by
  decide

/-- C14 (amended): with `controls_allowed` true, every LKAS11 frame handed to
the transmit hook, refused or accepted, becomes the new
`desired_torque_last`; `rt_torque_last` and `ts_last` are set to that torque
and to the call's timestamp when the elapsed time exceeds `max_rt_interval`,
and are unchanged otherwise. -/
theorem tx_baseline_controls_on (E : Externals) (L : SteeringLimits) (s : State)
    (f : CANPacket_t) (la : Bool) (ts : Nat)
    (hc : s.controls_allowed = true) (ha : GET_ADDR f = 832) :
    (hyundai_community_tx_hook E L s f la ts).2.desired_torque_last = desired_torque_of f ∧
    (E.get_ts_elapsed ts s.ts_last > L.max_rt_interval →
      (hyundai_community_tx_hook E L s f la ts).2.rt_torque_last = desired_torque_of f ∧
      (hyundai_community_tx_hook E L s f la ts).2.ts_last = ts) ∧
    (¬ E.get_ts_elapsed ts s.ts_last > L.max_rt_interval →
      (hyundai_community_tx_hook E L s f la ts).2.rt_torque_last = s.rt_torque_last ∧
      (hyundai_community_tx_hook E L s f la ts).2.ts_last = s.ts_last) := by
  have hb : torque_baseline (hyundai_community_tx_hook E L s f la ts).2 =
      if E.get_ts_elapsed ts s.ts_last > L.max_rt_interval then
        (desired_torque_of f, desired_torque_of f, ts)
      else (desired_torque_of f, s.rt_torque_last, s.ts_last) := by
    simp only [hyundai_community_tx_hook, ha, if_true, tx_ownership_baseline]
    exact tx_lkas11_baseline_controls_on E L s f ts _ hc
  simp only [torque_baseline] at hb
  by_cases he : E.get_ts_elapsed ts s.ts_last > L.max_rt_interval
  · rw [if_pos he] at hb
    simp only [Prod.mk.injEq] at hb
    exact ⟨hb.1, fun _ => hb.2, fun h => absurd he h⟩
  · rw [if_neg he] at hb
    simp only [Prod.mk.injEq] at hb
    exact ⟨hb.1, fun h => absurd h he, fun _ => hb.2⟩

theorem tx_baseline_controls_on_witness :
    (hyundai_community_tx_hook sample_externals HYUNDAI_COMMUNITY_STEERING_LIMITS
      st_controls_on lkas11_torque_500 false 300000).2.desired_torque_last = 500 :=
  (tx_baseline_controls_on sample_externals HYUNDAI_COMMUNITY_STEERING_LIMITS st_controls_on
    lkas11_torque_500 false 300000 rfl rfl).1.trans (by decide)


/-- The topology detectors, the gate and the sampling blocks do not write the
limiter baseline. -/
theorem rx_lcan_bus1_baseline (s : State) (addr bus : Nat) :
    torque_baseline (rx_lcan_bus1 s addr bus) = torque_baseline s := by
  simp only [rx_lcan_bus1, torque_baseline]
  split_ifs <;> rfl

theorem rx_lkas11_baseline (s : State) (addr bus : Nat) :
    torque_baseline (rx_lkas11 s addr bus) = torque_baseline s := by
  simp only [rx_lkas11, torque_baseline]
  split_ifs <;> rfl

theorem rx_mdps_bus_baseline (s : State) (addr bus : Nat) :
    torque_baseline (rx_mdps_bus s addr bus) = torque_baseline s := by
  simp only [rx_mdps_bus, torque_baseline]
  split_ifs <;> rfl

theorem rx_scc_bus_baseline (s : State) (addr bus : Nat) :
    torque_baseline (rx_scc_bus s addr bus) = torque_baseline s := by
  simp only [rx_scc_bus, torque_baseline]
  split_ifs <;> rfl

theorem rx_scc11_gate_baseline (s : State) (f : CANPacket_t) (addr : Nat) :
    torque_baseline (rx_scc11_gate s f addr) = torque_baseline s := by
  simp only [rx_scc11_gate, torque_baseline]
  split_ifs <;> rfl

theorem rx_ems16_gate_baseline (s : State) (f : CANPacket_t) (addr bus : Nat) :
    torque_baseline (rx_ems16_gate s f addr bus) = torque_baseline s := by
  simp only [rx_ems16_gate, torque_baseline]
  split_ifs <;> rfl

theorem rx_wheel_speed_baseline (s : State) (f : CANPacket_t) (addr : Nat) :
    torque_baseline (rx_wheel_speed s f addr) = torque_baseline s := by
  simp only [rx_wheel_speed, torque_baseline]
  split_ifs <;> rfl

theorem rx_torque_driver_baseline (E : Externals) (s : State) (f : CANPacket_t)
    (addr bus : Nat) :
    torque_baseline (rx_torque_driver E s f addr bus) = torque_baseline s := by
  simp only [rx_torque_driver, torque_baseline]
  split_ifs <;> rfl

/-- The receive hook does not write the limiter baseline, provided the
generic receive check does not. -/
theorem rx_hook_baseline (E : Externals) (s : State) (f : CANPacket_t) (valid : Bool)
    (hE : keeps_torque_baseline E) :
    torque_baseline (hyundai_community_rx_hook E s f valid).2 = torque_baseline s := by
  have topo : torque_baseline (rx_scc_bus (rx_mdps_bus (rx_lkas11
      (rx_lcan_bus1 s (GET_ADDR f) (GET_BUS f)) (GET_ADDR f) (GET_BUS f)) (GET_ADDR f)
      (GET_BUS f)) (GET_ADDR f) (GET_BUS f)) = torque_baseline s := by
    rw [rx_scc_bus_baseline, rx_mdps_bus_baseline, rx_lkas11_baseline, rx_lcan_bus1_baseline]
  have hgen : ∀ (u : State) (b : Bool),
      torque_baseline (E.generic_rx_checks u b) = torque_baseline u := by
    intro u b
    obtain ⟨h1, h2, h3⟩ := hE u b
    simp only [torque_baseline, h1, h2, h3]
  have hupd : ∀ u : State, torque_baseline (rx_state_update E u f (GET_ADDR f) (GET_BUS f)) =
      torque_baseline u := by
    intro u
    simp only [rx_state_update]
    rw [hgen, rx_wheel_speed_baseline, rx_ems16_gate_baseline, rx_scc11_gate_baseline,
      rx_torque_driver_baseline]
  rw [rx_hook_eq]
  simp only
  by_cases hv : (if GET_BUS f = 1 ∧ s.Lcan_bus1 = true then false else valid) = true
  · rw [if_pos hv, hupd, topo]
  · rw [if_neg hv, topo]

/-- The forwarding hook does not write the limiter baseline. -/
theorem fwd_hook_baseline (s : State) (bus_num : Int) (f : CANPacket_t) :
    torque_baseline (hyundai_community_fwd_hook s bus_num f).2 = torque_baseline s := by
  have h0 : ∀ (u : State) (a : Nat) (x : Int),
      torque_baseline (fwd_from_bus0 u a x).2 = torque_baseline u := by
    intro u a x
    simp only [fwd_from_bus0, torque_baseline]
    split_ifs <;> rfl
  have h1 : ∀ (u : State) (a : Nat), torque_baseline (fwd_from_bus1 u a).2 = torque_baseline u := by
    intro u a
    simp only [fwd_from_bus1, torque_baseline]
    split_ifs <;> rfl
  have h2 : ∀ (u : State) (a : Nat) (x y : Int),
      torque_baseline (fwd_from_bus2 u a x y).2 = torque_baseline u := by
    intro u a x y
    simp only [fwd_from_bus2, torque_baseline]
    split_ifs <;> rfl
  simp only [hyundai_community_fwd_hook]
  split_ifs <;> simp only [h0, h1, h2]

/-- A transmit of any frame other than LKAS11 does not write the limiter
baseline. -/
theorem tx_hook_baseline_other (E : Externals) (L : SteeringLimits) (s : State)
    (f : CANPacket_t) (la : Bool) (ts : Nat) (ha : GET_ADDR f ≠ 832) :
    torque_baseline (hyundai_community_tx_hook E L s f la ts).2 = torque_baseline s := by
  simp only [hyundai_community_tx_hook, ha, if_false, tx_ownership_baseline]

/-- A transmit of LKAS11 with controls disallowed clears the limiter baseline
and leaves controls disallowed. -/
theorem tx_hook_baseline_controls_off (E : Externals) (L : SteeringLimits) (s : State)
    (f : CANPacket_t) (la : Bool) (ts : Nat) (hc : s.controls_allowed = false)
    (ha : GET_ADDR f = 832) :
    torque_baseline (hyundai_community_tx_hook E L s f la ts).2 = (0, 0, ts) := by
  simp only [hyundai_community_tx_hook, ha, if_true, tx_ownership_baseline]
  simp [tx_lkas11, hc, torque_baseline]

/-- Calls other than a transmit of LKAS11 keep the first two components of
the limiter baseline. -/
theorem run_calls_baseline (E : Externals) (L : SteeringLimits) (hE : keeps_torque_baseline E)
    (cs : List HookCall) :
    ∀ s : State, (∀ c ∈ cs, not_tx_lkas11 c) →
      torque_baseline (run_calls E L s cs) = torque_baseline s := by
  induction cs with
  | nil => intro s _; rfl
  | cons c cs ih =>
    intro s h
    have hc := h c (List.mem_cons_self c cs)
    have hrest : ∀ d ∈ cs, not_tx_lkas11 d := fun d hd => h d (List.mem_cons_of_mem c hd)
    simp only [run_calls, List.foldl_cons]
    have := ih (run_call E L s c) hrest
    simp only [run_calls] at this
    rw [this]
    cases c with
    | rx f valid => exact rx_hook_baseline E s f valid hE
    | tx f la ts => exact tx_hook_baseline_other E L s f la ts hc
    | fwd b f => exact fwd_hook_baseline s b f

/-- Identity externals keep the limiter baseline and the profile globals. -/
theorem sample_externals_keeps :
    keeps_torque_baseline sample_externals ∧ keeps_profile_globals sample_externals :=
  ⟨fun _ _ => ⟨rfl, rfl, rfl⟩, fun _ _ => rfl⟩

/-- Counterexample to C15: starting at module load, engaging, commanding
torque 100 and then receiving a low engage bit switches `controls_allowed`
from true to false while `desired_torque_last` and `rt_torque_last` stay 100;
a following high engage bit allows controls again with the baseline still
100. -/
theorem rx_disengage_keeps_baseline :
    (run_calls sample_externals HYUNDAI_COMMUNITY_STEERING_LIMITS initial_state
      (calls_engage_steer_disengage.take 2)).controls_allowed = true ∧
    (run_calls sample_externals HYUNDAI_COMMUNITY_STEERING_LIMITS initial_state
      calls_engage_steer_disengage).controls_allowed = false ∧
    (run_calls sample_externals HYUNDAI_COMMUNITY_STEERING_LIMITS initial_state
      calls_engage_steer_disengage).desired_torque_last = 100 ∧
    (run_calls sample_externals HYUNDAI_COMMUNITY_STEERING_LIMITS initial_state
      calls_engage_steer_disengage).rt_torque_last = 100 ∧
    (run_calls sample_externals HYUNDAI_COMMUNITY_STEERING_LIMITS initial_state
      (calls_engage_steer_disengage ++ [HookCall.rx scc11_high true])).controls_allowed = true ∧
    (run_calls sample_externals HYUNDAI_COMMUNITY_STEERING_LIMITS initial_state
      (calls_engage_steer_disengage ++ [HookCall.rx scc11_high true])).desired_torque_last
        = 100 := by
  decide

/-- C15 (amended): the receive hook never writes `desired_torque_last` or
`rt_torque_last`, also when it switches `controls_allowed` from true to
false; they are 0 after every transmit call with address 832 made while
`controls_allowed` is false, and stay 0 through every later sequence of hook
calls without a further transmit of address 832, the receive call that allows
controls again included.  The generic receive check, declared outside this
file, is taken not to write the limiter baseline. -/
theorem baseline_reset_by_tx_only (E : Externals) (L : SteeringLimits) (s : State)
    (f g : CANPacket_t) (valid la : Bool) (ts : Nat) (cs : List HookCall)
    (hE : keeps_torque_baseline E)
    (hc : s.controls_allowed = false) (ha : GET_ADDR g = 832)
    (hcs : ∀ c ∈ cs, not_tx_lkas11 c) :
    (hyundai_community_rx_hook E s f valid).2.desired_torque_last = s.desired_torque_last ∧
    (hyundai_community_rx_hook E s f valid).2.rt_torque_last = s.rt_torque_last ∧
    (∀ (t : State) (f2 : CANPacket_t) (v2 : Bool),
      (hyundai_community_rx_hook E t f2 v2).2.desired_torque_last = t.desired_torque_last ∧
      (hyundai_community_rx_hook E t f2 v2).2.rt_torque_last = t.rt_torque_last) ∧
    (hyundai_community_tx_hook E L s g la ts).2.desired_torque_last = 0 ∧
    (hyundai_community_tx_hook E L s g la ts).2.rt_torque_last = 0 ∧
    (run_calls E L (hyundai_community_tx_hook E L s g la ts).2 cs).desired_torque_last = 0 ∧
    (run_calls E L (hyundai_community_tx_hook E L s g la ts).2 cs).rt_torque_last = 0 := by
  have hrx : ∀ (t : State) (f2 : CANPacket_t) (v2 : Bool),
      (hyundai_community_rx_hook E t f2 v2).2.desired_torque_last = t.desired_torque_last ∧
      (hyundai_community_rx_hook E t f2 v2).2.rt_torque_last = t.rt_torque_last := by
    intro t f2 v2
    have h := rx_hook_baseline E t f2 v2 hE
    simp only [torque_baseline, Prod.mk.injEq] at h
    exact ⟨h.1, h.2.1⟩
  have htx := tx_hook_baseline_controls_off E L s g la ts hc ha
  have hrun := run_calls_baseline E L hE cs (hyundai_community_tx_hook E L s g la ts).2 hcs
  rw [htx] at hrun
  simp only [torque_baseline, Prod.mk.injEq] at htx hrun
  exact ⟨(hrx s f valid).1, (hrx s f valid).2, hrx, htx.1, htx.2.1, hrun.1, hrun.2.1⟩

theorem baseline_reset_by_tx_only_witness :
    (run_calls sample_externals HYUNDAI_COMMUNITY_STEERING_LIMITS
      (hyundai_community_tx_hook sample_externals HYUNDAI_COMMUNITY_STEERING_LIMITS
        (run_calls sample_externals HYUNDAI_COMMUNITY_STEERING_LIMITS initial_state
          calls_engage_steer_disengage) lkas11_torque_100 false 9).2
      [HookCall.rx scc11_high true]).desired_torque_last = 0 :=
  (baseline_reset_by_tx_only sample_externals HYUNDAI_COMMUNITY_STEERING_LIMITS
    (run_calls sample_externals HYUNDAI_COMMUNITY_STEERING_LIMITS initial_state
      calls_engage_steer_disengage) scc11_low lkas11_torque_100 true false 9
    [HookCall.rx scc11_high true] sample_externals_keeps.1 (by decide) rfl
    (by intro c hc; simp at hc; subst hc; trivial)).2.2.2.2.2.1


/-! ## Profile globals under the three hooks -/

theorem rx_scc11_gate_profile (s : State) (f : CANPacket_t) (addr : Nat) :
    profile_globals (rx_scc11_gate s f addr) = profile_globals s := by
  simp only [rx_scc11_gate, profile_globals]
  split_ifs <;> rfl

theorem rx_ems16_gate_profile (s : State) (f : CANPacket_t) (addr bus : Nat) :
    profile_globals (rx_ems16_gate s f addr bus) = profile_globals s := by
  simp only [rx_ems16_gate, profile_globals]
  split_ifs <;> rfl

theorem rx_wheel_speed_profile (s : State) (f : CANPacket_t) (addr : Nat) :
    profile_globals (rx_wheel_speed s f addr) = profile_globals s := by
  simp only [rx_wheel_speed, profile_globals]
  split_ifs <;> rfl

theorem rx_torque_driver_profile (E : Externals) (s : State) (f : CANPacket_t)
    (addr bus : Nat) :
    profile_globals (rx_torque_driver E s f addr bus) = profile_globals s := by
  simp only [rx_torque_driver, profile_globals]
  split_ifs <;> rfl

/-- After a receive call the profile's globals are those left by the four
topology detectors, provided the generic receive check does not write
them. -/
theorem rx_hook_profile (E : Externals) (s : State) (f : CANPacket_t) (valid : Bool)
    (hE : keeps_profile_globals E) :
    profile_globals (hyundai_community_rx_hook E s f valid).2 =
      profile_globals (rx_topology s (GET_ADDR f) (GET_BUS f)) := by
  rw [rx_hook_eq]
  simp only
  by_cases hv : (if GET_BUS f = 1 ∧ s.Lcan_bus1 = true then false else valid) = true
  · rw [if_pos hv]
    simp only [rx_state_update]
    rw [hE, rx_wheel_speed_profile, rx_ems16_gate_profile, rx_scc11_gate_profile,
      rx_torque_driver_profile]
    rfl
  · rw [if_neg hv]
    rfl

/-- The transmit hook writes no topology global. -/
theorem tx_hook_topology (E : Externals) (L : SteeringLimits) (s : State) (f : CANPacket_t)
    (la : Bool) (ts : Nat) :
    topology_globals (hyundai_community_tx_hook E L s f la ts).2 = topology_globals s := by
  have hown : ∀ (u : State) (a b : Nat),
      topology_globals (tx_ownership u a b) = topology_globals u := by
    intro u a b
    simp only [tx_ownership, topology_globals]
    split_ifs <;> rfl
  have hsteer : ∀ (u : State) (d : Int) (v : Bool),
      topology_globals (tx_steer_checks E L u d ts v).2 = topology_globals u := by
    intro u d v
    simp only [tx_steer_checks, topology_globals]
    split_ifs <;> rfl
  have hreset : ∀ (x : State) (c : Bool),
      topology_globals (if c = true then
        { x with desired_torque_last := 0, rt_torque_last := 0, ts_last := ts } else x) =
      topology_globals x := by
    intro x c
    split_ifs <;> rfl
  have hlkas : ∀ (u : State) (x : Int),
      topology_globals (tx_lkas11 E L u f ts x).2 = topology_globals u := by
    intro u x
    simp only [tx_lkas11]
    rw [hreset]
    by_cases hc : u.controls_allowed = true
    · rw [if_pos hc, hsteer]
      rfl
    · rw [if_neg hc]
      rfl
  simp only [hyundai_community_tx_hook, hown]
  by_cases ha : GET_ADDR f = 832
  · rw [if_pos ha]
    exact hlkas s _
  · rw [if_neg ha]

/-- The forwarding hook writes no topology global. -/
theorem fwd_hook_topology (s : State) (bus_num : Int) (f : CANPacket_t) :
    topology_globals (hyundai_community_fwd_hook s bus_num f).2 = topology_globals s := by
  have h0 : ∀ (u : State) (a : Nat) (x : Int),
      topology_globals (fwd_from_bus0 u a x).2 = topology_globals u := by
    intro u a x
    simp only [fwd_from_bus0, topology_globals]
    split_ifs <;> rfl
  have h1 : ∀ (u : State) (a : Nat),
      topology_globals (fwd_from_bus1 u a).2 = topology_globals u := by
    intro u a
    simp only [fwd_from_bus1, topology_globals]
    split_ifs <;> rfl
  have h2 : ∀ (u : State) (a : Nat) (x y : Int),
      topology_globals (fwd_from_bus2 u a x y).2 = topology_globals u := by
    intro u a x y
    simp only [fwd_from_bus2, topology_globals]
    split_ifs <;> rfl
  simp only [hyundai_community_fwd_hook]
  split_ifs <;> simp only [h0, h1, h2]

/-- The topology globals are part of the profile globals. -/
theorem topology_of_profile (s t : State) (h : profile_globals t = profile_globals s) :
    topology_globals t = topology_globals s := by
  simp only [profile_globals, Prod.mk.injEq] at h
  obtain ⟨h1, h2, h3, h4, _, h6, h7, _, _, _, _, _, _, _, _, _, h17, h18⟩ := h
  simp only [topology_globals, h1, h2, h3, h4, h6, h7, h17, h18]

/-- After a receive call the topology globals are those left by the four
topology detectors. -/
theorem rx_hook_topology (E : Externals) (s : State) (f : CANPacket_t) (valid : Bool)
    (hE : keeps_profile_globals E) :
    topology_globals (hyundai_community_rx_hook E s f valid).2 =
      topology_globals (rx_topology s (GET_ADDR f) (GET_BUS f)) :=
  topology_of_profile _ _ (rx_hook_profile E s f valid hE)


/-! ## Gateway detection on bus 1 -/

/-- Each topology detector keeps the gateway invariant. -/
theorem rx_lcan_bus1_gateway (s : State) (addr bus : Nat) (h : gateway_inv s) :
    gateway_inv (rx_lcan_bus1 s addr bus) := by
  simp only [gateway_inv] at h ⊢
  simp only [rx_lcan_bus1]
  split_ifs <;> simp_all

theorem rx_lkas11_gateway (s : State) (addr bus : Nat) (h : gateway_inv s) :
    gateway_inv (rx_lkas11 s addr bus) := by
  simp only [gateway_inv] at h ⊢
  obtain ⟨h1, h2⟩ := h
  simp only [rx_lkas11]
  split_ifs <;> simp_all

theorem rx_mdps_bus_gateway (s : State) (addr bus : Nat) (h : gateway_inv s) :
    gateway_inv (rx_mdps_bus s addr bus) := by
  simp only [gateway_inv] at h ⊢
  simp only [rx_mdps_bus]
  split_ifs <;> simp_all

theorem rx_scc_bus_gateway (s : State) (addr bus : Nat) (h : gateway_inv s) :
    gateway_inv (rx_scc_bus s addr bus) := by
  simp only [gateway_inv] at h ⊢
  simp only [rx_scc_bus]
  split_ifs <;> simp_all

/-- The gateway invariant reads topology globals only. -/
theorem gateway_inv_congr (s t : State) (h : topology_globals t = topology_globals s)
    (hs : gateway_inv s) : gateway_inv t := by
  simp only [topology_globals, Prod.mk.injEq] at h
  obtain ⟨h1, h2, _, _, _, h6, _, _⟩ := h
  simp only [gateway_inv, h1, h2, h6]
  exact hs

/-- Every hook call keeps the gateway invariant. -/
theorem run_call_gateway (E : Externals) (L : SteeringLimits) (hE : keeps_profile_globals E)
    (s : State) (c : HookCall) (h : gateway_inv s) : gateway_inv (run_call E L s c) := by
  cases c with
  | rx f valid =>
    apply gateway_inv_congr _ _ (rx_hook_topology E s f valid hE)
    exact rx_scc_bus_gateway _ _ _ (rx_mdps_bus_gateway _ _ _ (rx_lkas11_gateway _ _ _
      (rx_lcan_bus1_gateway _ _ _ h)))
  | tx f la ts => exact gateway_inv_congr _ _ (tx_hook_topology E L s f la ts) h
  | fwd b f => exact gateway_inv_congr _ _ (fwd_hook_topology s b f) h

/-- A property kept by every hook call holds after every sequence of calls. -/
theorem run_calls_induction (E : Externals) (L : SteeringLimits) (P : State → Prop)
    (hstep : ∀ (s : State) (c : HookCall), P s → P (run_call E L s c)) (cs : List HookCall) :
    ∀ s : State, P s → P (run_calls E L s cs) := by
  induction cs with
  | nil => intro s h; exact h
  | cons c cs ih =>
    intro s h
    simp only [run_calls, List.foldl_cons]
    exact ih _ (hstep s c h)

/-- A gateway diagnostic frame on bus 1 only fires the gateway detector. -/
theorem rx_topology_lcan (s : State) (addr : Nat) (ha : addr = 1296 ∨ addr = 524) :
    rx_topology s addr 1 = rx_lcan_bus1 s addr 1 := by
  have h1 : addr ≠ 832 := by omega
  have h2 : ¬ (addr = 593 ∨ addr = 897) := by omega
  have h3 : ¬ (addr = 1056 ∨ addr = 1057) := by omega
  simp only [rx_topology, rx_lkas11, rx_mdps_bus, rx_scc_bus, h1, h2, h3, if_false, false_and]

/-- C11: after the receive hook has processed address 1296 or 524 on bus 1,
`Lcan_bus1` is true, `Fwd_bus1` is false and `Lcan_bus1_cnt` is 500; in every
state reachable from module load by receive, transmit and forward calls, an
armed grace counter (`Lcan_bus1_cnt > 0`) comes with `Lcan_bus1` set and
`Fwd_bus1` clear, and the two flags are never both true.  The generic receive
check, declared outside this file, is taken not to write the profile's
globals. -/
theorem gateway_detection (E : Externals) (L : SteeringLimits) (s : State) (f : CANPacket_t)
    (valid : Bool) (hE : keeps_profile_globals E)
    (hb : GET_BUS f = 1) (ha : GET_ADDR f = 1296 ∨ GET_ADDR f = 524) :
    (hyundai_community_rx_hook E s f valid).2.Lcan_bus1 = true ∧
    (hyundai_community_rx_hook E s f valid).2.Fwd_bus1 = false ∧
    (hyundai_community_rx_hook E s f valid).2.Lcan_bus1_cnt = 500 ∧
    (∀ t : State, Reachable E L t →
      (0 < t.Lcan_bus1_cnt → t.Lcan_bus1 = true ∧ t.Fwd_bus1 = false) ∧
      ¬ (t.Lcan_bus1 = true ∧ t.Fwd_bus1 = true)) := by
  have htop := rx_hook_topology E s f valid hE
  rw [hb, rx_topology_lcan s _ ha] at htop
  simp only [topology_globals, Prod.mk.injEq] at htop
  obtain ⟨h1, h2, _, _, _, h6, _, _⟩ := htop
  have hl : (rx_lcan_bus1 s (GET_ADDR f) 1).Lcan_bus1 = true ∧
      (rx_lcan_bus1 s (GET_ADDR f) 1).Fwd_bus1 = false ∧
      (rx_lcan_bus1 s (GET_ADDR f) 1).Lcan_bus1_cnt = 500 := by
    simp only [rx_lcan_bus1, ha, and_self, if_true, true_and]
    cases hf : s.Fwd_bus1 <;> cases hl : s.Lcan_bus1 <;> simp
  refine ⟨h1.trans hl.1, h2.trans hl.2.1, h6.trans hl.2.2, ?_⟩
  rintro t ⟨cs, rfl⟩
  exact run_calls_induction E L gateway_inv (run_call_gateway E L hE) cs initial_state
    ⟨fun h => absurd h (by decide), by decide⟩

theorem gateway_detection_witness :
    (hyundai_community_rx_hook sample_externals
      (hyundai_community_rx_hook sample_externals initial_state mdps12_bus1 true).2
      lcan_bus1_frame true).2.Fwd_bus1 = false ∧
    (hyundai_community_rx_hook sample_externals initial_state mdps12_bus1 true).2.Fwd_bus1
      = true :=
  ⟨(gateway_detection sample_externals HYUNDAI_COMMUNITY_STEERING_LIMITS
      (hyundai_community_rx_hook sample_externals initial_state mdps12_bus1 true).2
      lcan_bus1_frame true sample_externals_keeps.2 rfl (Or.inl rfl)).2.1, by decide⟩


/-! ## Forwarding hook: ownership counters -/

/-- The forwarding hook as one case distinction on the source bus. -/
theorem fwd_hook_cases (s : State) (bus_num : Int) (f : CANPacket_t) :
    hyundai_community_fwd_hook s bus_num f =
      if s.Fwd_bus2 = true then
        if bus_num = 0 then
          fwd_from_bus0 s (GET_ADDR f) (if (s.Fwd_bus1 || s.Fwd_obd) = true then 1 else -1)
        else if bus_num = 1 ∧ (s.Fwd_bus1 || s.Fwd_obd) = true then fwd_from_bus1 s (GET_ADDR f)
        else if bus_num = 2 then
          fwd_from_bus2 s (GET_ADDR f) (if (s.Fwd_bus1 || s.Fwd_obd) = true then 1 else -1) (-1)
        else (-1, s)
      else
        (if bus_num = 0 then (if (s.Fwd_bus1 || s.Fwd_obd) = true then 1 else -1)
          else if bus_num = 1 ∧ (s.Fwd_bus1 || s.Fwd_obd) = true then 0 else -1, s) := by
  simp only [hyundai_community_fwd_hook]
  by_cases h2 : s.Fwd_bus2 = true
  · simp only [h2, if_true]
    by_cases b0 : bus_num = 0
    · subst b0
      simp
    · by_cases b1 : bus_num = 1
      · subst b1
        simp
      · by_cases b2 : bus_num = 2
        · subst b2
          simp
        · simp [b0, b1, b2]
  · simp only [h2, if_false]
    by_cases b0 : bus_num = 0
    · subst b0
      simp
    · simp [b0]

/-- Frames from bus 0: the state is kept, or one nonzero counter is lowered. -/
theorem fwd_from_bus0_cases (s : State) (addr : Nat) (x : Int) :
    (fwd_from_bus0 s addr x).2 = s ∨
    (s.CLU11_op ≠ 0 ∧ addr = 1265 ∧ s.MDPS_bus ≠ 0 ∧
      (fwd_from_bus0 s addr x).2 = { s with CLU11_op := s.CLU11_op - 1 }) ∨
    (s.MDPS12_op ≠ 0 ∧ addr = 593 ∧
      (fwd_from_bus0 s addr x).2 = { s with MDPS12_op := s.MDPS12_op - 1 }) ∨
    (s.EMS11_op ≠ 0 ∧ addr = 790 ∧
      (fwd_from_bus0 s addr x).2 = { s with EMS11_op := s.EMS11_op - 1 }) := by
  simp only [fwd_from_bus0]
  by_cases c1 : s.CLU11_op = 0 ∨ addr ≠ 1265 ∨ s.MDPS_bus = 0
  · rw [if_pos c1]
    by_cases c2 : s.MDPS12_op = 0 ∨ addr ≠ 593
    · rw [if_pos c2]
      by_cases c3 : s.EMS11_op = 0 ∨ addr ≠ 790
      · rw [if_pos c3]
        exact Or.inl rfl
      · rw [if_neg c3]
        obtain ⟨k1, k2⟩ := not_or.mp c3
        exact Or.inr (Or.inr (Or.inr ⟨k1, not_not.mp k2, rfl⟩))
    · rw [if_neg c2]
      obtain ⟨k1, k2⟩ := not_or.mp c2
      exact Or.inr (Or.inr (Or.inl ⟨k1, not_not.mp k2, rfl⟩))
  · rw [if_neg c1]
    obtain ⟨k1, k23⟩ := not_or.mp c1
    obtain ⟨k2, k3⟩ := not_or.mp k23
    exact Or.inr (Or.inl ⟨k1, not_not.mp k2, k3, rfl⟩)

/-- Frames from bus 1: the state is kept, or one nonzero counter is lowered. -/
theorem fwd_from_bus1_cases (s : State) (addr : Nat) :
    (fwd_from_bus1 s addr).2 = s ∨
    (s.MDPS12_op ≠ 0 ∧ addr = 593 ∧
      (fwd_from_bus1 s addr).2 = { s with MDPS12_op := s.MDPS12_op - 1 }) ∨
    (s.SCC12_op ≠ 0 ∧ (addr = 1056 ∨ addr = 1057 ∨ addr = 1290 ∨ addr = 905) ∧
      (fwd_from_bus1 s addr).2 = { s with SCC12_op := s.SCC12_op - 1 }) := by
  simp only [fwd_from_bus1]
  by_cases c1 : s.MDPS12_op = 0 ∨ addr ≠ 593
  · rw [if_pos c1]
    by_cases c2 : s.SCC12_op = 0 ∨ (addr ≠ 1056 ∧ addr ≠ 1057 ∧ addr ≠ 1290 ∧ addr ≠ 905)
    · rw [if_pos c2]
      exact Or.inl rfl
    · rw [if_neg c2]
      obtain ⟨k1, k2⟩ := not_or.mp c2
      exact Or.inr (Or.inr ⟨k1, by omega, rfl⟩)
  · rw [if_neg c1]
    obtain ⟨k1, k2⟩ := not_or.mp c1
    exact Or.inr (Or.inl ⟨k1, not_not.mp k2, rfl⟩)

/-- Frames from bus 2: the state is kept, or one nonzero counter is lowered. -/
theorem fwd_from_bus2_cases (s : State) (addr : Nat) (x y : Int) :
    (fwd_from_bus2 s addr x y).2 = s ∨
    (s.SCC12_op ≠ 0 ∧ (addr = 1056 ∨ addr = 1057 ∨ addr = 1290 ∨ addr = 905) ∧
      (fwd_from_bus2 s addr x y).2 = { s with SCC12_op := s.SCC12_op - 1 }) ∨
    (s.LKAS11_op ≠ 0 ∧ (addr = 832 ∨ addr = 1157) ∧
      (fwd_from_bus2 s addr x y).2 = { s with LKAS11_op := s.LKAS11_op - 1 }) := by
  simp only [fwd_from_bus2]
  by_cases c1 : s.LKAS11_op = 0 ∨ (addr ≠ 832 ∧ addr ≠ 1157)
  · rw [if_pos c1]
    by_cases c2 : s.SCC12_op = 0 ∨ (addr ≠ 1056 ∧ addr ≠ 1057 ∧ addr ≠ 1290 ∧ addr ≠ 905)
    · rw [if_pos c2]
      exact Or.inl rfl
    · rw [if_neg c2]
      obtain ⟨k1, k2⟩ := not_or.mp c2
      exact Or.inr (Or.inl ⟨k1, by omega, rfl⟩)
  · rw [if_neg c1]
    obtain ⟨k1, k2⟩ := not_or.mp c1
    have ka : addr = 832 ∨ addr = 1157 := by omega
    by_cases c3 : s.MDPS_bus = 0
    · rw [if_pos c3]
      exact Or.inr (Or.inr ⟨k1, ka, rfl⟩)
    · rw [if_neg c3]
      exact Or.inr (Or.inr ⟨k1, ka, rfl⟩)

/-- The forwarding hook leaves the state as it is, or lowers by one the
nonzero ownership counter of the family the frame's address belongs to. -/
theorem fwd_hook_state_cases (s : State) (bus_num : Int) (f : CANPacket_t) :
    (hyundai_community_fwd_hook s bus_num f).2 = s ∨
    ∃ fam : Family, fam.counter s ≠ 0 ∧ fam.has_addr (GET_ADDR f) ∧
      fam.matching s bus_num (GET_ADDR f) ∧
      (hyundai_community_fwd_hook s bus_num f).2 = fam.set_counter s (fam.counter s - 1) := by
  rw [fwd_hook_cases]
  by_cases h2 : s.Fwd_bus2 = true
  · rw [if_pos h2]
    by_cases b0 : bus_num = 0
    · rw [if_pos b0]
      rcases fwd_from_bus0_cases s (GET_ADDR f)
        (if (s.Fwd_bus1 || s.Fwd_obd) = true then 1 else -1) with h | h | h | h
      · exact Or.inl h
      · exact Or.inr ⟨Family.CLU11, h.1, h.2.1, ⟨h2, b0, h.2.1, h.2.2.1⟩, h.2.2.2⟩
      · exact Or.inr ⟨Family.MDPS12, h.1, h.2.1, ⟨h2, h.2.1, Or.inl b0⟩, h.2.2⟩
      · exact Or.inr ⟨Family.EMS11, h.1, h.2.1, ⟨h2, b0, h.2.1⟩, h.2.2⟩
    · rw [if_neg b0]
      by_cases b1 : bus_num = 1 ∧ (s.Fwd_bus1 || s.Fwd_obd) = true
      · rw [if_pos b1]
        rcases fwd_from_bus1_cases s (GET_ADDR f) with h | h | h
        · exact Or.inl h
        · exact Or.inr ⟨Family.MDPS12, h.1, h.2.1, ⟨h2, h.2.1, Or.inr b1⟩, h.2.2⟩
        · exact Or.inr ⟨Family.SCC12, h.1, h.2.1, ⟨h2, h.2.1, Or.inl b1⟩, h.2.2⟩
      · rw [if_neg b1]
        by_cases b2 : bus_num = 2
        · rw [if_pos b2]
          rcases fwd_from_bus2_cases s (GET_ADDR f)
            (if (s.Fwd_bus1 || s.Fwd_obd) = true then 1 else -1) (-1) with h | h | h
          · exact Or.inl h
          · exact Or.inr ⟨Family.SCC12, h.1, h.2.1, ⟨h2, h.2.1, Or.inr b2⟩, h.2.2⟩
          · exact Or.inr ⟨Family.LKAS11, h.1, h.2.1, ⟨h2, b2, h.2.1⟩, h.2.2⟩
        · rw [if_neg b2]
          exact Or.inl rfl
  · rw [if_neg h2]
    exact Or.inl rfl


/-- Replacing a family's counter: what is read back, and what is kept. -/
theorem Family.counter_set (fam : Family) (s : State) (v : Int) :
    fam.counter (fam.set_counter s v) = v := by
  cases fam <;> rfl

theorem Family.set_set (fam : Family) (s : State) (v w : Int) :
    fam.set_counter (fam.set_counter s v) w = fam.set_counter s w := by
  cases fam <;> rfl

theorem Family.set_self (fam : Family) (s : State) : fam.set_counter s (fam.counter s) = s := by
  cases fam <;> rfl

theorem Family.matching_set (fam : Family) (s : State) (v : Int) (b : Int) (a : Nat) :
    fam.matching (fam.set_counter s v) b a ↔ fam.matching s b a := by
  cases fam <;> rfl

theorem normal_relay_set (fam : Family) (s : State) (v : Int) (b : Int) :
    normal_relay (fam.set_counter s v) b = normal_relay s b := by
  cases fam <;> rfl

/-- A matching frame met by a nonzero counter lowers that counter by one. -/
theorem fwd_hook_suppressed (fam : Family) (s : State) (b : Int) (f : CANPacket_t)
    (hm : fam.matching s b (GET_ADDR f)) (hc : fam.counter s ≠ 0) :
    (hyundai_community_fwd_hook s b f).2 = fam.set_counter s (fam.counter s - 1) := by
  rw [fwd_hook_cases]
  cases fam with
  | CLU11 =>
    obtain ⟨h2, hb, ha, hmd⟩ := hm
    simp only [Family.counter] at hc
    simp [h2, hb, ha, fwd_from_bus0, hc, hmd, Family.set_counter, Family.counter]
  | MDPS12 =>
    obtain ⟨h2, ha, hb⟩ := hm
    simp only [Family.counter] at hc
    rcases hb with hb | hb
    · simp [h2, hb, ha, fwd_from_bus0, hc, Family.set_counter, Family.counter]
    · simp [h2, hb.1, hb.2, ha, fwd_from_bus1, hc, Family.set_counter, Family.counter]
  | EMS11 =>
    obtain ⟨h2, hb, ha⟩ := hm
    simp only [Family.counter] at hc
    simp [h2, hb, ha, fwd_from_bus0, hc, Family.set_counter, Family.counter]
  | SCC12 =>
    obtain ⟨h2, ha, hb⟩ := hm
    simp only [Family.counter] at hc
    have n1 : GET_ADDR f ≠ 593 := by omega
    have n2 : ¬ (GET_ADDR f = 832 ∨ GET_ADDR f = 1157) := by omega
    have n3 : ¬ (GET_ADDR f ≠ 1056 ∧ GET_ADDR f ≠ 1057 ∧ GET_ADDR f ≠ 1290 ∧
        GET_ADDR f ≠ 905) := by omega
    rcases hb with hb | hb
    · simp [h2, hb.1, hb.2, fwd_from_bus1, hc, n1, n3, Family.set_counter, Family.counter]
    · have n4 : GET_ADDR f ≠ 832 ∧ GET_ADDR f ≠ 1157 := by omega
      simp [h2, hb, fwd_from_bus2, hc, n3, n4, Family.set_counter, Family.counter]
  | LKAS11 =>
    obtain ⟨h2, hb, ha⟩ := hm
    simp only [Family.counter] at hc
    have n1 : ¬ (GET_ADDR f ≠ 832 ∧ GET_ADDR f ≠ 1157) := by omega
    simp only [h2, hb, fwd_from_bus2, hc, n1, Family.set_counter, Family.counter]
    simp
    split_ifs <;> rfl

/-- A matching frame met by a zero counter takes the normal relay and leaves
the state as it is. -/
theorem fwd_hook_normal (fam : Family) (s : State) (b : Int) (f : CANPacket_t)
    (hm : fam.matching s b (GET_ADDR f)) (hc : fam.counter s = 0) :
    hyundai_community_fwd_hook s b f = (normal_relay s b, s) := by
  rw [fwd_hook_cases]
  cases fam with
  | CLU11 =>
    obtain ⟨h2, hb, ha, _⟩ := hm
    simp only [Family.counter] at hc
    cases h1 : s.Fwd_bus1 <;> cases ho : s.Fwd_obd <;>
      simp [h2, hb, ha, fwd_from_bus0, hc, normal_relay, h1, ho]
  | MDPS12 =>
    obtain ⟨h2, ha, hb⟩ := hm
    simp only [Family.counter] at hc
    rcases hb with hb | hb
    · cases h1 : s.Fwd_bus1 <;> cases ho : s.Fwd_obd <;>
        simp [h2, hb, ha, fwd_from_bus0, hc, normal_relay, h1, ho]
    · simp [h2, hb.1, hb.2, ha, fwd_from_bus1, hc, normal_relay]
  | EMS11 =>
    obtain ⟨h2, hb, ha⟩ := hm
    simp only [Family.counter] at hc
    cases h1 : s.Fwd_bus1 <;> cases ho : s.Fwd_obd <;>
      simp [h2, hb, ha, fwd_from_bus0, hc, normal_relay, h1, ho]
  | SCC12 =>
    obtain ⟨h2, ha, hb⟩ := hm
    simp only [Family.counter] at hc
    have n1 : GET_ADDR f ≠ 593 := by omega
    have n4 : GET_ADDR f ≠ 832 ∧ GET_ADDR f ≠ 1157 := by omega
    rcases hb with hb | hb
    · simp [h2, hb.1, hb.2, fwd_from_bus1, hc, n1, normal_relay]
    · cases h1 : s.Fwd_bus1 <;> cases ho : s.Fwd_obd <;>
        simp [h2, hb, fwd_from_bus2, hc, n4, normal_relay, h1, ho]
  | LKAS11 =>
    obtain ⟨h2, hb, ha⟩ := hm
    simp only [Family.counter] at hc
    have n1 : GET_ADDR f ≠ 1056 ∧ GET_ADDR f ≠ 1057 ∧ GET_ADDR f ≠ 1290 ∧
        GET_ADDR f ≠ 905 := by omega
    cases h1 : s.Fwd_bus1 <;> cases ho : s.Fwd_obd <;>
      simp [h2, hb, fwd_from_bus2, hc, n1, normal_relay, h1, ho]

/-- Matching frames lower the counter by one each until it reaches zero and
leave it there. -/
theorem fwd_run_countdown (fam : Family) (frames : List (Int × CANPacket_t)) :
    ∀ (n : Nat) (s : State), fam.counter s = (n : Int) →
      (∀ p ∈ frames, fam.matching s p.1 (GET_ADDR p.2)) →
      fwd_run s frames = fam.set_counter s ((n - frames.length : Nat) : Int) := by
  induction frames with
  | nil =>
    intro n s hn _
    simp only [fwd_run, List.foldl_nil, List.length_nil, Nat.sub_zero]
    rw [← hn, Family.set_self]
  | cons p ps ih =>
    intro n s hn hm
    have hp := hm p (List.mem_cons_self p ps)
    have hps : ∀ q ∈ ps, fam.matching s q.1 (GET_ADDR q.2) :=
      fun q hq => hm q (List.mem_cons_of_mem p hq)
    simp only [fwd_run, List.foldl_cons, List.length_cons]
    cases n with
    | zero =>
      have h0 : fam.counter s = 0 := by simpa using hn
      rw [fwd_hook_normal fam s p.1 p.2 hp h0]
      have := ih 0 s (by simpa using h0) hps
      simp only [fwd_run] at this
      rw [this]
      simp
    | succ m =>
      have hc : fam.counter s ≠ 0 := by rw [hn]; omega
      rw [fwd_hook_suppressed fam s p.1 p.2 hp hc]
      have hcnt : fam.counter (fam.set_counter s (fam.counter s - 1)) = (m : Int) := by
        rw [Family.counter_set, hn]
        push_cast
        omega
      have := ih m (fam.set_counter s (fam.counter s - 1)) hcnt
        (fun q hq => (Family.matching_set fam s _ q.1 _).mpr (hps q hq))
      simp only [fwd_run] at this
      rw [this, Family.set_set]
      congr 2
      omega


/-! ## Counters stay between zero and their arming value -/

theorem counters_of_profile (s t : State) (h : profile_globals t = profile_globals s) :
    counter_globals t = counter_globals s := by
  simp only [profile_globals, Prod.mk.injEq] at h
  obtain ⟨_, _, _, _, _, h6, h7, _, _, _, h11, h12, h13, h14, h15, h16, _, _⟩ := h
  simp only [counter_globals, h6, h7, h11, h12, h13, h14, h15, h16]

theorem counters_in_range_congr (s t : State) (h : counter_globals t = counter_globals s)
    (hs : counters_in_range s) : counters_in_range t := by
  simp only [counter_globals, Prod.mk.injEq] at h
  obtain ⟨h1, h2, h3, h4, h5, h6, h7, h8⟩ := h
  simp only [counters_in_range, h1, h2, h3, h4, h5, h6, h7, h8]
  exact hs

theorem counters_step_congr (s t u : State) (h : counter_globals t = counter_globals u)
    (hs : counters_step s u) : counters_step s t := by
  simp only [counter_globals, Prod.mk.injEq] at h
  obtain ⟨h1, h2, h3, h4, h5, h6, h7, h8⟩ := h
  simp only [counters_step, h1, h2, h3, h4, h5, h6, h7, h8]
  exact hs

/-- The two bus discoveries write no counter. -/
theorem rx_mdps_bus_counters (s : State) (addr bus : Nat) :
    counter_globals (rx_mdps_bus s addr bus) = counter_globals s := by
  simp only [rx_mdps_bus, counter_globals]
  split_ifs <;> rfl

theorem rx_scc_bus_counters (s : State) (addr bus : Nat) :
    counter_globals (rx_scc_bus s addr bus) = counter_globals s := by
  simp only [rx_scc_bus, counter_globals]
  split_ifs <;> rfl

/-- The gateway detector re-arms its grace counter or leaves the counters as
they are. -/
theorem rx_lcan_bus1_counters (s : State) (addr bus : Nat) :
    counter_globals (rx_lcan_bus1 s addr bus) =
      (if bus = 1 ∧ (addr = 1296 ∨ addr = 524) then 500 else s.Lcan_bus1_cnt,
        s.LKAS11_bus0_cnt, s.LKAS11_op, s.MDPS12_op, s.CLU11_op, s.SCC12_op, s.EMS11_op,
        s.SCC12_car) := by
  simp only [rx_lcan_bus1, counter_globals]
  split_ifs <;> rfl

/-- The LKAS11 detector re-arms or lowers the bus-0 grace counter and lowers
the gateway grace counter, each only from a positive value. -/
theorem rx_lkas11_counters (s : State) (addr bus : Nat) :
    counter_globals (rx_lkas11 s addr bus) =
      (if addr = 832 ∧ bus = 2 ∧ 0 < s.Lcan_bus1_cnt then s.Lcan_bus1_cnt - 1
        else s.Lcan_bus1_cnt,
        if addr = 832 ∧ bus = 0 ∧ s.Fwd_bus2 = true then 20
        else if addr = 832 ∧ bus = 2 ∧ 0 < s.LKAS11_bus0_cnt then s.LKAS11_bus0_cnt - 1
        else s.LKAS11_bus0_cnt,
        s.LKAS11_op, s.MDPS12_op, s.CLU11_op, s.SCC12_op, s.EMS11_op, s.SCC12_car) := by
  simp only [rx_lkas11, counter_globals]
  by_cases ha : addr = 832
  · by_cases hb0 : bus = 0
    · subst hb0
      by_cases hf : s.Fwd_bus2 = true
      · simp [ha, hf]
      · simp [ha, hf]
    · by_cases hb2 : bus = 2
      · subst hb2
        simp only [ha, true_and, if_true]
        split_ifs <;> simp_all
      · simp [ha, hb0, hb2]
  · simp [ha]

/-- Counters after the four topology detectors. -/
theorem rx_topology_counters (s : State) (addr bus : Nat) :
    counters_step s (rx_topology s addr bus) ∧
    (counters_in_range s → counters_in_range (rx_topology s addr bus)) := by
  have h : counter_globals (rx_topology s addr bus) =
      counter_globals (rx_lkas11 (rx_lcan_bus1 s addr bus) addr bus) := by
    simp only [rx_topology, rx_scc_bus_counters, rx_mdps_bus_counters]
  rw [rx_lkas11_counters] at h
  have hl := rx_lcan_bus1_counters s addr bus
  simp only [counter_globals, Prod.mk.injEq] at hl
  obtain ⟨l1, l2, l3, l4, l5, l6, l7, l8⟩ := hl
  rw [l1, l2, l3, l4, l5, l6, l7, l8] at h
  simp only [counter_globals, Prod.mk.injEq] at h
  obtain ⟨h1, h2, h3, h4, h5, h6, h7, h8⟩ := h
  constructor
  · unfold counters_step counter_step
    rw [h1, h2, h3, h4, h5, h6, h7, h8]
    refine ⟨?_, ?_, Or.inr (Or.inr rfl), Or.inr (Or.inr rfl), Or.inr (Or.inr rfl),
      Or.inr (Or.inr rfl), Or.inr (Or.inr rfl), Or.inr rfl⟩
    · split_ifs <;> omega
    · split_ifs <;> omega
  · intro hr
    simp only [counters_in_range] at hr ⊢
    rw [h1, h2, h3, h4, h5, h6, h7, h8]
    obtain ⟨r1, r2, r3, r4, r5, r6, r7, r8⟩ := hr
    refine ⟨?_, ?_, r3, r4, r5, r6, r7, r8⟩
    · split_ifs <;> omega
    · split_ifs <;> omega


/-- Counters after the arming block of the transmit hook. -/
theorem tx_ownership_counters (u : State) (addr bus : Nat) :
    counter_globals (tx_ownership u addr bus) =
      (u.Lcan_bus1_cnt, u.LKAS11_bus0_cnt, u.LKAS11_op,
        if addr = 593 then 20 else u.MDPS12_op,
        if addr = 1265 ∧ bus = 1 then 20 else u.CLU11_op,
        if addr = 1057 then 20 else u.SCC12_op,
        if addr = 790 then 20 else u.EMS11_op,
        if addr = 1057 ∧ 0 < u.SCC12_car then u.SCC12_car - 1 else u.SCC12_car) := by
  simp only [tx_ownership, counter_globals]
  by_cases h1 : addr = 593
  · subst h1
    simp
  · by_cases h2 : addr = 1265
    · subst h2
      by_cases hb : bus = 1
      · simp [hb]
      · simp [hb]
    · by_cases h3 : addr = 1057
      · subst h3
        by_cases hc : 0 < u.SCC12_car
        · simp [hc]
        · simp [hc]
      · by_cases h4 : addr = 790
        · subst h4
          simp
        · simp [h1, h2, h3, h4]

/-- The LKAS11 branch of the transmit hook arms `LKAS11_op` and writes no
other counter. -/
theorem tx_lkas11_counters (E : Externals) (L : SteeringLimits) (u : State) (f : CANPacket_t)
    (ts : Nat) (x : Int) :
    counter_globals (tx_lkas11 E L u f ts x).2 =
      (u.Lcan_bus1_cnt, u.LKAS11_bus0_cnt, 20, u.MDPS12_op, u.CLU11_op, u.SCC12_op,
        u.EMS11_op, u.SCC12_car) := by
  have hsteer : ∀ (w : State) (d : Int) (v : Bool),
      counter_globals (tx_steer_checks E L w d ts v).2 = counter_globals w := by
    intro w d v
    simp only [tx_steer_checks, counter_globals]
    split_ifs <;> rfl
  have hreset : ∀ (w : State) (c : Bool),
      counter_globals (if c = true then
        { w with desired_torque_last := 0, rt_torque_last := 0, ts_last := ts } else w) =
      counter_globals w := by
    intro w c
    split_ifs <;> rfl
  simp only [tx_lkas11]
  rw [hreset]
  by_cases hc : u.controls_allowed = true
  · rw [if_pos hc, hsteer]
    rfl
  · rw [if_neg hc]
    rfl

/-- Counters after a transmit call. -/
theorem tx_hook_counters (E : Externals) (L : SteeringLimits) (s : State) (f : CANPacket_t)
    (la : Bool) (ts : Nat) :
    counter_globals (hyundai_community_tx_hook E L s f la ts).2 =
      (s.Lcan_bus1_cnt, s.LKAS11_bus0_cnt,
        if GET_ADDR f = 832 then 20 else s.LKAS11_op,
        if GET_ADDR f = 593 then 20 else s.MDPS12_op,
        if GET_ADDR f = 1265 ∧ GET_BUS f = 1 then 20 else s.CLU11_op,
        if GET_ADDR f = 1057 then 20 else s.SCC12_op,
        if GET_ADDR f = 790 then 20 else s.EMS11_op,
        if GET_ADDR f = 1057 ∧ 0 < s.SCC12_car then s.SCC12_car - 1 else s.SCC12_car) := by
  simp only [hyundai_community_tx_hook, tx_ownership_counters]
  by_cases ha : GET_ADDR f = 832
  · have hl := tx_lkas11_counters E L s f ts
      (if s.relay_malfunction = true then 0
        else if (!msg_allowed f HYUNDAI_COMMUNITY_TX_MSGS) = true then 0 else 1)
    simp only [counter_globals, Prod.mk.injEq] at hl
    obtain ⟨l1, l2, l3, l4, l5, l6, l7, l8⟩ := hl
    simp only [ha, if_true, l1, l2, l3, l4, l5, l6, l7, l8]
  · simp only [ha, if_false]

/-- A transmit call re-arms counters or leaves them, and keeps them in
range. -/
theorem tx_hook_counters_step (E : Externals) (L : SteeringLimits) (s : State)
    (f : CANPacket_t) (la : Bool) (ts : Nat) :
    counters_step s (hyundai_community_tx_hook E L s f la ts).2 ∧
    (counters_in_range s → counters_in_range (hyundai_community_tx_hook E L s f la ts).2) := by
  have h := tx_hook_counters E L s f la ts
  simp only [counter_globals, Prod.mk.injEq] at h
  obtain ⟨h1, h2, h3, h4, h5, h6, h7, h8⟩ := h
  constructor
  · unfold counters_step counter_step
    rw [h1, h2, h3, h4, h5, h6, h7, h8]
    refine ⟨Or.inr (Or.inr rfl), Or.inr (Or.inr rfl), ?_, ?_, ?_, ?_, ?_, ?_⟩ <;>
      split_ifs <;> omega
  · intro hr
    unfold counters_in_range at hr ⊢
    rw [h1, h2, h3, h4, h5, h6, h7, h8]
    obtain ⟨r1, r2, r3, r4, r5, r6, r7, r8⟩ := hr
    refine ⟨r1, r2, ?_, ?_, ?_, ?_, ?_, ?_⟩ <;> split_ifs <;> omega

/-- A forwarding call lowers one nonzero counter or leaves them, and keeps
them in range. -/
theorem fwd_hook_counters_step (s : State) (bus_num : Int) (f : CANPacket_t) :
    counters_step s (hyundai_community_fwd_hook s bus_num f).2 ∧
    (counters_in_range s → counters_in_range (hyundai_community_fwd_hook s bus_num f).2) := by
  have hself : counters_step s s := by
    unfold counters_step counter_step
    exact ⟨Or.inr (Or.inr rfl), Or.inr (Or.inr rfl), Or.inr (Or.inr rfl), Or.inr (Or.inr rfl),
      Or.inr (Or.inr rfl), Or.inr (Or.inr rfl), Or.inr (Or.inr rfl), Or.inr rfl⟩
  rcases fwd_hook_state_cases s bus_num f with h | ⟨fam, hc, _, _, h⟩
  · rw [h]
    exact ⟨hself, fun hr => hr⟩
  · rw [h]
    have hstep : ∀ fam : Family,
        counter_globals (fam.set_counter s (fam.counter s - 1)) =
          (s.Lcan_bus1_cnt, s.LKAS11_bus0_cnt,
            if fam = Family.LKAS11 then s.LKAS11_op - 1 else s.LKAS11_op,
            if fam = Family.MDPS12 then s.MDPS12_op - 1 else s.MDPS12_op,
            if fam = Family.CLU11 then s.CLU11_op - 1 else s.CLU11_op,
            if fam = Family.SCC12 then s.SCC12_op - 1 else s.SCC12_op,
            if fam = Family.EMS11 then s.EMS11_op - 1 else s.EMS11_op, s.SCC12_car) := by
      intro fm
      cases fm <;> rfl
    have hg := hstep fam
    simp only [counter_globals, Prod.mk.injEq] at hg
    obtain ⟨h1, h2, h3, h4, h5, h6, h7, h8⟩ := hg
    constructor
    · unfold counters_step counter_step
      rw [h1, h2, h3, h4, h5, h6, h7, h8]
      refine ⟨Or.inr (Or.inr rfl), Or.inr (Or.inr rfl), ?_, ?_, ?_, ?_, ?_, Or.inr rfl⟩ <;>
        split_ifs <;> omega
    · intro hr
      unfold counters_in_range at hr ⊢
      rw [h1, h2, h3, h4, h5, h6, h7, h8]
      obtain ⟨r1, r2, r3, r4, r5, r6, r7, r8⟩ := hr
      cases fam <;> simp only [Family.counter] at hc <;>
        refine ⟨r1, r2, ?_, ?_, ?_, ?_, ?_, r8⟩ <;> simp <;> omega


/-- Every hook call keeps the counters in range and moves each by a
`counter_step`. -/
theorem run_call_counters (E : Externals) (L : SteeringLimits) (hE : keeps_profile_globals E)
    (s : State) (c : HookCall) :
    counters_step s (run_call E L s c) ∧
    (counters_in_range s → counters_in_range (run_call E L s c)) := by
  cases c with
  | rx f valid =>
    have hc := counters_of_profile _ _ (rx_hook_profile E s f valid hE)
    have ht := rx_topology_counters s (GET_ADDR f) (GET_BUS f)
    exact ⟨counters_step_congr _ _ _ hc ht.1,
      fun hr => counters_in_range_congr _ _ hc (ht.2 hr)⟩
  | tx f la ts => exact tx_hook_counters_step E L s f la ts
  | fwd b f => exact fwd_hook_counters_step s b f

/-- C19: in every state reachable from module load by receive, transmit and
forward calls no counter is negative or above its arming value
(`Lcan_bus1_cnt` in 0..500, `LKAS11_bus0_cnt` and the five ownership counters
in 0..20, `SCC12_car = 0`), and every hook call, from any state, re-arms a
counter to its arming value, lowers it by one, or leaves it unchanged.  The
generic receive check, declared outside this file, is taken not to write the
profile's globals. -/
theorem counters_bounded (E : Externals) (L : SteeringLimits) (t s : State) (c : HookCall)
    (hE : keeps_profile_globals E) (ht : Reachable E L t) :
    ((0 ≤ t.Lcan_bus1_cnt ∧ t.Lcan_bus1_cnt ≤ 500) ∧
      (0 ≤ t.LKAS11_bus0_cnt ∧ t.LKAS11_bus0_cnt ≤ 20) ∧
      (0 ≤ t.LKAS11_op ∧ t.LKAS11_op ≤ 20) ∧
      (0 ≤ t.MDPS12_op ∧ t.MDPS12_op ≤ 20) ∧
      (0 ≤ t.CLU11_op ∧ t.CLU11_op ≤ 20) ∧
      (0 ≤ t.SCC12_op ∧ t.SCC12_op ≤ 20) ∧
      (0 ≤ t.EMS11_op ∧ t.EMS11_op ≤ 20) ∧
      t.SCC12_car = 0) ∧
    counters_step s (run_call E L s c) := by
  obtain ⟨cs, rfl⟩ := ht
  refine ⟨?_, (run_call_counters E L hE s c).1⟩
  have h := run_calls_induction E L counters_in_range
    (fun u d hu => (run_call_counters E L hE u d).2 hu) cs initial_state (by
      unfold counters_in_range
      decide)
  exact h

theorem counters_bounded_witness :
    (run_calls sample_externals HYUNDAI_COMMUNITY_STEERING_LIMITS initial_state
      [HookCall.tx scc12_frame false 0, HookCall.fwd 2 scc12_frame]).SCC12_op = 19 ∧
    (run_calls sample_externals HYUNDAI_COMMUNITY_STEERING_LIMITS initial_state
      [HookCall.tx scc12_frame false 0, HookCall.fwd 2 scc12_frame]).SCC12_op ≤ 20 :=
  ⟨by decide,
    (counters_bounded sample_externals HYUNDAI_COMMUNITY_STEERING_LIMITS
      (run_calls sample_externals HYUNDAI_COMMUNITY_STEERING_LIMITS initial_state
        [HookCall.tx scc12_frame false 0, HookCall.fwd 2 scc12_frame])
      initial_state (HookCall.fwd 2 scc12_frame) sample_externals_keeps.2
      ⟨_, rfl⟩).1.2.2.2.2.2.1.2⟩

/-! ## Forwarding hook: ownership countdown over hook sequences -/

/-- The ownership counter of a family, read from the tuple of counters. -/
theorem Family.counter_of_globals (fam : Family) (s t : State)
    (h : counter_globals t = counter_globals s) : fam.counter t = fam.counter s := by
  simp only [counter_globals, Prod.mk.injEq] at h
  obtain ⟨_, _, h3, h4, h5, h6, h7, _⟩ := h
  cases fam <;> simp only [Family.counter, h3, h4, h5, h6, h7]

/-- The topology detectors write no ownership counter. -/
theorem rx_topology_family_counter (fam : Family) (s : State) (addr bus : Nat) :
    fam.counter (rx_topology s addr bus) = fam.counter s := by
  have h : counter_globals (rx_topology s addr bus) =
      counter_globals (rx_lkas11 (rx_lcan_bus1 s addr bus) addr bus) := by
    simp only [rx_topology, rx_scc_bus_counters, rx_mdps_bus_counters]
  rw [rx_lkas11_counters] at h
  have hl := rx_lcan_bus1_counters s addr bus
  simp only [counter_globals, Prod.mk.injEq] at hl
  obtain ⟨_, _, l3, l4, l5, l6, l7, _⟩ := hl
  rw [l3, l4, l5, l6, l7] at h
  simp only [counter_globals, Prod.mk.injEq] at h
  obtain ⟨_, _, h3, h4, h5, h6, h7, _⟩ := h
  cases fam <;> simp only [Family.counter, h3, h4, h5, h6, h7]

/-- A receive call writes no ownership counter. -/
theorem rx_hook_family_counter (E : Externals) (hE : keeps_profile_globals E) (fam : Family)
    (s : State) (f : CANPacket_t) (valid : Bool) :
    fam.counter (hyundai_community_rx_hook E s f valid).2 = fam.counter s := by
  rw [Family.counter_of_globals fam _ _ (counters_of_profile _ _ (rx_hook_profile E s f valid hE))]
  exact rx_topology_family_counter fam s _ _

/-- A transmit that does not arm the family keeps its ownership counter. -/
theorem tx_hook_family_counter (E : Externals) (L : SteeringLimits) (fam : Family) (s : State)
    (f : CANPacket_t) (la : Bool) (ts : Nat) (h : fam.armed_by f = false) :
    fam.counter (hyundai_community_tx_hook E L s f la ts).2 = fam.counter s := by
  have hc := tx_hook_counters E L s f la ts
  simp only [counter_globals, Prod.mk.injEq] at hc
  obtain ⟨_, _, h3, h4, h5, h6, h7, _⟩ := hc
  cases fam with
  | CLU11 =>
    simp only [Family.armed_by, decide_eq_false_iff_not] at h
    simp only [Family.counter, h5]
    rw [if_neg h]
  | MDPS12 =>
    simp only [Family.armed_by, decide_eq_false_iff_not] at h
    simp only [Family.counter, h4]
    rw [if_neg h]
  | EMS11 =>
    simp only [Family.armed_by, decide_eq_false_iff_not] at h
    simp only [Family.counter, h7]
    rw [if_neg h]
  | SCC12 =>
    simp only [Family.armed_by, decide_eq_false_iff_not] at h
    simp only [Family.counter, h6]
    rw [if_neg h]
  | LKAS11 =>
    simp only [Family.armed_by, decide_eq_false_iff_not] at h
    simp only [Family.counter, h3]
    rw [if_neg h]

/-- Lowering the counter of one family keeps the counter of another. -/
theorem Family.counter_set_ne (fam fm : Family) (s : State) (v : Int) (h : fm ≠ fam) :
    fam.counter (fm.set_counter s v) = fam.counter s := by
  cases fam <;> cases fm <;> first | rfl | exact absurd rfl h

/-- A forwarding call of a frame that does not match the family keeps the
family's ownership counter. -/
theorem fwd_hook_family_counter (fam : Family) (s : State) (b : Int) (f : CANPacket_t)
    (h : ¬ fam.matching s b (GET_ADDR f)) :
    fam.counter (hyundai_community_fwd_hook s b f).2 = fam.counter s := by
  rcases fwd_hook_state_cases s b f with e | ⟨fm, _, _, hm, e⟩
  · rw [e]
  · rw [e]
    apply Family.counter_set_ne
    rintro rfl
    exact h hm

/-- A matching frame met by a nonzero counter is sent to the withheld
destination and lowers that counter by one. -/
theorem fwd_hook_withheld (fam : Family) (s : State) (b : Int) (f : CANPacket_t)
    (hm : fam.matching s b (GET_ADDR f)) (hc : fam.counter s ≠ 0) :
    hyundai_community_fwd_hook s b f =
      (withheld_relay fam s b, fam.set_counter s (fam.counter s - 1)) := by
  rw [fwd_hook_cases]
  cases fam with
  | CLU11 =>
    obtain ⟨h2, hb, ha, hmd⟩ := hm
    simp only [Family.counter] at hc
    simp [h2, hb, ha, fwd_from_bus0, hc, hmd, Family.set_counter, Family.counter, withheld_relay]
  | MDPS12 =>
    obtain ⟨h2, ha, hb⟩ := hm
    simp only [Family.counter] at hc
    rcases hb with hb | hb
    · simp [h2, hb, ha, fwd_from_bus0, hc, Family.set_counter, Family.counter, withheld_relay]
    · simp [h2, hb.1, hb.2, ha, fwd_from_bus1, hc, Family.set_counter, Family.counter,
        withheld_relay]
  | EMS11 =>
    obtain ⟨h2, hb, ha⟩ := hm
    simp only [Family.counter] at hc
    simp [h2, hb, ha, fwd_from_bus0, hc, Family.set_counter, Family.counter, withheld_relay]
  | SCC12 =>
    obtain ⟨h2, ha, hb⟩ := hm
    simp only [Family.counter] at hc
    have n1 : GET_ADDR f ≠ 593 := by omega
    have n2 : ¬ (GET_ADDR f = 832 ∨ GET_ADDR f = 1157) := by omega
    have n3 : ¬ (GET_ADDR f ≠ 1056 ∧ GET_ADDR f ≠ 1057 ∧ GET_ADDR f ≠ 1290 ∧
        GET_ADDR f ≠ 905) := by omega
    rcases hb with hb | hb
    · simp [h2, hb.1, hb.2, fwd_from_bus1, hc, n1, n3, Family.set_counter, Family.counter,
        withheld_relay]
    · have n4 : GET_ADDR f ≠ 832 ∧ GET_ADDR f ≠ 1157 := by omega
      simp [h2, hb, fwd_from_bus2, hc, n3, n4, Family.set_counter, Family.counter,
        withheld_relay]
  | LKAS11 =>
    obtain ⟨h2, hb, ha⟩ := hm
    simp only [Family.counter] at hc
    have n1 : ¬ (GET_ADDR f ≠ 832 ∧ GET_ADDR f ≠ 1157) := by omega
    simp only [h2, hb, fwd_from_bus2, hc, n1, Family.set_counter, Family.counter, withheld_relay]
    simp
    split_ifs <;> rfl

/-- The withheld destination is the normal relay only for CLU11 and EMS11
while the bus-1 relay is off. -/
theorem withheld_eq_normal (fam : Family) (s : State) (b : Int) (a : Nat)
    (hm : fam.matching s b a) :
    withheld_relay fam s b = normal_relay s b ↔
      (fam = Family.CLU11 ∨ fam = Family.EMS11) ∧ (s.Fwd_bus1 || s.Fwd_obd) = false := by
  cases fam with
  | CLU11 =>
    obtain ⟨_, hb, _, _⟩ := hm
    cases h1 : s.Fwd_bus1 <;> cases ho : s.Fwd_obd <;>
      simp [withheld_relay, normal_relay, hb, h1, ho]
  | MDPS12 =>
    obtain ⟨_, _, hb⟩ := hm
    rcases hb with hb | hb
    · cases h1 : s.Fwd_bus1 <;> cases ho : s.Fwd_obd <;>
        simp [withheld_relay, normal_relay, hb, h1, ho]
    · simp [withheld_relay, normal_relay, hb.1, hb.2]
  | EMS11 =>
    obtain ⟨_, hb, _⟩ := hm
    cases h1 : s.Fwd_bus1 <;> cases ho : s.Fwd_obd <;>
      simp [withheld_relay, normal_relay, hb, h1, ho]
  | SCC12 =>
    obtain ⟨_, _, hb⟩ := hm
    rcases hb with hb | hb
    · simp [withheld_relay, normal_relay, hb.1, hb.2]
    · cases h1 : s.Fwd_bus1 <;> cases ho : s.Fwd_obd <;>
        simp [withheld_relay, normal_relay, hb, h1, ho]
  | LKAS11 =>
    obtain ⟨_, hb, _⟩ := hm
    by_cases hmd : s.MDPS_bus = 0 <;> cases h1 : s.Fwd_bus1 <;> cases ho : s.Fwd_obd <;>
      simp [withheld_relay, normal_relay, hb, h1, ho, hmd]

/-- The family's ownership counter after one hook call that does not arm
it. -/
theorem run_call_family_counter (E : Externals) (L : SteeringLimits)
    (hE : keeps_profile_globals E) (fam : Family) (s : State) (c : HookCall)
    (ha : arms_family fam c = false) :
    fam.counter (run_call E L s c) =
      if is_matching_call fam s c = true ∧ fam.counter s ≠ 0 then fam.counter s - 1
      else fam.counter s := by
  cases c with
  | rx f valid =>
    have hn : ¬ (is_matching_call fam s (HookCall.rx f valid) = true ∧ fam.counter s ≠ 0) := by
      simp [is_matching_call]
    rw [if_neg hn]
    exact rx_hook_family_counter E hE fam s f valid
  | tx f la ts =>
    have hn : ¬ (is_matching_call fam s (HookCall.tx f la ts) = true ∧ fam.counter s ≠ 0) := by
      simp [is_matching_call]
    rw [if_neg hn]
    exact tx_hook_family_counter E L fam s f la ts ha
  | fwd b f =>
    simp only [run_call, is_matching_call, decide_eq_true_eq]
    by_cases hm : fam.matching s b (GET_ADDR f)
    · by_cases hc : fam.counter s = 0
      · rw [if_neg (fun h => h.2 hc), fwd_hook_normal fam s b f hm hc]
      · rw [if_pos ⟨hm, hc⟩, fwd_hook_withheld fam s b f hm hc, Family.counter_set]
    · rw [if_neg (fun h => hm h.1)]
      exact fwd_hook_family_counter fam s b f hm

/-- Over hook calls that do not arm the family, its ownership counter is the
starting value less the number of matching forwarding calls, and stays at
zero once that many have passed. -/
theorem run_calls_countdown (E : Externals) (L : SteeringLimits) (hE : keeps_profile_globals E)
    (fam : Family) (cs : List HookCall) :
    ∀ (n : Nat) (s : State), fam.counter s = (n : Int) →
      (∀ c ∈ cs, arms_family fam c = false) →
      fam.counter (run_calls E L s cs) = ((n - matching_calls E L fam s cs : Nat) : Int) := by
  induction cs with
  | nil =>
    intro n s hn _
    simpa [run_calls, matching_calls] using hn
  | cons c cs ih =>
    intro n s hn ha
    have hc := run_call_family_counter E L hE fam s c (ha c (List.mem_cons_self c cs))
    have hcs : ∀ d ∈ cs, arms_family fam d = false := fun d hd => ha d (List.mem_cons_of_mem c hd)
    have hrun : run_calls E L s (c :: cs) = run_calls E L (run_call E L s c) cs := by
      simp only [run_calls, List.foldl_cons]
    rw [hrun]
    simp only [matching_calls]
    by_cases hm : is_matching_call fam s c = true
    · rw [if_pos hm]
      cases n with
      | zero =>
        have h0 : fam.counter s = 0 := by simpa using hn
        rw [if_neg (fun h => h.2 h0)] at hc
        rw [ih 0 (run_call E L s c) (by rw [hc, h0]; rfl) hcs]
        simp
      | succ m =>
        have hne : fam.counter s ≠ 0 := by rw [hn]; omega
        rw [if_pos ⟨hm, hne⟩] at hc
        rw [ih m (run_call E L s c) (by rw [hc, hn]; push_cast; omega) hcs]
        congr 1
        omega
    · rw [if_neg hm]
      rw [if_neg (fun h => hm h.1)] at hc
      rw [ih n (run_call E L s c) (by rw [hc, hn]) hcs]
      congr 1
      omega

/-- Counterexample to C18: after a transmit of CLU11 to bus 1 from module load
the CLU11 counter is 20, and the next CLU11 frame from bus 0 is a matching
frame that lowers the counter to 19, yet it is relayed to bus 2, which is
where the same frame goes with the counter at zero (the normal relay): with
the bus-1 relay off an owned CLU11 frame is not suppressed. -/
theorem owned_clu11_relayed_as_normal :
    (run_calls sample_externals HYUNDAI_COMMUNITY_STEERING_LIMITS initial_state
      [HookCall.tx clu11_bus1 false 0]).CLU11_op = 20 ∧
    Family.CLU11.matching
      (run_calls sample_externals HYUNDAI_COMMUNITY_STEERING_LIMITS initial_state
        [HookCall.tx clu11_bus1 false 0]) 0 (GET_ADDR clu11_bus0) ∧
    hyundai_community_fwd_hook
      (run_calls sample_externals HYUNDAI_COMMUNITY_STEERING_LIMITS initial_state
        [HookCall.tx clu11_bus1 false 0]) 0 clu11_bus0 =
      (2, { initial_state with CLU11_op := 19 }) ∧
    hyundai_community_fwd_hook initial_state 0 clu11_bus0 = (2, initial_state) ∧
    normal_relay
      (run_calls sample_externals HYUNDAI_COMMUNITY_STEERING_LIMITS initial_state
        [HookCall.tx clu11_bus1 false 0]) 0 = 2 := by
  refine ⟨by decide, by decide, by decide, by decide, by decide⟩

/-- C18 (amended): a forwarding call leaves the state as it is or lowers
exactly one ownership counter by exactly 1, and the latter only when that
counter was nonzero and the frame's address is in the counter's family;
nothing else changes.  From a counter value `n ≥ 0`, over any sequence of
receive, transmit and forward calls without a transmit that arms the family,
the counter is `n` less the number of matching frames forwarded so far, and 0
once `n` have passed.  A matching frame that comes after fewer than `n`
others takes the exclusion branch: it is sent to the family's withheld
destination and lowers the counter; a matching frame that comes after `n` or
more takes the normal relay and leaves the state as it is.  The withheld
destination differs from the normal relay, except for CLU11 and EMS11 while
the bus-1 relay is off, where both are bus 2.  The generic receive check,
declared outside this file, is taken not to write the profile's globals. -/
theorem ownership_countdown (E : Externals) (L : SteeringLimits) (fam : Family) (s : State)
    (n : Nat) (cs : List HookCall) (b : Int) (f : CANPacket_t)
    (hE : keeps_profile_globals E)
    (hn : fam.counter s = (n : Int))
    (ha : ∀ c ∈ cs, arms_family fam c = false)
    (hb : fam.matching (run_calls E L s cs) b (GET_ADDR f)) :
    (∀ (t : State) (c : Int) (g : CANPacket_t),
      (hyundai_community_fwd_hook t c g).2 = t ∨
      ∃ fm : Family, fm.counter t ≠ 0 ∧ fm.has_addr (GET_ADDR g) ∧
        (hyundai_community_fwd_hook t c g).2 = fm.set_counter t (fm.counter t - 1)) ∧
    fam.counter (run_calls E L s cs) = ((n - matching_calls E L fam s cs : Nat) : Int) ∧
    (matching_calls E L fam s cs < n →
      hyundai_community_fwd_hook (run_calls E L s cs) b f =
        (withheld_relay fam (run_calls E L s cs) b,
          fam.set_counter (run_calls E L s cs)
            ((n - matching_calls E L fam s cs - 1 : Nat) : Int))) ∧
    (n ≤ matching_calls E L fam s cs →
      hyundai_community_fwd_hook (run_calls E L s cs) b f =
        (normal_relay (run_calls E L s cs) b, run_calls E L s cs)) ∧
    (withheld_relay fam (run_calls E L s cs) b = normal_relay (run_calls E L s cs) b ↔
      (fam = Family.CLU11 ∨ fam = Family.EMS11) ∧
        ((run_calls E L s cs).Fwd_bus1 || (run_calls E L s cs).Fwd_obd) = false) := by
  have hrun := run_calls_countdown E L hE fam cs n s hn ha
  refine ⟨?_, hrun, ?_, ?_, withheld_eq_normal fam _ b _ hb⟩
  · intro t c g
    rcases fwd_hook_state_cases t c g with h | ⟨fm, h1, h2, _, h4⟩
    · exact Or.inl h
    · exact Or.inr ⟨fm, h1, h2, h4⟩
  · intro hlt
    have hc : fam.counter (run_calls E L s cs) ≠ 0 := by
      rw [hrun]
      omega
    rw [fwd_hook_withheld fam _ b f hb hc, hrun]
    congr 2
    omega
  · intro hge
    have h0 : fam.counter (run_calls E L s cs) = 0 := by
      rw [hrun]
      omega
    exact fwd_hook_normal fam _ b f hb h0

theorem ownership_countdown_witness :
    hyundai_community_fwd_hook
        (run_calls sample_externals HYUNDAI_COMMUNITY_STEERING_LIMITS st_scc12_owned
          calls_scc12_interleaved) 2 scc12_frame =
      (-1, { (run_calls sample_externals HYUNDAI_COMMUNITY_STEERING_LIMITS st_scc12_owned
          calls_scc12_interleaved) with SCC12_op := 0 }) :=
  (ownership_countdown sample_externals HYUNDAI_COMMUNITY_STEERING_LIMITS Family.SCC12
    st_scc12_owned 3 calls_scc12_interleaved 2 scc12_frame sample_externals_keeps.2 rfl
    (by decide) (by decide)).2.2.1 (by decide)

/-! ## Bus discovery -/

/-- The gateway and LKAS11 detectors write neither discovered bus. -/
theorem rx_lcan_bus1_buses (s : State) (addr bus : Nat) :
    (rx_lcan_bus1 s addr bus).MDPS_bus = s.MDPS_bus ∧
    (rx_lcan_bus1 s addr bus).SCC_bus = s.SCC_bus := by
  simp only [rx_lcan_bus1]
  split_ifs <;> exact ⟨rfl, rfl⟩

theorem rx_lkas11_buses (s : State) (addr bus : Nat) :
    (rx_lkas11 s addr bus).MDPS_bus = s.MDPS_bus ∧
    (rx_lkas11 s addr bus).SCC_bus = s.SCC_bus := by
  simp only [rx_lkas11]
  split_ifs <;> exact ⟨rfl, rfl⟩

/-- Discovered buses after the four topology detectors. -/
theorem rx_topology_buses (s : State) (addr bus : Nat) :
    ((rx_topology s addr bus).MDPS_bus ≠ s.MDPS_bus →
      (addr = 593 ∨ addr = 897) ∧ (rx_topology s addr bus).MDPS_bus = (bus : Int) ∧
        (bus ≠ 1 ∨ s.Lcan_bus1 = false ∨ s.Fwd_obd = true)) ∧
    ((rx_topology s addr bus).SCC_bus ≠ s.SCC_bus →
      (addr = 1056 ∨ addr = 1057) ∧ (rx_topology s addr bus).SCC_bus = (bus : Int) ∧
        (bus ≠ 1 ∨ s.Lcan_bus1 = false)) := by
  by_cases hm : addr = 593 ∨ addr = 897
  · have e : rx_topology s addr bus = rx_mdps_bus s addr bus := by
      have n1 : ¬ (addr = 1296 ∨ addr = 524) := by omega
      have n2 : addr ≠ 832 := by omega
      have n3 : ¬ (addr = 1056 ∨ addr = 1057) := by omega
      simp only [rx_topology, rx_lcan_bus1, rx_lkas11, rx_scc_bus, n1, n2, n3, and_false,
        false_and, if_false]
    rw [e]
    simp only [rx_mdps_bus, hm, true_and]
    refine ⟨?_, ?_⟩
    · split_ifs <;> simp_all
    · split_ifs <;> simp
  · by_cases hs : addr = 1056 ∨ addr = 1057
    · have e : rx_topology s addr bus = rx_scc_bus s addr bus := by
        have n1 : ¬ (addr = 1296 ∨ addr = 524) := by omega
        have n2 : addr ≠ 832 := by omega
        simp only [rx_topology, rx_lcan_bus1, rx_lkas11, rx_mdps_bus, n1, n2, hm, and_false,
          false_and, if_false]
      rw [e]
      simp only [rx_scc_bus, hs, true_and]
      refine ⟨?_, ?_⟩
      · split_ifs <;> simp
      · split_ifs <;> simp_all
    · have e : rx_topology s addr bus = rx_lkas11 (rx_lcan_bus1 s addr bus) addr bus := by
        simp only [rx_topology, rx_mdps_bus, rx_scc_bus, hm, hs, false_and, if_false]
      rw [e]
      obtain ⟨k1, k2⟩ := rx_lkas11_buses (rx_lcan_bus1 s addr bus) addr bus
      obtain ⟨k3, k4⟩ := rx_lcan_bus1_buses s addr bus
      exact ⟨fun h => absurd (k1.trans k3) h, fun h => absurd (k2.trans k4) h⟩

/-- A hook call never turns a discovered bus back into -1. -/
theorem run_call_buses (E : Externals) (L : SteeringLimits) (hE : keeps_profile_globals E)
    (s : State) (c : HookCall) :
    (s.MDPS_bus ≠ -1 → (run_call E L s c).MDPS_bus ≠ -1) ∧
    (s.SCC_bus ≠ -1 → (run_call E L s c).SCC_bus ≠ -1) := by
  have key : ∀ u : State,
      (u.MDPS_bus = s.MDPS_bus ∨ ∃ b : Nat, u.MDPS_bus = (b : Int)) →
      (u.SCC_bus = s.SCC_bus ∨ ∃ b : Nat, u.SCC_bus = (b : Int)) →
      (s.MDPS_bus ≠ -1 → u.MDPS_bus ≠ -1) ∧ (s.SCC_bus ≠ -1 → u.SCC_bus ≠ -1) := by
    intro u h1 h2
    constructor
    · intro hs
      rcases h1 with h | ⟨b, h⟩
      · rw [h]; exact hs
      · rw [h]; omega
    · intro hs
      rcases h2 with h | ⟨b, h⟩
      · rw [h]; exact hs
      · rw [h]; omega
  cases c with
  | rx f valid =>
    have ht := rx_hook_topology E s f valid hE
    simp only [topology_globals, Prod.mk.injEq] at ht
    obtain ⟨_, _, _, _, _, _, h7, h8⟩ := ht
    obtain ⟨b1, b2⟩ := rx_topology_buses s (GET_ADDR f) (GET_BUS f)
    apply key
    · simp only [run_call, h7]
      by_cases h : (rx_topology s (GET_ADDR f) (GET_BUS f)).MDPS_bus = s.MDPS_bus
      · exact Or.inl h
      · exact Or.inr ⟨_, (b1 h).2.1⟩
    · simp only [run_call, h8]
      by_cases h : (rx_topology s (GET_ADDR f) (GET_BUS f)).SCC_bus = s.SCC_bus
      · exact Or.inl h
      · exact Or.inr ⟨_, (b2 h).2.1⟩
  | tx f la ts =>
    have ht := tx_hook_topology E L s f la ts
    simp only [topology_globals, Prod.mk.injEq] at ht
    exact key _ (Or.inl ht.2.2.2.2.2.2.1) (Or.inl ht.2.2.2.2.2.2.2)
  | fwd b f =>
    have ht := fwd_hook_topology s b f
    simp only [topology_globals, Prod.mk.injEq] at ht
    exact key _ (Or.inl ht.2.2.2.2.2.2.1) (Or.inl ht.2.2.2.2.2.2.2)

/-- C20: the receive hook changes `MDPS_bus` only on address 593 or 897, to
the frame's bus, and only if that bus is not 1 or `Lcan_bus1` is false or
`Fwd_obd` is true; it changes `SCC_bus` only on address 1056 or 1057, to the
frame's bus, and only if that bus is not 1 or `Lcan_bus1` is false; the
transmit and forwarding hooks change neither.  Hence a bus different from -1
is never -1 again after any sequence of hook calls.  The generic receive
check, declared outside this file, is taken not to write the profile's
globals. -/
theorem bus_discovery_sticky (E : Externals) (L : SteeringLimits) (s : State) (f : CANPacket_t)
    (valid : Bool) (cs : List HookCall) (hE : keeps_profile_globals E) :
    ((hyundai_community_rx_hook E s f valid).2.MDPS_bus ≠ s.MDPS_bus →
      (GET_ADDR f = 593 ∨ GET_ADDR f = 897) ∧
      (hyundai_community_rx_hook E s f valid).2.MDPS_bus = (GET_BUS f : Int) ∧
      (GET_BUS f ≠ 1 ∨ s.Lcan_bus1 = false ∨ s.Fwd_obd = true)) ∧
    ((hyundai_community_rx_hook E s f valid).2.SCC_bus ≠ s.SCC_bus →
      (GET_ADDR f = 1056 ∨ GET_ADDR f = 1057) ∧
      (hyundai_community_rx_hook E s f valid).2.SCC_bus = (GET_BUS f : Int) ∧
      (GET_BUS f ≠ 1 ∨ s.Lcan_bus1 = false)) ∧
    (∀ (g : CANPacket_t) (la : Bool) (ts : Nat),
      (hyundai_community_tx_hook E L s g la ts).2.MDPS_bus = s.MDPS_bus ∧
      (hyundai_community_tx_hook E L s g la ts).2.SCC_bus = s.SCC_bus) ∧
    (∀ (bus_num : Int) (g : CANPacket_t),
      (hyundai_community_fwd_hook s bus_num g).2.MDPS_bus = s.MDPS_bus ∧
      (hyundai_community_fwd_hook s bus_num g).2.SCC_bus = s.SCC_bus) ∧
    (s.MDPS_bus ≠ -1 → (run_calls E L s cs).MDPS_bus ≠ -1) ∧
    (s.SCC_bus ≠ -1 → (run_calls E L s cs).SCC_bus ≠ -1) := by
  have ht := rx_hook_topology E s f valid hE
  simp only [topology_globals, Prod.mk.injEq] at ht
  obtain ⟨_, _, _, _, _, _, h7, h8⟩ := ht
  obtain ⟨b1, b2⟩ := rx_topology_buses s (GET_ADDR f) (GET_BUS f)
  refine ⟨?_, ?_, ?_, ?_, ?_, ?_⟩
  · rw [h7]
    exact b1
  · rw [h8]
    exact b2
  · intro g la ts
    have h := tx_hook_topology E L s g la ts
    simp only [topology_globals, Prod.mk.injEq] at h
    exact ⟨h.2.2.2.2.2.2.1, h.2.2.2.2.2.2.2⟩
  · intro b g
    have h := fwd_hook_topology s b g
    simp only [topology_globals, Prod.mk.injEq] at h
    exact ⟨h.2.2.2.2.2.2.1, h.2.2.2.2.2.2.2⟩
  · intro hs
    exact run_calls_induction E L (fun u => u.MDPS_bus ≠ -1)
      (fun u d hu => (run_call_buses E L hE u d).1 hu) cs s hs
  · intro hs
    exact run_calls_induction E L (fun u => u.SCC_bus ≠ -1)
      (fun u d hu => (run_call_buses E L hE u d).2 hu) cs s hs

theorem bus_discovery_sticky_witness :
    (hyundai_community_rx_hook sample_externals initial_state mdps12_bus1 true).2.MDPS_bus = 1 :=
  ((bus_discovery_sticky sample_externals HYUNDAI_COMMUNITY_STEERING_LIMITS initial_state
    mdps12_bus1 true [] sample_externals_keeps.2).1 (by decide)).2.1


/-! ## Gateway grace period -/

/-- On a quiet frame only the LKAS11 detector can fire. -/
theorem rx_topology_quiet (s : State) (f : CANPacket_t) (hq : is_quiet_frame f = true) :
    rx_topology s (GET_ADDR f) (GET_BUS f) = rx_lkas11 s (GET_ADDR f) (GET_BUS f) := by
  simp only [is_quiet_frame, Bool.and_eq_true, Bool.not_eq_true', Bool.and_eq_false_iff,
    Bool.or_eq_false_iff, decide_eq_false_iff_not, Bool.or_eq_true, decide_eq_true_eq] at hq
  obtain ⟨h1, h2⟩ := hq
  have n1 : ¬ (GET_BUS f = 1 ∧ (GET_ADDR f = 1296 ∨ GET_ADDR f = 524)) := by
    rintro ⟨a, b⟩
    rcases h1 with h | h
    · exact h a
    · rcases b with b | b
      · exact h.1 b
      · exact h.2 b
  have n2 : ¬ (GET_ADDR f = 593 ∨ GET_ADDR f = 897) := by
    rintro (a | a)
    · exact h2.1.1.1 a
    · exact h2.1.1.2 a
  have n3 : ¬ (GET_ADDR f = 1056 ∨ GET_ADDR f = 1057) := by
    rintro (a | a)
    · exact h2.1.2 a
    · exact h2.2 a
  simp only [rx_topology, rx_lcan_bus1, rx_mdps_bus, rx_scc_bus, n1, n2, n3, false_and,
    if_false]

/-- Gateway flag, bus-1 relay flag and gateway grace counter after the
LKAS11 detector. -/
theorem rx_lkas11_gateway_fields (s : State) (addr bus : Nat) :
    (rx_lkas11 s addr bus).Fwd_bus1 = s.Fwd_bus1 ∧
    (rx_lkas11 s addr bus).Lcan_bus1 =
      (if addr = 832 ∧ bus = 2 ∧ ¬ 0 < s.Lcan_bus1_cnt then false else s.Lcan_bus1) ∧
    (rx_lkas11 s addr bus).Lcan_bus1_cnt =
      (if addr = 832 ∧ bus = 2 ∧ 0 < s.Lcan_bus1_cnt then s.Lcan_bus1_cnt - 1
        else s.Lcan_bus1_cnt) := by
  by_cases ha : addr = 832
  · by_cases hb0 : bus = 0
    · subst hb0
      by_cases hf : s.Fwd_bus2 = true
      · simp [rx_lkas11, ha, hf]
      · simp [rx_lkas11, ha, hf]
    · by_cases hb2 : bus = 2
      · subst hb2
        by_cases h1 : 0 < s.LKAS11_bus0_cnt
        · by_cases h2 : 0 < s.Lcan_bus1_cnt
          · simp [rx_lkas11, ha, h1, h2]
          · cases hl : s.Lcan_bus1 <;> simp [rx_lkas11, ha, h1, h2, hl]
        · by_cases hf : s.Fwd_bus2 = true
          · by_cases h2 : 0 < s.Lcan_bus1_cnt
            · simp [rx_lkas11, ha, h1, h2, hf]
            · cases hl : s.Lcan_bus1 <;> simp [rx_lkas11, ha, h1, h2, hl, hf]
          · by_cases h2 : 0 < s.Lcan_bus1_cnt
            · simp [rx_lkas11, ha, h1, h2, hf]
            · cases hl : s.Lcan_bus1 <;> simp [rx_lkas11, ha, h1, h2, hl, hf]
      · simp [rx_lkas11, ha, hb0, hb2]
  · simp [rx_lkas11, ha]

/-- Gateway flag, bus-1 relay flag and gateway grace counter after a receive
call on a quiet frame. -/
theorem rx_hook_quiet (E : Externals) (s : State) (f : CANPacket_t) (valid : Bool)
    (hE : keeps_profile_globals E) (hq : is_quiet_frame f = true) :
    (hyundai_community_rx_hook E s f valid).2.Fwd_bus1 = s.Fwd_bus1 ∧
    (hyundai_community_rx_hook E s f valid).2.Lcan_bus1 =
      (if is_grace_cycle f = true ∧ ¬ 0 < s.Lcan_bus1_cnt then false else s.Lcan_bus1) ∧
    (hyundai_community_rx_hook E s f valid).2.Lcan_bus1_cnt =
      (if is_grace_cycle f = true ∧ 0 < s.Lcan_bus1_cnt then s.Lcan_bus1_cnt - 1
        else s.Lcan_bus1_cnt) := by
  have ht := rx_hook_topology E s f valid hE
  rw [rx_topology_quiet s f hq] at ht
  simp only [topology_globals, Prod.mk.injEq] at ht
  obtain ⟨h1, h2, _, _, _, h6, _, _⟩ := ht
  obtain ⟨k1, k2, k3⟩ := rx_lkas11_gateway_fields s (GET_ADDR f) (GET_BUS f)
  rw [h1, h2, h6, k1, k2, k3]
  simp only [is_grace_cycle, decide_eq_true_eq, and_assoc]
  exact ⟨trivial, trivial, trivial⟩

/-- Quiet frames never write the bus-1 relay flag. -/
theorem rx_run_quiet_relay (E : Externals) (hE : keeps_profile_globals E)
    (frames : List (CANPacket_t × Bool)) :
    ∀ s : State, (∀ p ∈ frames, is_quiet_frame p.1 = true) →
      (rx_run E s frames).Fwd_bus1 = s.Fwd_bus1 := by
  induction frames with
  | nil => intro s _; rfl
  | cons p ps ih =>
    intro s h
    simp only [rx_run, List.foldl_cons]
    have := ih (hyundai_community_rx_hook E s p.1 p.2).2
      (fun q hq => h q (List.mem_cons_of_mem p hq))
    simp only [rx_run] at this
    rw [this]
    exact (rx_hook_quiet E s p.1 p.2 hE (h p (List.mem_cons_self p ps))).1

/-- Once the gateway flag is cleared with the counter at zero, quiet frames
keep it so. -/
theorem rx_run_quiet_cleared (E : Externals) (hE : keeps_profile_globals E)
    (frames : List (CANPacket_t × Bool)) :
    ∀ s : State, (∀ p ∈ frames, is_quiet_frame p.1 = true) →
      s.Lcan_bus1 = false → s.Lcan_bus1_cnt = 0 →
      (rx_run E s frames).Lcan_bus1 = false ∧ (rx_run E s frames).Lcan_bus1_cnt = 0 := by
  induction frames with
  | nil => intro s _ h1 h2; exact ⟨h1, h2⟩
  | cons p ps ih =>
    intro s h h1 h2
    simp only [rx_run, List.foldl_cons]
    obtain ⟨_, k2, k3⟩ := rx_hook_quiet E s p.1 p.2 hE (h p (List.mem_cons_self p ps))
    have := ih (hyundai_community_rx_hook E s p.1 p.2).2
      (fun q hq => h q (List.mem_cons_of_mem p hq))
      (by rw [k2, h1]; split_ifs <;> rfl)
      (by rw [k3, h2]; simp)
    simpa only [rx_run] using this

/-- With the gateway flag set and the counter at `c`, quiet frames lower the
counter once per grace cycle, and the cycle after it has reached zero clears
the flag. -/
theorem rx_run_quiet_countdown (E : Externals) (hE : keeps_profile_globals E)
    (frames : List (CANPacket_t × Bool)) :
    ∀ (c : Nat) (s : State), (∀ p ∈ frames, is_quiet_frame p.1 = true) →
      s.Lcan_bus1 = true → s.Lcan_bus1_cnt = (c : Int) →
      (grace_cycles frames ≤ c →
        (rx_run E s frames).Lcan_bus1 = true ∧
        (rx_run E s frames).Lcan_bus1_cnt = ((c - grace_cycles frames : Nat) : Int)) ∧
      (c < grace_cycles frames →
        (rx_run E s frames).Lcan_bus1 = false ∧ (rx_run E s frames).Lcan_bus1_cnt = 0) := by
  induction frames with
  | nil =>
    intro c s _ h1 h2
    simp [rx_run, grace_cycles, h1, h2]
  | cons p ps ih =>
    intro c s h h1 h2
    have hps : ∀ q ∈ ps, is_quiet_frame q.1 = true := fun q hq => h q (List.mem_cons_of_mem p hq)
    obtain ⟨_, k2, k3⟩ := rx_hook_quiet E s p.1 p.2 hE (h p (List.mem_cons_self p ps))
    have hrun : rx_run E s (p :: ps) = rx_run E (hyundai_community_rx_hook E s p.1 p.2).2 ps := by
      simp only [rx_run, List.foldl_cons]
    rw [hrun]
    by_cases hg : is_grace_cycle p.1 = true
    · have hcount : grace_cycles (p :: ps) = grace_cycles ps + 1 := by
        simp [grace_cycles, List.filter_cons, hg]
      rw [hcount]
      cases c with
      | zero =>
        have hz : s.Lcan_bus1_cnt = 0 := by simpa using h2
        have hd := rx_run_quiet_cleared E hE ps (hyundai_community_rx_hook E s p.1 p.2).2 hps
          (by rw [k2, hz]; simp [hg])
          (by rw [k3, hz]; simp)
        exact ⟨fun hle => absurd hle (by omega), fun _ => hd⟩
      | succ m =>
        have hpos : 0 < s.Lcan_bus1_cnt := by rw [h2]; omega
        obtain ⟨i1, i2⟩ := ih m (hyundai_community_rx_hook E s p.1 p.2).2 hps
          (by rw [k2]; simp [hg, hpos, h1])
          (by rw [k3, if_pos ⟨hg, hpos⟩, h2]; push_cast; omega)
        refine ⟨fun hle => ?_, fun hlt => i2 (by omega)⟩
        obtain ⟨j1, j2⟩ := i1 (by omega)
        refine ⟨j1, ?_⟩
        rw [j2]
        congr 1
        omega
    · have hcount : grace_cycles (p :: ps) = grace_cycles ps := by
        simp [grace_cycles, List.filter_cons, hg]
      rw [hcount]
      exact ih c (hyundai_community_rx_hook E s p.1 p.2).2 hps
        (by rw [k2]; simp [hg, h1]) (by rw [k3]; simp [hg, h2])

/-- A gateway diagnostic frame on bus 1 sets the gateway flag, clears the
bus-1 relay flag and arms the grace counter. -/
theorem rx_hook_gateway_frame (E : Externals) (s : State) (f : CANPacket_t) (valid : Bool)
    (hE : keeps_profile_globals E) (hb : GET_BUS f = 1)
    (ha : GET_ADDR f = 1296 ∨ GET_ADDR f = 524) :
    (hyundai_community_rx_hook E s f valid).2.Lcan_bus1 = true ∧
    (hyundai_community_rx_hook E s f valid).2.Fwd_bus1 = false ∧
    (hyundai_community_rx_hook E s f valid).2.Lcan_bus1_cnt = 500 := by
  have htop := rx_hook_topology E s f valid hE
  rw [hb, rx_topology_lcan s _ ha] at htop
  simp only [topology_globals, Prod.mk.injEq] at htop
  obtain ⟨h1, h2, _, _, _, h6, _, _⟩ := htop
  have hl : (rx_lcan_bus1 s (GET_ADDR f) 1).Lcan_bus1 = true ∧
      (rx_lcan_bus1 s (GET_ADDR f) 1).Fwd_bus1 = false ∧
      (rx_lcan_bus1 s (GET_ADDR f) 1).Lcan_bus1_cnt = 500 := by
    simp only [rx_lcan_bus1, ha, and_self, if_true, true_and]
    cases hf : s.Fwd_bus1 <;> cases hl : s.Lcan_bus1 <;> simp
  exact ⟨h1.trans hl.1, h2.trans hl.2.1, h6.trans hl.2.2⟩

/-- A power-steering discovery that leaves `MDPS_bus` leaves the state. -/
theorem rx_mdps_bus_idle (s : State) (addr bus : Nat)
    (h : (rx_mdps_bus s addr bus).MDPS_bus = s.MDPS_bus) : rx_mdps_bus s addr bus = s := by
  simp only [rx_mdps_bus] at h ⊢
  by_cases c1 : (addr = 593 ∨ addr = 897) ∧ s.MDPS_bus ≠ (bus : Int)
  · rw [if_pos c1] at h ⊢
    by_cases c2 : bus ≠ 1 ∨ (s.Lcan_bus1 = false ∨ s.Fwd_obd = true)
    · rw [if_pos c2] at h
      have hb : ((bus : Nat) : Int) = s.MDPS_bus := by
        rw [← h]
        split_ifs <;> rfl
      exact absurd hb.symm c1.2
    · rw [if_neg c2]
  · rw [if_neg c1]

/-- A cruise ECU discovery that leaves `SCC_bus` leaves the state. -/
theorem rx_scc_bus_idle (s : State) (addr bus : Nat)
    (h : (rx_scc_bus s addr bus).SCC_bus = s.SCC_bus) : rx_scc_bus s addr bus = s := by
  simp only [rx_scc_bus] at h ⊢
  by_cases c1 : (addr = 1056 ∨ addr = 1057) ∧ s.SCC_bus ≠ (bus : Int)
  · rw [if_pos c1] at h ⊢
    by_cases c2 : bus ≠ 1 ∨ s.Lcan_bus1 = false
    · rw [if_pos c2] at h
      have hb : ((bus : Nat) : Int) = s.SCC_bus := by
        rw [← h]
        split_ifs <;> rfl
      exact absurd hb.symm c1.2
    · rw [if_neg c2]
  · rw [if_neg c1]

/-- On a frame that is no gateway frame and triggers no bus discovery only
the LKAS11 detector can fire. -/
theorem rx_topology_calm (s : State) (f : CANPacket_t) (hg : is_gateway_frame f = false)
    (hd : triggers_discovery s f = false) :
    rx_topology s (GET_ADDR f) (GET_BUS f) = rx_lkas11 s (GET_ADDR f) (GET_BUS f) := by
  simp only [triggers_discovery, Bool.or_eq_false_iff, decide_eq_false_iff_not, not_not] at hd
  obtain ⟨d1, d2⟩ := hd
  have n1 : ¬ (GET_BUS f = 1 ∧ (GET_ADDR f = 1296 ∨ GET_ADDR f = 524)) := by
    intro h
    simp only [is_gateway_frame, h.1, decide_True, Bool.true_and, Bool.or_eq_false_iff,
      decide_eq_false_iff_not] at hg
    rcases h.2 with a | a
    · exact hg.1 a
    · exact hg.2 a
  have e1 : rx_lcan_bus1 s (GET_ADDR f) (GET_BUS f) = s := by
    simp only [rx_lcan_bus1]
    rw [if_neg n1]
  by_cases hm : GET_ADDR f = 593 ∨ GET_ADDR f = 897
  · have n2 : GET_ADDR f ≠ 832 := by omega
    have n3 : ¬ (GET_ADDR f = 1056 ∨ GET_ADDR f = 1057) := by omega
    have e : rx_topology s (GET_ADDR f) (GET_BUS f) = rx_mdps_bus s (GET_ADDR f) (GET_BUS f) := by
      simp only [rx_topology, e1, rx_lkas11, rx_scc_bus, n2, n3, false_and, if_false]
    rw [e] at d1 ⊢
    rw [rx_mdps_bus_idle s _ _ d1]
    simp only [rx_lkas11, n2, if_false]
  · by_cases hs : GET_ADDR f = 1056 ∨ GET_ADDR f = 1057
    · have n2 : GET_ADDR f ≠ 832 := by omega
      have e : rx_topology s (GET_ADDR f) (GET_BUS f) =
          rx_scc_bus s (GET_ADDR f) (GET_BUS f) := by
        simp only [rx_topology, e1, rx_lkas11, rx_mdps_bus, n2, hm, false_and, if_false]
      rw [e] at d2 ⊢
      rw [rx_scc_bus_idle s _ _ d2]
      simp only [rx_lkas11, n2, if_false]
    · simp only [rx_topology, e1, rx_mdps_bus, rx_scc_bus, hm, hs, false_and, if_false]

/-- Gateway flag, bus-1 relay flag and gateway grace counter after a receive
call on a frame that is no gateway frame and triggers no bus discovery. -/
theorem rx_hook_calm (E : Externals) (s : State) (f : CANPacket_t) (valid : Bool)
    (hE : keeps_profile_globals E) (hg : is_gateway_frame f = false)
    (hd : triggers_discovery s f = false) :
    (hyundai_community_rx_hook E s f valid).2.Fwd_bus1 = s.Fwd_bus1 ∧
    (hyundai_community_rx_hook E s f valid).2.Lcan_bus1 =
      (if is_grace_cycle f = true ∧ ¬ 0 < s.Lcan_bus1_cnt then false else s.Lcan_bus1) ∧
    (hyundai_community_rx_hook E s f valid).2.Lcan_bus1_cnt =
      (if is_grace_cycle f = true ∧ 0 < s.Lcan_bus1_cnt then s.Lcan_bus1_cnt - 1
        else s.Lcan_bus1_cnt) := by
  have ht := rx_hook_topology E s f valid hE
  rw [rx_topology_calm s f hg hd] at ht
  simp only [topology_globals, Prod.mk.injEq] at ht
  obtain ⟨h1, h2, _, _, _, h6, _, _⟩ := ht
  obtain ⟨k1, k2, k3⟩ := rx_lkas11_gateway_fields s (GET_ADDR f) (GET_BUS f)
  rw [h1, h2, h6, k1, k2, k3]
  simp only [is_grace_cycle, decide_eq_true_eq, and_assoc]
  exact ⟨trivial, trivial, trivial⟩

/-- The parts of a quiet run: its first frame and the rest. -/
theorem quiet_run_cons (E : Externals) (s : State) (p : CANPacket_t × Bool)
    (ps : List (CANPacket_t × Bool)) (h : quiet_run E s (p :: ps) = true) :
    is_gateway_frame p.1 = false ∧ triggers_discovery s p.1 = false ∧
      quiet_run E (hyundai_community_rx_hook E s p.1 p.2).2 ps = true := by
  simp only [quiet_run, Bool.and_eq_true, Bool.not_eq_true'] at h
  exact ⟨h.1.1, h.1.2, h.2⟩

/-- A quiet run never writes the bus-1 relay flag. -/
theorem rx_run_calm_relay (E : Externals) (hE : keeps_profile_globals E)
    (frames : List (CANPacket_t × Bool)) :
    ∀ s : State, quiet_run E s frames = true → (rx_run E s frames).Fwd_bus1 = s.Fwd_bus1 := by
  induction frames with
  | nil => intro s _; rfl
  | cons p ps ih =>
    intro s h
    obtain ⟨hg, hd, hq⟩ := quiet_run_cons E s p ps h
    simp only [rx_run, List.foldl_cons]
    have := ih (hyundai_community_rx_hook E s p.1 p.2).2 hq
    simp only [rx_run] at this
    rw [this]
    exact (rx_hook_calm E s p.1 p.2 hE hg hd).1

/-- Once the gateway flag is cleared with the counter at zero, a quiet run
keeps it so. -/
theorem rx_run_calm_cleared (E : Externals) (hE : keeps_profile_globals E)
    (frames : List (CANPacket_t × Bool)) :
    ∀ s : State, quiet_run E s frames = true →
      s.Lcan_bus1 = false → s.Lcan_bus1_cnt = 0 →
      (rx_run E s frames).Lcan_bus1 = false ∧ (rx_run E s frames).Lcan_bus1_cnt = 0 := by
  induction frames with
  | nil => intro s _ h1 h2; exact ⟨h1, h2⟩
  | cons p ps ih =>
    intro s h h1 h2
    obtain ⟨hg, hd, hq⟩ := quiet_run_cons E s p ps h
    simp only [rx_run, List.foldl_cons]
    obtain ⟨_, k2, k3⟩ := rx_hook_calm E s p.1 p.2 hE hg hd
    have := ih (hyundai_community_rx_hook E s p.1 p.2).2 hq
      (by rw [k2, h1]; split_ifs <;> rfl)
      (by rw [k3, h2]; simp)
    simpa only [rx_run] using this

/-- With the gateway flag set and the counter at `c`, a quiet run lowers the
counter once per grace cycle, and the cycle after it has reached zero clears
the flag. -/
theorem rx_run_calm_countdown (E : Externals) (hE : keeps_profile_globals E)
    (frames : List (CANPacket_t × Bool)) :
    ∀ (c : Nat) (s : State), quiet_run E s frames = true →
      s.Lcan_bus1 = true → s.Lcan_bus1_cnt = (c : Int) →
      (grace_cycles frames ≤ c →
        (rx_run E s frames).Lcan_bus1 = true ∧
        (rx_run E s frames).Lcan_bus1_cnt = ((c - grace_cycles frames : Nat) : Int)) ∧
      (c < grace_cycles frames →
        (rx_run E s frames).Lcan_bus1 = false ∧ (rx_run E s frames).Lcan_bus1_cnt = 0) := by
  induction frames with
  | nil =>
    intro c s _ h1 h2
    simp [rx_run, grace_cycles, h1, h2]
  | cons p ps ih =>
    intro c s h h1 h2
    obtain ⟨hg0, hd, hps⟩ := quiet_run_cons E s p ps h
    obtain ⟨_, k2, k3⟩ := rx_hook_calm E s p.1 p.2 hE hg0 hd
    have hrun : rx_run E s (p :: ps) = rx_run E (hyundai_community_rx_hook E s p.1 p.2).2 ps := by
      simp only [rx_run, List.foldl_cons]
    rw [hrun]
    by_cases hg : is_grace_cycle p.1 = true
    · have hcount : grace_cycles (p :: ps) = grace_cycles ps + 1 := by
        simp [grace_cycles, List.filter_cons, hg]
      rw [hcount]
      cases c with
      | zero =>
        have hz : s.Lcan_bus1_cnt = 0 := by simpa using h2
        have hd := rx_run_calm_cleared E hE ps (hyundai_community_rx_hook E s p.1 p.2).2 hps
          (by rw [k2, hz]; simp [hg])
          (by rw [k3, hz]; simp)
        exact ⟨fun hle => absurd hle (by omega), fun _ => hd⟩
      | succ m =>
        have hpos : 0 < s.Lcan_bus1_cnt := by rw [h2]; omega
        obtain ⟨i1, i2⟩ := ih m (hyundai_community_rx_hook E s p.1 p.2).2 hps
          (by rw [k2]; simp [hg, hpos, h1])
          (by rw [k3, if_pos ⟨hg, hpos⟩, h2]; push_cast; omega)
        refine ⟨fun hle => ?_, fun hlt => i2 (by omega)⟩
        obtain ⟨j1, j2⟩ := i1 (by omega)
        refine ⟨j1, ?_⟩
        rw [j2]
        congr 1
        omega
    · have hcount : grace_cycles (p :: ps) = grace_cycles ps := by
        simp [grace_cycles, List.filter_cons, hg]
      rw [hcount]
      exact ih c (hyundai_community_rx_hook E s p.1 p.2).2 hps
        (by rw [k2]; simp [hg, h1]) (by rw [k3]; simp [hg, h2])

/-- The topology detectors raise the bus-1 relay flag only in a bus discovery
on bus 1 with the gateway flag clear. -/
theorem rx_topology_relay_rise (s : State) (addr bus : Nat) (h0 : s.Fwd_bus1 = false)
    (h1 : (rx_topology s addr bus).Fwd_bus1 = true) :
    bus = 1 ∧ s.Lcan_bus1 = false ∧
      (((addr = 593 ∨ addr = 897) ∧ s.MDPS_bus ≠ 1 ∧ (rx_topology s addr bus).MDPS_bus = 1) ∨
        ((addr = 1056 ∨ addr = 1057) ∧ s.SCC_bus ≠ 1 ∧
          (rx_topology s addr bus).SCC_bus = 1)) := by
  have hf : (false = true) → False := by decide
  by_cases hm : addr = 593 ∨ addr = 897
  · have e : rx_topology s addr bus = rx_mdps_bus s addr bus := by
      have n1 : ¬ (addr = 1296 ∨ addr = 524) := by omega
      have n2 : addr ≠ 832 := by omega
      have n3 : ¬ (addr = 1056 ∨ addr = 1057) := by omega
      simp only [rx_topology, rx_lcan_bus1, rx_lkas11, rx_scc_bus, n1, n2, n3, and_false,
        false_and, if_false]
    rw [e] at h1 ⊢
    by_cases c1 : (addr = 593 ∨ addr = 897) ∧ s.MDPS_bus ≠ (bus : Int)
    · by_cases c2 : bus ≠ 1 ∨ (s.Lcan_bus1 = false ∨ s.Fwd_obd = true)
      · have hbus : (rx_mdps_bus s addr bus).MDPS_bus = (bus : Int) := by
          simp only [rx_mdps_bus]
          rw [if_pos c1, if_pos c2]
          split_ifs <;> rfl
        simp only [rx_mdps_bus] at h1
        rw [if_pos c1, if_pos c2] at h1
        by_cases c3 : bus = 1 ∧ s.Fwd_obd = false
        · rw [if_pos c3] at h1
          by_cases c4 : s.Fwd_bus1 = false ∧ s.Lcan_bus1 = false
          · obtain ⟨hb, _⟩ := c3
            subst hb
            refine ⟨rfl, c4.2, Or.inl ⟨hm, ?_, ?_⟩⟩
            · simpa using c1.2
            · simpa using hbus
          · rw [if_neg c4] at h1
            exact absurd (h0.symm.trans h1) hf
        · rw [if_neg c3] at h1
          exact absurd (h0.symm.trans h1) hf
      · simp only [rx_mdps_bus] at h1
        rw [if_pos c1, if_neg c2] at h1
        exact absurd (h0.symm.trans h1) hf
    · simp only [rx_mdps_bus] at h1
      rw [if_neg c1] at h1
      exact absurd (h0.symm.trans h1) hf
  · by_cases hs : addr = 1056 ∨ addr = 1057
    · have e : rx_topology s addr bus = rx_scc_bus s addr bus := by
        have n1 : ¬ (addr = 1296 ∨ addr = 524) := by omega
        have n2 : addr ≠ 832 := by omega
        simp only [rx_topology, rx_lcan_bus1, rx_lkas11, rx_mdps_bus, n1, n2, hm, and_false,
          false_and, if_false]
      rw [e] at h1 ⊢
      by_cases c1 : (addr = 1056 ∨ addr = 1057) ∧ s.SCC_bus ≠ (bus : Int)
      · by_cases c2 : bus ≠ 1 ∨ s.Lcan_bus1 = false
        · have hbus : (rx_scc_bus s addr bus).SCC_bus = (bus : Int) := by
            simp only [rx_scc_bus]
            rw [if_pos c1, if_pos c2]
            split_ifs <;> rfl
          simp only [rx_scc_bus] at h1
          rw [if_pos c1, if_pos c2] at h1
          by_cases c3 : bus = 1
          · subst c3
            have hl : s.Lcan_bus1 = false := by
              rcases c2 with c | c
              · exact absurd rfl c
              · exact c
            refine ⟨rfl, hl, Or.inr ⟨hs, ?_, ?_⟩⟩
            · simpa using c1.2
            · simpa using hbus
          · rw [if_neg c3] at h1
            exact absurd (h0.symm.trans h1) hf
        · simp only [rx_scc_bus] at h1
          rw [if_pos c1, if_neg c2] at h1
          exact absurd (h0.symm.trans h1) hf
      · simp only [rx_scc_bus] at h1
        rw [if_neg c1] at h1
        exact absurd (h0.symm.trans h1) hf
    · have e : rx_topology s addr bus = rx_lkas11 (rx_lcan_bus1 s addr bus) addr bus := by
        simp only [rx_topology, rx_mdps_bus, rx_scc_bus, hm, hs, false_and, if_false]
      rw [e, (rx_lkas11_gateway_fields _ addr bus).1] at h1
      have hl : (rx_lcan_bus1 s addr bus).Fwd_bus1 = false := by
        simp only [rx_lcan_bus1]
        split_ifs <;> first | rfl | exact h0
      exact absurd (hl.symm.trans h1) hf

/-- Counterexample to C12: with the bus-1 relay enabled by MDPS12 on bus 1, a
gateway frame on bus 1 followed by 500, 501 or 1000 grace cycles leaves
`Fwd_bus1` false: exhausting the grace counter does not enable the relay
again. -/
theorem gateway_relay_stays_off :
    st_mdps_bus1.Fwd_bus1 = true ∧
    (rx_run sample_externals
      (hyundai_community_rx_hook sample_externals st_mdps_bus1 lcan_bus1_frame true).2
      (List.replicate 500 (lkas11_bus2, true))).Fwd_bus1 = false ∧
    (rx_run sample_externals
      (hyundai_community_rx_hook sample_externals st_mdps_bus1 lcan_bus1_frame true).2
      (List.replicate 501 (lkas11_bus2, true))).Fwd_bus1 = false ∧
    (rx_run sample_externals
      (hyundai_community_rx_hook sample_externals st_mdps_bus1 lcan_bus1_frame true).2
      (List.replicate 1000 (lkas11_bus2, true))).Fwd_bus1 = false := by
  have hq : ∀ n : Nat, ∀ p ∈ List.replicate n (lkas11_bus2, true), is_quiet_frame p.1 = true := by
    intro n p hp
    rw [List.eq_of_mem_replicate hp]
    decide
  have h0 : (hyundai_community_rx_hook sample_externals st_mdps_bus1 lcan_bus1_frame
      true).2.Fwd_bus1 = false := by decide
  refine ⟨by decide, ?_, ?_, ?_⟩
  · rw [rx_run_quiet_relay sample_externals sample_externals_keeps.2 _ _ (hq 500)]
    exact h0
  · rw [rx_run_quiet_relay sample_externals sample_externals_keeps.2 _ _ (hq 501)]
    exact h0
  · rw [rx_run_quiet_relay sample_externals sample_externals_keeps.2 _ _ (hq 1000)]
    exact h0

/-- C12 (amended): after a frame with address 1296 or 524 on bus 1 has been
received, for every following sequence of received frames in which no frame
has address 1296 or 524 on bus 1 and no frame triggers a bus discovery (moves
`MDPS_bus` or `SCC_bus`), `Fwd_bus1` stays false, however many grace cycles
(address 832 on bus 2) pass; with `k` grace cycles passed, `Lcan_bus1` is
still true and `Lcan_bus1_cnt = 500 - k` while `k ≤ 500`, and `Lcan_bus1` is
false with the counter at 0 once `k > 500`.  From any state, a receive call
takes `Fwd_bus1` from false to true only on a bus-1 frame met with `Lcan_bus1`
clear that discovers the power steering (address 593 or 897) or the cruise
ECU (address 1056 or 1057) on bus 1, and transmit and forward calls never
write `Fwd_bus1`.  The generic receive check, declared outside this file, is
taken not to write the profile's globals. -/
theorem gateway_grace_period (E : Externals) (s : State) (f : CANPacket_t) (valid : Bool)
    (frames : List (CANPacket_t × Bool)) (hE : keeps_profile_globals E)
    (hb : GET_BUS f = 1) (ha : GET_ADDR f = 1296 ∨ GET_ADDR f = 524)
    (hq : quiet_run E (hyundai_community_rx_hook E s f valid).2 frames = true) :
    (rx_run E (hyundai_community_rx_hook E s f valid).2 frames).Fwd_bus1 = false ∧
    (grace_cycles frames ≤ 500 →
      (rx_run E (hyundai_community_rx_hook E s f valid).2 frames).Lcan_bus1 = true ∧
      (rx_run E (hyundai_community_rx_hook E s f valid).2 frames).Lcan_bus1_cnt =
        ((500 - grace_cycles frames : Nat) : Int)) ∧
    (500 < grace_cycles frames →
      (rx_run E (hyundai_community_rx_hook E s f valid).2 frames).Lcan_bus1 = false ∧
      (rx_run E (hyundai_community_rx_hook E s f valid).2 frames).Lcan_bus1_cnt = 0) ∧
    (∀ (t : State) (g : CANPacket_t) (v : Bool), t.Fwd_bus1 = false →
      (hyundai_community_rx_hook E t g v).2.Fwd_bus1 = true →
      GET_BUS g = 1 ∧ t.Lcan_bus1 = false ∧
        (((GET_ADDR g = 593 ∨ GET_ADDR g = 897) ∧ t.MDPS_bus ≠ 1 ∧
            (hyundai_community_rx_hook E t g v).2.MDPS_bus = 1) ∨
          ((GET_ADDR g = 1056 ∨ GET_ADDR g = 1057) ∧ t.SCC_bus ≠ 1 ∧
            (hyundai_community_rx_hook E t g v).2.SCC_bus = 1))) ∧
    (∀ (L : SteeringLimits) (t : State) (g : CANPacket_t) (la : Bool) (ts : Nat),
      (hyundai_community_tx_hook E L t g la ts).2.Fwd_bus1 = t.Fwd_bus1) ∧
    (∀ (t : State) (b : Int) (g : CANPacket_t),
      (hyundai_community_fwd_hook t b g).2.Fwd_bus1 = t.Fwd_bus1) := by
  obtain ⟨g1, g2, g3⟩ := rx_hook_gateway_frame E s f valid hE hb ha
  obtain ⟨c1, c2⟩ := rx_run_calm_countdown E hE frames 500
    (hyundai_community_rx_hook E s f valid).2 hq g1 (by rw [g3]; rfl)
  refine ⟨?_, c1, c2, ?_, ?_, ?_⟩
  · rw [rx_run_calm_relay E hE frames _ hq]
    exact g2
  · intro t g v h0 h1
    have ht := rx_hook_topology E t g v hE
    simp only [topology_globals, Prod.mk.injEq] at ht
    obtain ⟨_, t2, _, _, _, _, t7, t8⟩ := ht
    rw [t2] at h1
    rw [t7, t8]
    exact rx_topology_relay_rise t _ _ h0 h1
  · intro L t g la ts
    have ht := tx_hook_topology E L t g la ts
    simp only [topology_globals, Prod.mk.injEq] at ht
    exact ht.2.1
  · intro t b g
    have ht := fwd_hook_topology t b g
    simp only [topology_globals, Prod.mk.injEq] at ht
    exact ht.2.1

theorem gateway_grace_period_witness :
    is_quiet_frame mdps12_bus1 = false ∧
    (rx_run sample_externals
      (hyundai_community_rx_hook sample_externals st_mdps_bus1 lcan_bus1_frame true).2
      [(lkas11_bus2, true), (mdps12_bus1, true), (lkas11_bus2, true)]).Lcan_bus1_cnt = 498 :=
  ⟨by decide,
    ((gateway_grace_period sample_externals st_mdps_bus1 lcan_bus1_frame true
      [(lkas11_bus2, true), (mdps12_bus1, true), (lkas11_bus2, true)]
      sample_externals_keeps.2 rfl (Or.inl rfl) (by decide)).2.1 (by decide)).2.trans
      (by decide)⟩

/-! ## Forwarding hook: no relay back to the source bus -/

/-- C21: the forwarding hook never relays a frame back onto its source bus:
the result is one of -1, 1, 2, 12 for source bus 0, one of -1, 0, 2, 20 for
source bus 1, one of -1, 0, 1, 10 for source bus 2, and -1 for any other
source bus. -/
theorem fwd_never_to_source (s : State) (bus_num : Int) (f : CANPacket_t) :
    (bus_num = 0 →
      (hyundai_community_fwd_hook s bus_num f).1 = -1 ∨
      (hyundai_community_fwd_hook s bus_num f).1 = 1 ∨
      (hyundai_community_fwd_hook s bus_num f).1 = 2 ∨
      (hyundai_community_fwd_hook s bus_num f).1 = 12) ∧
    (bus_num = 1 →
      (hyundai_community_fwd_hook s bus_num f).1 = -1 ∨
      (hyundai_community_fwd_hook s bus_num f).1 = 0 ∨
      (hyundai_community_fwd_hook s bus_num f).1 = 2 ∨
      (hyundai_community_fwd_hook s bus_num f).1 = 20) ∧
    (bus_num = 2 →
      (hyundai_community_fwd_hook s bus_num f).1 = -1 ∨
      (hyundai_community_fwd_hook s bus_num f).1 = 0 ∨
      (hyundai_community_fwd_hook s bus_num f).1 = 1 ∨
      (hyundai_community_fwd_hook s bus_num f).1 = 10) ∧
    (bus_num ≠ 0 → bus_num ≠ 1 → bus_num ≠ 2 →
      (hyundai_community_fwd_hook s bus_num f).1 = -1) := by
  rw [fwd_hook_cases]
  refine ⟨?_, ?_, ?_, ?_⟩
  · intro hb
    by_cases h2 : s.Fwd_bus2 = true
    · rw [if_pos h2, if_pos hb]
      simp only [fwd_from_bus0]
      split_ifs <;> simp
    · rw [if_neg h2, if_pos hb]
      split_ifs <;> simp
  · intro hb
    have h0 : bus_num ≠ 0 := by omega
    by_cases h2 : s.Fwd_bus2 = true
    · rw [if_pos h2, if_neg h0]
      by_cases hr : (s.Fwd_bus1 || s.Fwd_obd) = true
      · rw [if_pos ⟨hb, hr⟩]
        simp only [fwd_from_bus1]
        split_ifs <;> simp
      · have n1 : ¬ (bus_num = 1 ∧ (s.Fwd_bus1 || s.Fwd_obd) = true) := fun h => hr h.2
        have n2 : bus_num ≠ 2 := by omega
        rw [if_neg n1, if_neg n2]
        simp
    · rw [if_neg h2, if_neg h0]
      split_ifs <;> simp
  · intro hb
    have h0 : bus_num ≠ 0 := by omega
    have n1 : ¬ (bus_num = 1 ∧ (s.Fwd_bus1 || s.Fwd_obd) = true) := fun h => by omega
    by_cases h2 : s.Fwd_bus2 = true
    · rw [if_pos h2, if_neg h0, if_neg n1, if_pos hb]
      simp only [fwd_from_bus2]
      split_ifs <;> simp
    · rw [if_neg h2, if_neg h0, if_neg n1]
      simp
  · intro h0 h1 h2
    have n1 : ¬ (bus_num = 1 ∧ (s.Fwd_bus1 || s.Fwd_obd) = true) := fun h => h1 h.1
    by_cases hf : s.Fwd_bus2 = true
    · rw [if_pos hf, if_neg h0, if_neg n1, if_neg h2]
    · rw [if_neg hf, if_neg h0, if_neg n1]

/-! ## Checksums: single-bit corruption -/

/-- Two sums over `0..n-1` whose terms agree except at index `i`. -/
theorem sum_range_update (u v : Nat → Nat) (i : Nat) :
    ∀ n, i < n → (∀ k, k < n → k ≠ i → u k = v k) →
      ((List.range n).map u).sum + v i = ((List.range n).map v).sum + u i := by
  have hsame : ∀ n, (∀ k, k < n → u k = v k) →
      ((List.range n).map u).sum = ((List.range n).map v).sum := by
    intro n
    induction n with
    | zero => intro _; rfl
    | succ m ih =>
      intro h
      rw [List.range_succ, List.map_append, List.sum_append, List.map_append, List.sum_append,
        ih (fun k hk => h k (by omega))]
      simp [h m (by omega)]
  intro n
  induction n with
  | zero => intro hi; omega
  | succ m ih =>
    intro hi h
    rw [List.range_succ, List.map_append, List.sum_append, List.map_append, List.sum_append]
    simp only [List.map_cons, List.map_nil, List.sum_cons, List.sum_nil, Nat.add_zero]
    by_cases him : i = m
    · subst him
      have := hsame i (fun k hk => h k (by omega) (by omega))
      omega
    · have h1 := ih (by omega) (fun k hk hne => h k (by omega) hne)
      have h2 := h m (by omega) (fun e => him e.symm)
      omega

set_option maxRecDepth 100000 in
/-- Flipping one bit of a byte moves its nibble sum by a power of two below
16; a bit of the high nibble leaves the low nibble alone. -/
theorem byte_flip_nibbles : ∀ b, b < 256 → ∀ j, j < 8 →
    ((b ^^^ 2 ^ j) % 16 + (b ^^^ 2 ^ j) / 16) % 16 ≠ (b % 16 + b / 16) % 16 ∧
    (j < 4 ∨ ((b ^^^ 2 ^ j) % 16 = b % 16 ∧ ((b ^^^ 2 ^ j) / 16) % 16 ≠ (b / 16) % 16)) := by
  decide

set_option maxRecDepth 100000 in
/-- Flipping one bit of a byte moves its bit count by one. -/
theorem byte_flip_popcount : ∀ b, b < 256 → ∀ j, j < 8 →
    (popcount8 (b ^^^ 2 ^ j) = popcount8 b + 1 ∨ popcount8 (b ^^^ 2 ^ j) + 1 = popcount8 b) := by
  decide

set_option maxRecDepth 100000 in
/-- Flipping one of the low six bits of a byte leaves its top two bits alone
and moves the bit count of the low six bits by one. -/
theorem byte_flip_low6 : ∀ b, b < 256 → ∀ j, j < 6 →
    (b ^^^ 2 ^ j) / 64 = b / 64 ∧
    (popcount8 ((b ^^^ 2 ^ j) &&& 0x3F) = popcount8 (b &&& 0x3F) + 1 ∨
      popcount8 ((b ^^^ 2 ^ j) &&& 0x3F) + 1 = popcount8 (b &&& 0x3F)) := by
  decide

/-- Bit count of the payload with the checksum and counter bits cleared. -/
theorem bit_count_902_le (p : CANPacket_t) : bit_count_902 p ≤ 56 := by
  have hb : ∀ i, GET_BYTE p i < 256 := GET_BYTE_lt p
  have e0 := popcount8_le (GET_BYTE p 0)
  have e2 := popcount8_le (GET_BYTE p 2)
  have e4 := popcount8_le (GET_BYTE p 4)
  have e6 := popcount8_le (GET_BYTE p 6)
  have o1 := (byte_popcount _ (hb 1)).2.2
  have o3 := (byte_popcount _ (hb 3)).2.2
  have o5 := (byte_popcount _ (hb 5)).2.2
  have o7 := (byte_popcount _ (hb 7)).2.2
  simp [bit_count_902, masked_byte_902, List.range_succ]
  omega

/-- A bit count that moves by one changes the checksum of address 902. -/
theorem xor_checksum_step : ∀ n, n ≤ 56 →
    (((n + 1) ^^^ 9) &&& 15) % 256 ≠ ((n ^^^ 9) &&& 15) % 256 := by
  decide


/-- The nibble term of a byte depends on that byte only. -/
theorem nibble_term_same_byte (addr : Nat) (f g : CANPacket_t) (k : Nat)
    (h : GET_BYTE g k = GET_BYTE f k) : nibble_term addr g k = nibble_term addr f k := by
  simp only [nibble_term, h]

/-- The masked byte of address 902 depends on that byte only. -/
theorem masked_byte_same_byte (f g : CANPacket_t) (k : Nat)
    (h : GET_BYTE g k = GET_BYTE f k) : masked_byte_902 g k = masked_byte_902 f k := by
  simp only [masked_byte_902, h]

/-- A bit flip outside the checksum nibble of address 608 changes the computed
checksum and keeps the extracted one. -/
theorem bit_flip_608 (f g : CANPacket_t) (i j : Nat) (hi : i < 8) (hj : j < 8)
    (hflip : flips_bit f g i j) (ha : GET_ADDR f = 608) (hout : ¬ (i = 7 ∧ j < 4)) :
    hyundai_community_get_checksum g = hyundai_community_get_checksum f ∧
    hyundai_community_compute_checksum g ≠ hyundai_community_compute_checksum f := by
  obtain ⟨hga, hbi, hrest⟩ := hflip
  have hga' : GET_ADDR g = 608 := hga.trans ha
  have bf := GET_BYTE_lt f
  have bg := GET_BYTE_lt g
  obtain ⟨n1, n2⟩ := byte_flip_nibbles (GET_BYTE f i) (bf i) j hj
  rw [← hbi] at n1 n2
  have hsum := sum_range_update (nibble_term 608 g) (nibble_term 608 f) i 8 hi
    (fun k hk hne => nibble_term_same_byte 608 f g k (hrest k hk hne))
  rw [← sum_nibbles_loop_608 g 8 (le_refl 8), ← sum_nibbles_loop_608 f 8 (le_refl 8)] at hsum
  have m7g := (byte_masks _ (bg 7)).2.1
  have m7f := (byte_masks _ (bf 7)).2.1
  have hterm : nibble_term 608 g i % 16 ≠ nibble_term 608 f i % 16 := by
    rw [nibble_term_608, nibble_term_608]
    by_cases h7 : i = 7
    · subst h7
      rw [if_pos rfl, if_pos rfl]
      rcases n2 with h | h
      · exact absurd ⟨rfl, h⟩ hout
      · exact h.2
    · rw [if_neg h7, if_neg h7]
      exact n1
  have hget : hyundai_community_get_checksum g = hyundai_community_get_checksum f := by
    simp only [hyundai_community_get_checksum, hga', ha, if_true, m7g, m7f]
    by_cases h7 : i = 7
    · subst h7
      rcases n2 with h | h
      · exact absurd ⟨rfl, h⟩ hout
      · rw [h.1]
    · rw [hrest 7 (by omega) (fun e => h7 e.symm)]
  refine ⟨hget, ?_⟩
  simp only [hyundai_community_compute_checksum, hga', ha]
  simp only [show ¬ (608 = 902) by decide, if_false]
  omega

/-- A bit flip outside the checksum and counter bits of address 902 changes
the computed checksum and keeps the extracted one. -/
theorem bit_flip_902 (f g : CANPacket_t) (i j : Nat) (hi : i < 8) (hj : j < 8)
    (hflip : flips_bit f g i j) (ha : GET_ADDR f = 902)
    (hout : ¬ ((i = 1 ∨ i = 3 ∨ i = 5 ∨ i = 7) ∧ 6 ≤ j)) :
    hyundai_community_get_checksum g = hyundai_community_get_checksum f ∧
    hyundai_community_compute_checksum g ≠ hyundai_community_compute_checksum f := by
  obtain ⟨hga, hbi, hrest⟩ := hflip
  have hga' : GET_ADDR g = 902 := hga.trans ha
  have bf := GET_BYTE_lt f
  have hsum := sum_range_update (fun k => popcount8 (masked_byte_902 g k))
    (fun k => popcount8 (masked_byte_902 f k)) i 8 hi
    (fun k hk hne => by
      simp only
      rw [masked_byte_same_byte f g k (hrest k hk hne)])
  simp only at hsum
  have hNg : bit_count_902 g = ((List.range 8).map fun k =>
      popcount8 (masked_byte_902 g k)).sum := rfl
  have hNf : bit_count_902 f = ((List.range 8).map fun k =>
      popcount8 (masked_byte_902 f k)).sum := rfl
  rw [← hNg, ← hNf] at hsum
  have hstep : popcount8 (masked_byte_902 g i) = popcount8 (masked_byte_902 f i) + 1 ∨
      popcount8 (masked_byte_902 g i) + 1 = popcount8 (masked_byte_902 f i) := by
    by_cases hodd : i = 1 ∨ i = 3 ∨ i = 5 ∨ i = 7
    · have hj6 : j < 6 := by
        by_contra hn
        exact hout ⟨hodd, by omega⟩
      have h := (byte_flip_low6 (GET_BYTE f i) (bf i) j hj6).2
      rw [← hbi] at h
      simp only [masked_byte_902, hodd, if_true]
      exact h
    · have h := byte_flip_popcount (GET_BYTE f i) (bf i) j hj
      rw [← hbi] at h
      simp only [masked_byte_902, hodd, if_false]
      exact h
  have hleg := bit_count_902_le g
  have hlef := bit_count_902_le f
  have hget : hyundai_community_get_checksum g = hyundai_community_get_checksum f := by
    rw [get_checksum_902 g hga', get_checksum_902 f ha]
    have key : ∀ k, k = 5 ∨ k = 7 → GET_BYTE g k / 64 = GET_BYTE f k / 64 := by
      intro k hk
      by_cases hki : k = i
      · subst hki
        have hj6 : j < 6 := by
          by_contra hn
          exact hout ⟨by omega, by omega⟩
        have h := (byte_flip_low6 (GET_BYTE f k) (bf k) j hj6).1
        rw [← hbi] at h
        exact h
      · rw [hrest k (by omega) hki]
    rw [key 5 (Or.inl rfl), key 7 (Or.inr rfl)]
  refine ⟨hget, ?_⟩
  simp only [hyundai_community_compute_checksum, hga', ha, if_true, count_bits_loop_8]
  rcases hstep with h | h
  · have e : bit_count_902 g = bit_count_902 f + 1 := by omega
    rw [e]
    exact xor_checksum_step _ (by omega)
  · have e : bit_count_902 f = bit_count_902 g + 1 := by omega
    rw [e]
    exact fun hx => xor_checksum_step _ (by omega) hx.symm

/-- C22: single-bit corruption is detected.  For a frame of address 608 whose
extracted checksum equals its computed checksum, flipping any one payload bit
outside the checksum nibble (low nibble of byte 7) gives a frame whose
extracted and computed checksums differ; for such a frame of address 902,
flipping any one payload bit outside the checksum and counter positions (top
two bits of bytes 1, 3, 5, 7) does the same. -/
theorem single_bit_flip_detected (f g : CANPacket_t) (i j : Nat) (hi : i < 8) (hj : j < 8)
    (hvalid : hyundai_community_get_checksum f = hyundai_community_compute_checksum f)
    (hflip : flips_bit f g i j) :
    (GET_ADDR f = 608 → ¬ (i = 7 ∧ j < 4) →
      hyundai_community_get_checksum g ≠ hyundai_community_compute_checksum g) ∧
    (GET_ADDR f = 902 → ¬ ((i = 1 ∨ i = 3 ∨ i = 5 ∨ i = 7) ∧ 6 ≤ j) →
      hyundai_community_get_checksum g ≠ hyundai_community_compute_checksum g) := by
  constructor
  · intro ha hout
    obtain ⟨h1, h2⟩ := bit_flip_608 f g i j hi hj hflip ha hout
    rw [h1, hvalid]
    exact fun h => h2 h.symm
  · intro ha hout
    obtain ⟨h1, h2⟩ := bit_flip_902 f g i j hi hj hflip ha hout
    rw [h1, hvalid]
    exact fun h => h2 h.symm

theorem single_bit_flip_detected_witness :
    hyundai_community_get_checksum ems16_bit_flipped ≠
      hyundai_community_compute_checksum ems16_bit_flipped :=
  (single_bit_flip_detected ems16_valid ems16_bit_flipped 0 1 (by decide) (by decide)
    (by decide) ⟨rfl, by decide, by
      intro k hk hne
      interval_cases k <;> first | exact absurd rfl hne | decide⟩).1 rfl (by decide)

end HyundaiCommunity
